import Mathlib

/-!
Quay operator: validation of a QuayEcosystem configuration.

Shallow embedding of `pkg/controller/quayecosystem/validation/validate.go`.

Conventions of the embedding.

* A Go `string` and a Go `[]byte` are both finite byte sequences; both are `List UInt8`, the
  conversion `string(b)` is the identity and `len` is `List.length`.  A nil `[]byte` and an empty
  one are both `[]` (the source never tells them apart).
* A Go `map[string]V` is an association list; the order of the list stands for the order in which
  one `range` over the map visits it, and `m[k]` is `List.lookup`.
* A pointer whose nil-ness the source tests is an `Option`; `DeepCopy` of a value is the value.
* `Validate` mutates `*quayConfiguration` in place; the embedding passes the configuration through
  and returns the final one next to `(bool, error)`.
* Calls to `logging.Log.Error` have no effect on any returned value and are left out.
* Constants, types and helpers of other packages that the file uses but does not declare are
  fields of `Pkg` (taken as parameters) or carry a doc comment saying what they are modelled from.
-/

namespace Validation

/-- Go `string`: a byte sequence. -/
abbrev GoString := List UInt8

/-- Go `[]byte`. -/
abbrev Bytes := List UInt8

/-- A Go string literal, as its UTF-8 bytes. -/
def str (s : String) : GoString := s.toUTF8.data.toList

/-- Go `error` values that occur here: what the client or a parser returned, or the result of
`fmt.Errorf`.  `isNotFound` is the answer of `errors.IsNotFound`. -/
structure GoError where
  msg : GoString
  isNotFound : Bool
deriving DecidableEq

/-- The error built by `fmt.Errorf` with the formatted message `msg`. -/
def Errorf (msg : GoString) : GoError := { msg := msg, isNotFound := false }

/-- The part of `corev1.Secret` that is read: `Data map[string][]byte`. -/
structure Secret where
  Data : List (GoString × Bytes)
deriving DecidableEq

/-- Go `secret.Data[key]` in value position: the zero value (nil) when the key is absent. -/
def Secret.get (secret : Secret) (key : GoString) : Bytes :=
  (secret.Data.lookup key).getD []

/-- Go `_, found := secret.Data[key]`. -/
def Secret.found (secret : Secret) (key : GoString) : Bool :=
  (secret.Data.lookup key).isSome

/-- The secret store as `validateSecret` uses it: `client.Get` for a `corev1.Secret` under
`types.NamespacedName{Namespace, Name}`, which fills the secret or returns an error. -/
structure Client where
  Get : GoString → GoString → Except GoError Secret

/-- The dynamic type of the `requiredParameters interface{}` argument of `validateSecret`:
the nil interface, a `map[string]string`, a `[]string`, or a value of any other kind. -/
inductive RequiredParameters where
  | nil
  | map (m : List (GoString × GoString))
  | slice (s : List GoString)
  | other
deriving DecidableEq

/-- Dereference of the `*corev1.Secret` returned by `validateSecret`.  The callers dereference it
only after `err == nil` and `valid`, where it is never nil (`validateSecret_valid_some`). -/
def Secret.deref : Option Secret → Secret
  | some secret => secret
  | none => { Data := [] }

/-- Lines 551-561: every key of the map is a key of `secret.Data`. -/
def validateProvidedSecretMap (secret : Secret) (requiredParameters : List (GoString × GoString)) : Bool :=
  match requiredParameters with
  | [] => true
  | (key, _) :: rest =>
    if !secret.found key then false else validateProvidedSecretMap secret rest

/-- Lines 563-573: every element of the slice is a key of `secret.Data`. -/
def validateProvidedSecretSlice (secret : Secret) (requiredParameters : List GoString) : Bool :=
  match requiredParameters with
  | [] => true
  | value :: rest =>
    if !secret.found value then false else validateProvidedSecretSlice secret rest

/-- Lines 517-549.  The result is the Go triple `(bool, *corev1.Secret, error)`. -/
def validateSecret (client : Client) (ns name : GoString)
    (requiredParameters : RequiredParameters) : Bool × Option Secret × Option GoError :=
  match client.Get ns name with
  | .error err =>
    if err.isNotFound then (false, none, some err)
    else (false, none, some err)
  | .ok secret =>
    if requiredParameters ≠ RequiredParameters.nil then
      let validSecret := false
      let validSecret :=
        match requiredParameters with
        | .map m => validateProvidedSecretMap secret m
        | _ => validSecret
      let validSecret :=
        match requiredParameters with
        | .slice s => validateProvidedSecretSlice secret s
        | _ => validSecret
      if !validSecret then
        (false, some secret, some (Errorf
          (str "Failed to validate provided secret with required parameters. Namespace: "
            ++ ns ++ str ", Name: " ++ name)))
      else (true, some secret, none)
    else (true, some secret, none)

/-- Result of `time.ParseDuration`: a `time.Duration`, in nanoseconds. -/
abbrev Duration := Int

/-- What `validate.go` takes from other packages without declaring it: the key names and
required-key sets of package `constants`, the string constants of the API package
`redhatcopv1alpha1` and of `corev1`, and the two parsers `resource.ParseQuantity` (of which only
the error is used) and `time.ParseDuration`.  A required-key set is passed to `validateSecret` as
an `interface{}`, so each is a `RequiredParameters`.  `GoogleCloudSecretKey` is declared next to
`GoogleCloudAccessKey`; `validate.go` does not mention it. -/
structure Pkg where
  DefaultQuaySuperuserCredentials : RequiredParameters
  InitialQuaySuperuserEmailKey : GoString
  InitialQuaySuperuserUsernameKey : GoString
  InitialQuaySuperuserPasswordKey : GoString
  DefaultQuayConfigCredentials : RequiredParameters
  QuayConfigPasswordKey : GoString
  RedisPasswordKey : GoString
  RequiredDatabaseCredentialKeys : RequiredParameters
  DatabaseCredentialsUsernameKey : GoString
  DatabaseCredentialsPasswordKey : GoString
  DatabaseCredentialsDatabaseKey : GoString
  DatabaseCredentialsServerKey : GoString
  DatabaseCredentialsRootPasswordKey : GoString
  RequiredS3CredentialKeys : RequiredParameters
  S3AccessKey : GoString
  S3SecretKey : GoString
  RequiredAzureCredentialKeys : RequiredParameters
  AzureAccountName : GoString
  AzureAccountKey : GoString
  AzureSasToken : GoString
  RequiredGoogleCloudCredentialKeys : RequiredParameters
  GoogleCloudAccessKey : GoString
  GoogleCloudSecretKey : GoString
  RequiredRHOCSCredentialKeys : RequiredParameters
  RHOCSAccessKey : GoString
  RHOCSSecretKey : GoString
  RequiredRADOSCredentialKeys : RequiredParameters
  RADOSAccessKey : GoString
  RADOSSecretKey : GoString
  RequiredSwiftCredentialKeys : RequiredParameters
  SwiftUser : GoString
  SwiftPassword : GoString
  RequiredCloudfrontS3CredentialKeys : RequiredParameters
  CloudfrontS3AccessKey : GoString
  CloudfrontS3SecretKey : GoString
  RequiredSslCertificateKeys : RequiredParameters
  TLSCertKey : GoString
  TLSPrivateKeyKey : GoString
  ConfigConfigFileType : GoString
  NodePortExternalAccessType : GoString
  IngressExternalAccessType : GoString
  RouteExternalAccessType : GoString
  ParseQuantity : GoString → Option GoError
  ParseDuration : GoString → Except GoError Duration

/-- `redhatcopv1alpha1.ConfigFileType`, a string type. -/
abbrev ConfigFileType := GoString

/-- `redhatcopv1alpha1.ConfigFile`: the fields `validateConfigFiles` reads and writes.
`Type_` is the Go field `Type` and `ns` below is the Go parameter `namespace` (both words are
reserved in Lean). -/
structure ConfigFile where
  Type_ : ConfigFileType
  Key : GoString
  Filename : GoString
  SecretContent : Bytes
deriving DecidableEq

/-- `redhatcopv1alpha1.ConfigFiles`.  `Files` is a slice of `ConfigFile` values: line 606 appends
a `ConfigFile` composite literal to it. -/
structure ConfigFiles where
  SecretName : GoString
  Files : List ConfigFile
  Type_ : ConfigFileType
deriving DecidableEq

/-- Modelled from the spec: the method `ConfigFiles.GetKeys` is declared with the API types,
outside the source tree; the spec (4.3, step 2) has the resolver use "the explicit file list's key
names as the required-key set if the caller supplied one, otherwise an empty required-key set".
The result is a `[]string`. -/
def ConfigFiles.GetKeys (configFiles : ConfigFiles) : List GoString :=
  configFiles.Files.map (fun configFile => configFile.Key)

/-- Modelled from the spec: `utils.IsZeroOfUnderlyingType` is declared outside the source tree;
the spec reads each use as "if named", "if set", "non-empty", that is: the argument is the zero
value of its type.  One instance per argument type. -/
class GoZero (α : Type) where
  isZero : α → Bool

/-- Strings and slices: the zero value is the empty string, resp. the nil slice (the embedding
does not tell a nil slice from an empty one; the source treats both alike, see lines 188 and 597). -/
instance instGoZeroList {α : Type} : GoZero (List α) where
  isZero := fun l => l.isEmpty

/-- Pointers: the zero value is nil. -/
instance instGoZeroOption {α : Type} : GoZero (Option α) where
  isZero := fun o => o.isNone

/-- Modelled from the spec: see `GoZero`. -/
def IsZeroOfUnderlyingType {α : Type} [GoZero α] (x : α) : Bool := GoZero.isZero x

/-- Lines 614-626, the body of `for _, managedConfigFile := range managedConfigFiles.Files`:
the value of the loop variable when the body ends. -/
def explicitFileBody (K : Pkg) (configFilesSecret : Secret)
    (configFiles : ConfigFiles) (managedConfigFile : ConfigFile) : ConfigFile :=
  let fileType := K.ConfigConfigFileType
  let fileType :=
    if !IsZeroOfUnderlyingType managedConfigFile.Type_ then managedConfigFile.Type_
    else if !IsZeroOfUnderlyingType configFiles.Type_ then configFiles.Type_
    else fileType
  let managedConfigFile := { managedConfigFile with Type_ := fileType }
  let managedConfigFile :=
    { managedConfigFile with SecretContent := configFilesSecret.get managedConfigFile.Key }
  managedConfigFile

/-- Go `for _, v := range files { body }` over a slice of struct values, for a body that assigns
only to fields of `v`: `v` is a fresh copy of each element, so the body runs once per element and
the slice is left as it was. -/
def rangeByValue (files : List ConfigFile) (body : ConfigFile → ConfigFile) : List ConfigFile :=
  (files.foldl (fun (acc : List ConfigFile × List ConfigFile) v => (acc.1, body v :: acc.2))
    (files, [])).1

/-- Lines 598-612, `for secretDataFileKey, secretDataFileValue := range configFilesSecret.Data`:
one `ConfigFile` is appended to `managedConfigFiles.Files` per entry of the map. -/
def appendAllSecretFiles (K : Pkg) (configFiles managedConfigFiles : ConfigFiles)
    (data : List (GoString × Bytes)) : ConfigFiles :=
  data.foldl (fun managed kv =>
    let fileType := K.ConfigConfigFileType
    let fileType := if !IsZeroOfUnderlyingType managed.Type_ then configFiles.Type_ else fileType
    { managed with Files := managed.Files ++
        [{ Type_ := fileType, Key := kv.1, Filename := kv.1, SecretContent := kv.2 }] })
    managedConfigFiles

/-- Lines 579-631: the loop of `validateConfigFiles` over the remaining input, with the output
accumulated so far.  `.error e` is the Go result `(nil, e)`, `.ok out` is `(out, nil)`. -/
def validateConfigFilesLoop (K : Pkg) (client : Client) (ns : GoString) :
    List ConfigFiles → List ConfigFiles → Except GoError (List ConfigFiles)
  | [], outputConfigFiles => .ok outputConfigFiles
  | configFiles :: rest, outputConfigFiles =>
    let managedConfigFiles := configFiles
    if managedConfigFiles.SecretName = [] then
      .error (Errorf (str "Failed to validate provided config files. `secretName` must not be empty"))
    else
      match validateSecret client ns managedConfigFiles.SecretName
          (.slice managedConfigFiles.GetKeys) with
      | (_, _, some err) => .error err
      | (validConfigFilesSecret, configFilesSecret, none) =>
        if !validConfigFilesSecret then
          .error (Errorf (str "Failed to validate required provided config file parameters. Invalid Secret Name: "
            ++ managedConfigFiles.SecretName))
        else
          let managedConfigFiles :=
            if IsZeroOfUnderlyingType managedConfigFiles.Files || managedConfigFiles.Files.length = 0 then
              appendAllSecretFiles K configFiles managedConfigFiles
                (Secret.deref configFilesSecret).Data
            else
              { managedConfigFiles with
                Files := rangeByValue managedConfigFiles.Files
                  (explicitFileBody K (Secret.deref configFilesSecret) configFiles) }
          validateConfigFilesLoop K client ns rest
            (outputConfigFiles ++ [managedConfigFiles])

/-- Lines 575-634. -/
def validateConfigFiles (K : Pkg) (client : Client) (ns : GoString)
    (inputConfigFiles : List ConfigFiles) : Except GoError (List ConfigFiles) :=
  validateConfigFilesLoop K client ns inputConfigFiles []

/-- Stand-in for `corev1.Probe`; `Validate` only ever sets a probe pointer to nil. -/
structure Probe where
  raw : GoString
deriving DecidableEq

/-- `redhatcopv1alpha1.Database`: the fields `Validate` reads and writes.  The descriptor is held
by value, a nil descriptor being the zero value: `Spec.Quay.Database` is dereferenced without a
test (lines 114, 167), and every test `!IsZeroOfUnderlyingType(Database)` stands in a conjunction
with a non-empty field of the descriptor, so a pointer and a value give the same guards. -/
structure Database where
  ImagePullSecretName : GoString
  Server : GoString
  CredentialsSecretName : GoString
  VolumeSize : GoString
  Image : GoString
  DeploymentStrategy : GoString
  ReadinessProbe : Option Probe
  LivenessProbe : Option Probe
deriving DecidableEq

/-- The zero value of `Database`. -/
def Database.zero : Database :=
  { ImagePullSecretName := [], Server := [], CredentialsSecretName := [], VolumeSize := [],
    Image := [], DeploymentStrategy := [], ReadinessProbe := none, LivenessProbe := none }

/-- A database descriptor is zero when it equals the zero value. -/
instance instGoZeroDatabase : GoZero Database where
  isZero := fun d => decide (d = Database.zero)

/-- `redhatcopv1alpha1.RegistryStorage`, behind a pointer in `Quay`. -/
structure RegistryStorage where
  PersistentVolumeSize : GoString
deriving DecidableEq

/-- Local registry backend source. -/
structure LocalRegistryBackendSource where
  StoragePath : GoString
deriving DecidableEq

/-- S3 registry backend source. -/
structure S3RegistryBackendSource where
  StoragePath : GoString
  BucketName : GoString
  AccessKey : GoString
  SecretKey : GoString
deriving DecidableEq

/-- Azure registry backend source. -/
structure AzureRegistryBackendSource where
  StoragePath : GoString
  ContainerName : GoString
  AccountName : GoString
  AccountKey : GoString
  SasToken : GoString
deriving DecidableEq

/-- Google Cloud registry backend source. -/
structure GoogleCloudRegistryBackendSource where
  StoragePath : GoString
  BucketName : GoString
  AccessKey : GoString
  SecretKey : GoString
deriving DecidableEq

/-- RHOCS registry backend source. -/
structure RHOCSRegistryBackendSource where
  StoragePath : GoString
  BucketName : GoString
  AccessKey : GoString
  SecretKey : GoString
deriving DecidableEq

/-- RADOS registry backend source. -/
structure RADOSRegistryBackendSource where
  StoragePath : GoString
  BucketName : GoString
  AccessKey : GoString
  SecretKey : GoString
deriving DecidableEq

/-- Swift registry backend source. -/
structure SwiftRegistryBackendSource where
  StoragePath : GoString
  Container : GoString
  User : GoString
  Password : GoString
deriving DecidableEq

/-- Cloudfront S3 registry backend source. -/
structure CloudfrontS3RegistryBackendSource where
  StoragePath : GoString
  BucketName : GoString
  AccessKey : GoString
  SecretKey : GoString
deriving DecidableEq

/-- `redhatcopv1alpha1.RegistryBackend`: a name, a credential-secret reference and one pointer
per backend variant (the source tests each against nil). -/
structure RegistryBackend where
  Name : GoString
  CredentialsSecretName : GoString
  Local : Option LocalRegistryBackendSource
  S3 : Option S3RegistryBackendSource
  Azure : Option AzureRegistryBackendSource
  GoogleCloud : Option GoogleCloudRegistryBackendSource
  RHOCS : Option RHOCSRegistryBackendSource
  RADOS : Option RADOSRegistryBackendSource
  Swift : Option SwiftRegistryBackendSource
  CloudfrontS3 : Option CloudfrontS3RegistryBackendSource
deriving DecidableEq

/-- TLS part of the external access descriptor. -/
structure TLSExternalAccess where
  SecretName : GoString
deriving DecidableEq

/-- `redhatcopv1alpha1.ExternalAccess` (`Type_` is the Go field `Type`). -/
structure ExternalAccess where
  Type_ : GoString
  Hostname : GoString
  TLS : TLSExternalAccess
deriving DecidableEq

/-- `redhatcopv1alpha1.Quay`: the fields `Validate` reads and writes. -/
structure Quay where
  SuperuserCredentialsSecretName : GoString
  SkipSetup : Bool
  ConfigSecretName : GoString
  ImagePullSecretName : GoString
  Database : Database
  RegistryStorage : Option RegistryStorage
  ConfigFiles : List ConfigFiles
  ExternalAccess : ExternalAccess
  EnableStorageReplication : Bool
  RegistryBackends : List RegistryBackend
deriving DecidableEq

/-- `redhatcopv1alpha1.Redis`. -/
structure Redis where
  ImagePullSecretName : GoString
  CredentialsSecretName : GoString
deriving DecidableEq

/-- `redhatcopv1alpha1.Clair`. -/
structure Clair where
  Enabled : Bool
  ImagePullSecretName : GoString
  UpdateInterval : GoString
  Database : Database
  ConfigFiles : List ConfigFiles
deriving DecidableEq

/-- `redhatcopv1alpha1.QuayEcosystemSpec`; `Clair` is a pointer tested against nil (line 433). -/
structure QuayEcosystemSpec where
  Quay : Quay
  Redis : Redis
  Clair : Option Clair
deriving DecidableEq

/-- `redhatcopv1alpha1.QuayEcosystemStatus`. -/
structure QuayEcosystemStatus where
  SetupComplete : Bool
deriving DecidableEq

/-- `redhatcopv1alpha1.QuayEcosystem`: the request. -/
structure QuayEcosystem where
  Namespace : GoString
  Spec : QuayEcosystemSpec
  Status : QuayEcosystemStatus
deriving DecidableEq

/-- `resources.DatabaseConfig`: resolved database credentials. -/
structure DatabaseConfig where
  Username : GoString
  Password : GoString
  Database : GoString
  Server : GoString
  RootPassword : GoString
deriving DecidableEq

/-- `resources.QuayConfiguration`: the request (`QuayEcosystem`) and the output fields that
`Validate` reads and writes. -/
structure QuayConfiguration where
  QuayEcosystem : QuayEcosystem
  InitialQuaySuperuserEmail : GoString
  InitialQuaySuperuserUsername : GoString
  InitialQuaySuperuserPassword : GoString
  ValidProvidedInitialQuaySuperuserSecret : Bool
  QuayConfigPassword : GoString
  QuayConfigPasswordSecret : GoString
  ValidProvidedQuayConfigPasswordSecret : Bool
  RedisPassword : GoString
  ValidProvidedRedisPasswordSecret : Bool
  QuayDatabase : DatabaseConfig
  ValidProvidedQuayDatabaseSecret : Bool
  QuayConfigFiles : List ConfigFiles
  IsOpenShift : Bool
  RegistryBackends : List RegistryBackend
  QuaySslCertificate : Bytes
  QuaySslPrivateKey : Bytes
  ClairUpdateInterval : Duration
  ClairDatabase : DatabaseConfig
  ValidProvidedClairDatabaseSecret : Bool
  ClairConfigFiles : List ConfigFiles
deriving DecidableEq

/-- One stretch of the body of `Validate`: the configuration after it, and `some err` when the
stretch executed `return false, err`. -/
abbrev Block := QuayConfiguration → QuayConfiguration × Option GoError

/-- Sequencing of stretches: the first `return` ends the function. -/
def runBlocks : List Block → Block
  | [], q => (q, none)
  | block :: rest, q =>
    match block q with
    | (q1, none) => runBlocks rest q1
    | (q1, some err) => (q1, some err)

/-- Lines 26-43: initial superuser credentials secret. -/
def validateSuperuserCredentials (K : Pkg) (client : Client) : Block := fun q =>
  if !IsZeroOfUnderlyingType q.QuayEcosystem.Spec.Quay.SuperuserCredentialsSecretName
      && !q.QuayEcosystem.Spec.Quay.SkipSetup && !q.QuayEcosystem.Status.SetupComplete then
    match validateSecret client q.QuayEcosystem.Namespace
        q.QuayEcosystem.Spec.Quay.SuperuserCredentialsSecretName K.DefaultQuaySuperuserCredentials with
    | (_, _, some err) => (q, some err)
    | (validQuaySuperuserSecret, superuserSecret, none) =>
      if !validQuaySuperuserSecret then
        (q, some (Errorf (str "Failed to validate provided Quay Superuser Secret")))
      else
        ({ q with
            InitialQuaySuperuserEmail := (Secret.deref superuserSecret).get K.InitialQuaySuperuserEmailKey
            InitialQuaySuperuserUsername := (Secret.deref superuserSecret).get K.InitialQuaySuperuserUsernameKey
            InitialQuaySuperuserPassword := (Secret.deref superuserSecret).get K.InitialQuaySuperuserPasswordKey
            ValidProvidedInitialQuaySuperuserSecret := true }, none)
  else (q, none)

/-- Lines 45-47: superuser password length. -/
def validateSuperuserPassword : Block := fun q =>
  if q.InitialQuaySuperuserPassword.length < 8 then
    (q, some (Errorf (str "Quay Superuser Password Must Be At Least 8 Characters in Length")))
  else (q, none)

/-- Lines 49-65: Quay config secret. -/
def validateConfigSecret (K : Pkg) (client : Client) : Block := fun q =>
  if !IsZeroOfUnderlyingType q.QuayEcosystem.Spec.Quay.ConfigSecretName then
    match validateSecret client q.QuayEcosystem.Namespace
        q.QuayEcosystem.Spec.Quay.ConfigSecretName K.DefaultQuayConfigCredentials with
    | (_, _, some err) => (q, some err)
    | (validQuayConfigSecret, quayConfigSecret, none) =>
      if !validQuayConfigSecret then
        (q, some (Errorf (str "Failed to validate provided Quay Config Secret")))
      else
        ({ q with
            QuayConfigPassword := (Secret.deref quayConfigSecret).get K.QuayConfigPasswordKey
            QuayConfigPasswordSecret := q.QuayEcosystem.Spec.Quay.ConfigSecretName
            ValidProvidedQuayConfigPasswordSecret := true }, none)
  else (q, none)

/-- The shape shared by lines 67-80, 82-94, 113-125 and 435-448: an image pull secret, when named,
must exist (`requiredParameters` is nil); `failure` is the message of the `!valid` return. -/
def validateImagePullSecret (client : Client) (imagePullSecretName : QuayConfiguration → GoString)
    (failure : String) : Block := fun q =>
  if !IsZeroOfUnderlyingType (imagePullSecretName q) then
    match validateSecret client q.QuayEcosystem.Namespace (imagePullSecretName q) .nil with
    | (_, _, some err) => (q, some err)
    | (validImagePullSecret, _, none) =>
      if !validImagePullSecret then (q, some (Errorf (str failure)))
      else (q, none)
  else (q, none)

/-- Lines 67-80: Quay image pull secret. -/
def validateQuayImagePullSecret (client : Client) : Block :=
  validateImagePullSecret client (fun q => q.QuayEcosystem.Spec.Quay.ImagePullSecretName)
    "Failed to validate provided Quay Image Pull Secret"

/-- Lines 82-94: Redis image pull secret. -/
def validateRedisImagePullSecret (client : Client) : Block :=
  validateImagePullSecret client (fun q => q.QuayEcosystem.Spec.Redis.ImagePullSecretName)
    "Failed to validate provided Redis Image Pull Secret"

/-- Lines 96-111: Redis credentials secret. -/
def validateRedisCredentials (K : Pkg) (client : Client) : Block := fun q =>
  if !IsZeroOfUnderlyingType q.QuayEcosystem.Spec.Redis.CredentialsSecretName then
    match validateSecret client q.QuayEcosystem.Namespace
        q.QuayEcosystem.Spec.Redis.CredentialsSecretName (.slice [K.RedisPasswordKey]) with
    | (_, _, some err) => (q, some err)
    | (validRedisCredentialSecret, redisSecret, none) =>
      if !validRedisCredentialSecret then
        (q, some (Errorf (str "Failed to validate provided Redis Credentials Secret")))
      else
        ({ q with
            RedisPassword := (Secret.deref redisSecret).get K.RedisPasswordKey
            ValidProvidedRedisPasswordSecret := true }, none)
  else (q, none)

/-- Lines 113-125: Quay database image pull secret. -/
def validateDatabaseImagePullSecret (client : Client) : Block :=
  validateImagePullSecret client (fun q => q.QuayEcosystem.Spec.Quay.Database.ImagePullSecretName)
    "Failed to validate provided Data Database Image Pull Secret"

/-- Lines 145-162 and 478-496: what a valid database credentials secret yields.  The resolved
credentials get the username, password and database name; when the secret holds the server key the
server goes to both the resolved credentials and the descriptor of the request, whose image,
deployment strategy and probes are cleared; the root password is set when its key is present. -/
def projectDatabaseSecret (K : Pkg) (databaseSecret : Secret) (config : DatabaseConfig)
    (database : Database) : DatabaseConfig × Database :=
  let config := { config with
    Username := databaseSecret.get K.DatabaseCredentialsUsernameKey
    Password := databaseSecret.get K.DatabaseCredentialsPasswordKey
    Database := databaseSecret.get K.DatabaseCredentialsDatabaseKey }
  let (config, database) :=
    if databaseSecret.found K.DatabaseCredentialsServerKey then
      ({ config with Server := databaseSecret.get K.DatabaseCredentialsServerKey },
       { database with
          Server := databaseSecret.get K.DatabaseCredentialsServerKey
          Image := []
          DeploymentStrategy := []
          ReadinessProbe := none
          LivenessProbe := none })
    else (config, database)
  let config :=
    if databaseSecret.found K.DatabaseCredentialsRootPasswordKey then
      { config with RootPassword := databaseSecret.get K.DatabaseCredentialsRootPasswordKey }
    else config
  (config, database)

/-- Lines 127-164: Quay database credentials. -/
def validateDatabaseCredentials (K : Pkg) (client : Client) : Block := fun q =>
  if !q.QuayEcosystem.Spec.Quay.SkipSetup then
    if !IsZeroOfUnderlyingType q.QuayEcosystem.Spec.Quay.Database
        && !IsZeroOfUnderlyingType q.QuayEcosystem.Spec.Quay.Database.Server
        && IsZeroOfUnderlyingType q.QuayEcosystem.Spec.Quay.Database.CredentialsSecretName then
      (q, some (Errorf
        (str "Failed to locate a Quay Database Credential for Externally Provisioned Instance")))
    else if !IsZeroOfUnderlyingType q.QuayEcosystem.Spec.Quay.Database
        && !IsZeroOfUnderlyingType q.QuayEcosystem.Spec.Quay.Database.CredentialsSecretName then
      match validateSecret client q.QuayEcosystem.Namespace
          q.QuayEcosystem.Spec.Quay.Database.CredentialsSecretName K.RequiredDatabaseCredentialKeys with
      | (_, _, some err) => (q, some err)
      | (validQuayDatabaseSecret, databaseSecret, none) =>
        if !validQuayDatabaseSecret then
          (q, some (Errorf (str "Failed to validate provided Quay Database Secret")))
        else
          let projected := projectDatabaseSecret K (Secret.deref databaseSecret) q.QuayDatabase
            q.QuayEcosystem.Spec.Quay.Database
          ({ q with
              QuayDatabase := projected.1
              QuayEcosystem.Spec.Quay.Database := projected.2
              ValidProvidedQuayDatabaseSecret := true }, none)
    else (q, none)
  else (q, none)

/-- Lines 166-174: Quay database volume size. -/
def validateDatabaseVolumeSize (K : Pkg) : Block := fun q =>
  if !IsZeroOfUnderlyingType q.QuayEcosystem.Spec.Quay.Database.VolumeSize then
    match K.ParseQuantity q.QuayEcosystem.Spec.Quay.Database.VolumeSize with
    | some err => (q, some err)
    | none => (q, none)
  else (q, none)

/-- Lines 176-185: registry storage volume size. -/
def validateRegistryStorage (K : Pkg) : Block := fun q =>
  match q.QuayEcosystem.Spec.Quay.RegistryStorage with
  | some registryStorage =>
    match K.ParseQuantity registryStorage.PersistentVolumeSize with
    | some err => (q, some err)
    | none => (q, none)
  | none => (q, none)

/-- Lines 187-198: Quay config files. -/
def validateQuayConfigFiles (K : Pkg) (client : Client) : Block := fun q =>
  if !IsZeroOfUnderlyingType q.QuayEcosystem.Spec.Quay.ConfigFiles then
    match validateConfigFiles K client q.QuayEcosystem.Namespace q.QuayEcosystem.Spec.Quay.ConfigFiles with
    | .error err => (q, some err)
    | .ok quayConfigFiles =>
      ({ q with QuayConfigFiles := q.QuayConfigFiles ++ quayConfigFiles }, none)
  else (q, none)

/-- Lines 200-203: a hostname is needed for NodePort and Ingress external access. -/
def validateHostname (K : Pkg) : Block := fun q =>
  if (K.NodePortExternalAccessType = q.QuayEcosystem.Spec.Quay.ExternalAccess.Type_
        || K.IngressExternalAccessType = q.QuayEcosystem.Spec.Quay.ExternalAccess.Type_)
      && IsZeroOfUnderlyingType q.QuayEcosystem.Spec.Quay.ExternalAccess.Hostname then
    (q, some (Errorf (str "Cannot use " ++ q.QuayEcosystem.Spec.Quay.ExternalAccess.Type_
      ++ str " External Access Type Without Hostname Defined")))
  else (q, none)

/-- Lines 205-208: Route external access needs OpenShift. -/
def validateRoute (K : Pkg) : Block := fun q =>
  if K.RouteExternalAccessType = q.QuayEcosystem.Spec.Quay.ExternalAccess.Type_
      && !q.IsOpenShift then
    (q, some (Errorf
      (str "Cannot use 'Route` as External Access Type when not running in OpenShift")))
  else (q, none)

/-- The message of lines 236 and 261. -/
def credentialsSecretFailure (name : GoString) : GoError :=
  Errorf (str "Failed to validate required credentials secret name for the provided registry backend. Name: "
    ++ name)

/-- The message of lines 251, 288, 299, 315, 326, 342, 353, 369, 380, 396 and 407. -/
def providedBackendFailure (name : GoString) : GoError :=
  Errorf (str "Failed to validate provided registry backend. Name: " ++ name)

/-- Lines 222-245: S3 backend.  `registryBackend` is the loop variable, `managed` its deep copy
`managedRegistryBackend` as the earlier stretches left it; `.error err` is `return false, err`. -/
def validateS3 (K : Pkg) (client : Client) (ns : GoString) (registryBackend managed : RegistryBackend) :
    Except GoError RegistryBackend :=
  match managed.S3 with
  | none => .ok managed
  | some s3 =>
    if s3.StoragePath = [] || s3.BucketName = [] then
      .error (Errorf (str "Failed to validate required properties for registry backend. Name: "
        ++ managed.Name))
    else if !IsZeroOfUnderlyingType managed.CredentialsSecretName then
      match validateSecret client ns registryBackend.CredentialsSecretName K.RequiredS3CredentialKeys with
      | (_, _, some err) => .error err
      | (validS3Secret, s3Secret, none) =>
        if !validS3Secret then .error (credentialsSecretFailure managed.Name)
        else
          .ok { managed with
            S3 := some { s3 with
              AccessKey := (Secret.deref s3Secret).get K.S3AccessKey
              SecretKey := (Secret.deref s3Secret).get K.S3SecretKey }
            CredentialsSecretName := [] }
    else .ok managed

/-- Lines 247-275: Azure backend. -/
def validateAzure (K : Pkg) (client : Client) (ns : GoString) (registryBackend managed : RegistryBackend) :
    Except GoError RegistryBackend :=
  match managed.Azure with
  | none => .ok managed
  | some azure =>
    if azure.StoragePath = [] || azure.ContainerName = [] then
      .error (providedBackendFailure managed.Name)
    else if !IsZeroOfUnderlyingType managed.CredentialsSecretName then
      match validateSecret client ns registryBackend.CredentialsSecretName K.RequiredAzureCredentialKeys with
      | (_, _, some err) => .error err
      | (validAzureSecret, azureSecret, none) =>
        if !validAzureSecret then .error (credentialsSecretFailure managed.Name)
        else
          let azure := { azure with
            AccountName := (Secret.deref azureSecret).get K.AzureAccountName
            AccountKey := (Secret.deref azureSecret).get K.AzureAccountKey }
          let azure :=
            if (Secret.deref azureSecret).found K.AzureSasToken then
              { azure with SasToken := (Secret.deref azureSecret).get K.AzureSasToken }
            else azure
          .ok { managed with Azure := some azure, CredentialsSecretName := [] }
    else .ok managed

/-- Lines 277-302: Google Cloud backend.  The pair in `resolved` is `managedRegistryBackend` and
its `GoogleCloud` pointee after the credentials stretch.  Line 292 reads the secret under
`constants.GoogleCloudAccessKey` for `SecretKey`, as line 291 does for `AccessKey`. -/
def validateGoogleCloud (K : Pkg) (client : Client) (ns : GoString)
    (registryBackend managed : RegistryBackend) : Except GoError RegistryBackend :=
  match managed.GoogleCloud with
  | none => .ok managed
  | some googleCloud =>
    let resolved : Except GoError (RegistryBackend × GoogleCloudRegistryBackendSource) :=
      if !IsZeroOfUnderlyingType managed.CredentialsSecretName then
        match validateSecret client ns registryBackend.CredentialsSecretName
            K.RequiredGoogleCloudCredentialKeys with
        | (_, _, some err) => .error err
        | (validGoogleCloudSecret, googleCloudSecret, none) =>
          if !validGoogleCloudSecret then .error (providedBackendFailure managed.Name)
          else
            let googleCloud := { googleCloud with
              AccessKey := (Secret.deref googleCloudSecret).get K.GoogleCloudAccessKey
              SecretKey := (Secret.deref googleCloudSecret).get K.GoogleCloudAccessKey }
            .ok ({ managed with GoogleCloud := some googleCloud, CredentialsSecretName := [] }, googleCloud)
      else .ok (managed, googleCloud)
    match resolved with
    | .error err => .error err
    | .ok (managed, googleCloud) =>
      if googleCloud.StoragePath = [] || googleCloud.BucketName = [] then
        .error (providedBackendFailure managed.Name)
      else .ok managed

/-- Lines 304-329: RHOCS backend. -/
def validateRHOCS (K : Pkg) (client : Client) (ns : GoString)
    (registryBackend managed : RegistryBackend) : Except GoError RegistryBackend :=
  match managed.RHOCS with
  | none => .ok managed
  | some rhocs =>
    let resolved : Except GoError (RegistryBackend × RHOCSRegistryBackendSource) :=
      if !IsZeroOfUnderlyingType managed.CredentialsSecretName then
        match validateSecret client ns registryBackend.CredentialsSecretName
            K.RequiredRHOCSCredentialKeys with
        | (_, _, some err) => .error err
        | (validRHOCSSecret, rhocsSecret, none) =>
          if !validRHOCSSecret then .error (providedBackendFailure managed.Name)
          else
            let rhocs := { rhocs with
              AccessKey := (Secret.deref rhocsSecret).get K.RHOCSAccessKey
              SecretKey := (Secret.deref rhocsSecret).get K.RHOCSSecretKey }
            .ok ({ managed with RHOCS := some rhocs, CredentialsSecretName := [] }, rhocs)
      else .ok (managed, rhocs)
    match resolved with
    | .error err => .error err
    | .ok (managed, rhocs) =>
      if rhocs.StoragePath = [] || rhocs.BucketName = [] then
        .error (providedBackendFailure managed.Name)
      else .ok managed

/-- Lines 331-356: RADOS backend. -/
def validateRADOS (K : Pkg) (client : Client) (ns : GoString)
    (registryBackend managed : RegistryBackend) : Except GoError RegistryBackend :=
  match managed.RADOS with
  | none => .ok managed
  | some rados =>
    let resolved : Except GoError (RegistryBackend × RADOSRegistryBackendSource) :=
      if !IsZeroOfUnderlyingType managed.CredentialsSecretName then
        match validateSecret client ns registryBackend.CredentialsSecretName
            K.RequiredRADOSCredentialKeys with
        | (_, _, some err) => .error err
        | (validRADOSSecret, radosSecret, none) =>
          if !validRADOSSecret then .error (providedBackendFailure managed.Name)
          else
            let rados := { rados with
              AccessKey := (Secret.deref radosSecret).get K.RADOSAccessKey
              SecretKey := (Secret.deref radosSecret).get K.RADOSSecretKey }
            .ok ({ managed with RADOS := some rados, CredentialsSecretName := [] }, rados)
      else .ok (managed, rados)
    match resolved with
    | .error err => .error err
    | .ok (managed, rados) =>
      if rados.StoragePath = [] || rados.BucketName = [] then
        .error (providedBackendFailure managed.Name)
      else .ok managed

/-- Lines 358-383: Swift backend. -/
def validateSwift (K : Pkg) (client : Client) (ns : GoString)
    (registryBackend managed : RegistryBackend) : Except GoError RegistryBackend :=
  match managed.Swift with
  | none => .ok managed
  | some swift =>
    let resolved : Except GoError (RegistryBackend × SwiftRegistryBackendSource) :=
      if !IsZeroOfUnderlyingType managed.CredentialsSecretName then
        match validateSecret client ns registryBackend.CredentialsSecretName
            K.RequiredSwiftCredentialKeys with
        | (_, _, some err) => .error err
        | (validSwiftSecret, swiftSecret, none) =>
          if !validSwiftSecret then .error (providedBackendFailure managed.Name)
          else
            let swift := { swift with
              User := (Secret.deref swiftSecret).get K.SwiftUser
              Password := (Secret.deref swiftSecret).get K.SwiftPassword }
            .ok ({ managed with Swift := some swift, CredentialsSecretName := [] }, swift)
      else .ok (managed, swift)
    match resolved with
    | .error err => .error err
    | .ok (managed, swift) =>
      if swift.StoragePath = [] || swift.Container = [] then
        .error (providedBackendFailure managed.Name)
      else .ok managed

/-- Lines 385-410: Cloudfront S3 backend. -/
def validateCloudfrontS3 (K : Pkg) (client : Client) (ns : GoString)
    (registryBackend managed : RegistryBackend) : Except GoError RegistryBackend :=
  match managed.CloudfrontS3 with
  | none => .ok managed
  | some cloudfrontS3 =>
    let resolved : Except GoError (RegistryBackend × CloudfrontS3RegistryBackendSource) :=
      if !IsZeroOfUnderlyingType managed.CredentialsSecretName then
        match validateSecret client ns registryBackend.CredentialsSecretName
            K.RequiredCloudfrontS3CredentialKeys with
        | (_, _, some err) => .error err
        | (validCloudfrontS3Secret, cloudfrontS3Secret, none) =>
          if !validCloudfrontS3Secret then .error (providedBackendFailure managed.Name)
          else
            let cloudfrontS3 := { cloudfrontS3 with
              AccessKey := (Secret.deref cloudfrontS3Secret).get K.CloudfrontS3AccessKey
              SecretKey := (Secret.deref cloudfrontS3Secret).get K.CloudfrontS3SecretKey }
            .ok ({ managed with CloudfrontS3 := some cloudfrontS3, CredentialsSecretName := [] }, cloudfrontS3)
      else .ok (managed, cloudfrontS3)
    match resolved with
    | .error err => .error err
    | .ok (managed, cloudfrontS3) =>
      if cloudfrontS3.StoragePath = [] || cloudfrontS3.BucketName = [] then
        .error (providedBackendFailure managed.Name)
      else .ok managed

/-- Lines 220-410: the deep copy of one declared backend run through the seven variant stretches
in source order. -/
def validateRegistryBackend (K : Pkg) (client : Client) (ns : GoString)
    (registryBackend : RegistryBackend) : Except GoError RegistryBackend :=
  let managedRegistryBackend := registryBackend
  (validateS3 K client ns registryBackend managedRegistryBackend).bind fun managed =>
  (validateAzure K client ns registryBackend managed).bind fun managed =>
  (validateGoogleCloud K client ns registryBackend managed).bind fun managed =>
  (validateRHOCS K client ns registryBackend managed).bind fun managed =>
  (validateRADOS K client ns registryBackend managed).bind fun managed =>
  (validateSwift K client ns registryBackend managed).bind fun managed =>
  validateCloudfrontS3 K client ns registryBackend managed

/-- Lines 210-414: the loop over the declared registry backends still to visit. -/
def validateRegistryBackendsLoop (K : Pkg) (client : Client) :
    List RegistryBackend → QuayConfiguration → QuayConfiguration × Option GoError
  | [], q => (q, none)
  | registryBackend :: rest, q =>
    if q.QuayEcosystem.Spec.Quay.EnableStorageReplication && registryBackend.Local.isSome then
      (q, some (Errorf
        (str "Cannot have make use of local storage when replication enabled. Local storage: "
          ++ registryBackend.Name)))
    else
      match validateRegistryBackend K client q.QuayEcosystem.Namespace registryBackend with
      | .error err => (q, some err)
      | .ok managedRegistryBackend =>
        validateRegistryBackendsLoop K client rest
          { q with RegistryBackends := q.RegistryBackends ++ [managedRegistryBackend] }

/-- Lines 210-414: registry backends. -/
def validateRegistryBackends (K : Pkg) (client : Client) : Block := fun q =>
  validateRegistryBackendsLoop K client q.QuayEcosystem.Spec.Quay.RegistryBackends q

/-- Lines 416-431: Quay SSL certificates. -/
def validateSslCertificate (K : Pkg) (client : Client) : Block := fun q =>
  if !IsZeroOfUnderlyingType q.QuayEcosystem.Spec.Quay.ExternalAccess.TLS.SecretName then
    match validateSecret client q.QuayEcosystem.Namespace
        q.QuayEcosystem.Spec.Quay.ExternalAccess.TLS.SecretName K.RequiredSslCertificateKeys with
    | (_, _, some err) => (q, some err)
    | (validQuaySslCertificateSecret, quaySslCertificateSecret, none) =>
      if !validQuaySslCertificateSecret then
        (q, some (Errorf (str "Failed to validate provided Quay SSL Certificate")))
      else
        ({ q with
            QuaySslCertificate := (Secret.deref quaySslCertificateSecret).get K.TLSCertKey
            QuaySslPrivateKey := (Secret.deref quaySslCertificateSecret).get K.TLSPrivateKeyKey }, none)
  else (q, none)

/-- Lines 435-448: Clair image pull secret. -/
def validateClairImagePullSecret (client : Client) (clair : Clair) : Block :=
  validateImagePullSecret client (fun _ => clair.ImagePullSecretName)
    "Failed to validate provided Clair Image Pull Secret"

/-- Lines 450-460: Clair update interval. -/
def validateClairUpdateInterval (K : Pkg) (clair : Clair) : Block := fun q =>
  if !IsZeroOfUnderlyingType clair.UpdateInterval then
    match K.ParseDuration clair.UpdateInterval with
    | .error durationErr => (q, some durationErr)
    | .ok duration => ({ q with ClairUpdateInterval := duration }, none)
  else (q, none)

/-- Lines 462-497: Clair database credentials.  The stretch writes the descriptor
`Spec.Clair.Database` of the request. -/
def validateClairDatabase (K : Pkg) (client : Client) (clair : Clair) : Block := fun q =>
  if !IsZeroOfUnderlyingType clair.Database && !IsZeroOfUnderlyingType clair.Database.Server
      && IsZeroOfUnderlyingType clair.Database.CredentialsSecretName then
    (q, some (Errorf
      (str "Failed to locate a Clair Database Credential for Externally Provisioned Instance")))
  else if !IsZeroOfUnderlyingType clair.Database
      && !IsZeroOfUnderlyingType clair.Database.CredentialsSecretName then
    match validateSecret client q.QuayEcosystem.Namespace clair.Database.CredentialsSecretName
        K.RequiredDatabaseCredentialKeys with
    | (_, _, some err) => (q, some err)
    | (validClairDatabaseSecret, databaseSecret, none) =>
      if !validClairDatabaseSecret then
        (q, some (Errorf (str "Failed to validate provided Clair Database Secret")))
      else
        let projected := projectDatabaseSecret K (Secret.deref databaseSecret) q.ClairDatabase
          clair.Database
        ({ q with
            ClairDatabase := projected.1
            QuayEcosystem.Spec.Clair := some { clair with Database := projected.2 }
            ValidProvidedClairDatabaseSecret := true }, none)
  else (q, none)

/-- Lines 499-510: Clair config files. -/
def validateClairConfigFiles (K : Pkg) (client : Client) (clair : Clair) : Block := fun q =>
  if !IsZeroOfUnderlyingType clair.ConfigFiles then
    match validateConfigFiles K client q.QuayEcosystem.Namespace clair.ConfigFiles with
    | .error err => (q, some err)
    | .ok clairConfigFiles =>
      ({ q with ClairConfigFiles := q.ClairConfigFiles ++ clairConfigFiles }, none)
  else (q, none)

/-- Lines 433-512: the Clair stretches, run when Clair is declared and enabled.  `clair` is the
pointee of `Spec.Clair` on entry; the one write to it (the database descriptor, lines 485-489) is
followed only by a read of `ConfigFiles`, which it leaves alone. -/
def validateClair (K : Pkg) (client : Client) : Block := fun q =>
  match q.QuayEcosystem.Spec.Clair with
  | none => (q, none)
  | some clair =>
    if clair.Enabled then
      runBlocks
        [ validateClairImagePullSecret client clair,
          validateClairUpdateInterval K clair,
          validateClairDatabase K client clair,
          validateClairConfigFiles K client clair ] q
    else (q, none)

/-- The stretches of `Validate` up to the registry backends loop, lines 26-208. -/
def blocksBeforeBackends (K : Pkg) (client : Client) : List Block :=
  [ validateSuperuserCredentials K client,
    validateSuperuserPassword,
    validateConfigSecret K client,
    validateQuayImagePullSecret client,
    validateRedisImagePullSecret client,
    validateRedisCredentials K client,
    validateDatabaseImagePullSecret client,
    validateDatabaseCredentials K client,
    validateDatabaseVolumeSize K,
    validateRegistryStorage K,
    validateQuayConfigFiles K client,
    validateHostname K,
    validateRoute K ]

/-- The stretches of `Validate` from the registry backends loop on, lines 210-512. -/
def blocksFromBackends (K : Pkg) (client : Client) : List Block :=
  [ validateRegistryBackends K client,
    validateSslCertificate K client,
    validateClair K client ]

/-- What a call of `Validate` leaves: the Go result `(bool, error)` and `*quayConfiguration`
after the call. -/
structure ValidateResult where
  valid : Bool
  err : Option GoError
  cfg : QuayConfiguration
deriving DecidableEq

/-- Lines 24-515: `Validate`.  It returns `(false, err)` at the first stretch that fails and
`(true, nil)` once all have passed. -/
def Validate (K : Pkg) (client : Client) (quayConfiguration : QuayConfiguration) : ValidateResult :=
  match runBlocks (blocksBeforeBackends K client ++ blocksFromBackends K client) quayConfiguration with
  | (q, some err) => { valid := false, err := some err, cfg := q }
  | (q, none) => { valid := true, err := none, cfg := q }

/-- The keys a required-key set asks for: the keys of the map form, the elements of the list form,
none for the nil interface. -/
def RequiredParameters.keys : RequiredParameters → List GoString
  | .nil => []
  | .map m => m.map Prod.fst
  | .slice s => s
  | .other => []

/-- One assignment of the package parameters, for concrete runs: pairwise distinct key names,
list-form required-key sets, and parsers that accept every literal. -/
def samplePkg : Pkg :=
  { DefaultQuaySuperuserCredentials :=
      .map [(str "superuser-username", str "quay"), (str "superuser-password", str "password"),
            (str "superuser-email", str "quay@redhat.com")]
    InitialQuaySuperuserEmailKey := str "superuser-email"
    InitialQuaySuperuserUsernameKey := str "superuser-username"
    InitialQuaySuperuserPasswordKey := str "superuser-password"
    DefaultQuayConfigCredentials := .map [(str "config-app-password", str "quay")]
    QuayConfigPasswordKey := str "config-app-password"
    RedisPasswordKey := str "password"
    RequiredDatabaseCredentialKeys :=
      .slice [str "database-username", str "database-password", str "database-name"]
    DatabaseCredentialsUsernameKey := str "database-username"
    DatabaseCredentialsPasswordKey := str "database-password"
    DatabaseCredentialsDatabaseKey := str "database-name"
    DatabaseCredentialsServerKey := str "database-server"
    DatabaseCredentialsRootPasswordKey := str "database-root-password"
    RequiredS3CredentialKeys := .slice [str "accessKey", str "secretKey"]
    S3AccessKey := str "accessKey"
    S3SecretKey := str "secretKey"
    RequiredAzureCredentialKeys := .slice [str "accountName", str "accountKey"]
    AzureAccountName := str "accountName"
    AzureAccountKey := str "accountKey"
    AzureSasToken := str "sasToken"
    RequiredGoogleCloudCredentialKeys := .slice [str "accessKey", str "secretKey"]
    GoogleCloudAccessKey := str "accessKey"
    GoogleCloudSecretKey := str "secretKey"
    RequiredRHOCSCredentialKeys := .slice [str "accessKey", str "secretKey"]
    RHOCSAccessKey := str "accessKey"
    RHOCSSecretKey := str "secretKey"
    RequiredRADOSCredentialKeys := .slice [str "accessKey", str "secretKey"]
    RADOSAccessKey := str "accessKey"
    RADOSSecretKey := str "secretKey"
    RequiredSwiftCredentialKeys := .slice [str "user", str "password"]
    SwiftUser := str "user"
    SwiftPassword := str "password"
    RequiredCloudfrontS3CredentialKeys := .slice [str "accessKey", str "secretKey"]
    CloudfrontS3AccessKey := str "accessKey"
    CloudfrontS3SecretKey := str "secretKey"
    RequiredSslCertificateKeys := .slice [str "tls.crt", str "tls.key"]
    TLSCertKey := str "tls.crt"
    TLSPrivateKeyKey := str "tls.key"
    ConfigConfigFileType := str "config"
    NodePortExternalAccessType := str "NodePort"
    IngressExternalAccessType := str "Ingress"
    RouteExternalAccessType := str "Route"
    ParseQuantity := fun _ => none
    ParseDuration := fun _ => .ok 0 }

/-- A store holding the given secrets, each under its namespace and name; every other lookup
fails with a not-found error. -/
def storeOf (secrets : List ((GoString × GoString) × Secret)) : Client :=
  { Get := fun ns name =>
      match secrets.lookup (ns, name) with
      | some secret => .ok secret
      | none => .error { msg := str "secrets \"" ++ name ++ str "\" not found", isNotFound := true } }

/-- A secret of three keys. -/
def sampleFilesSecret : Secret :=
  { Data := [(str "config.yaml", str "abc"), (str "ca.crt", str "def"), (str "extra", str "")] }

/-- A store with the one secret `quay/files`, which is `sampleFilesSecret`. -/
def sampleFilesStore : Client :=
  storeOf [((str "quay", str "files"), sampleFilesSecret)]

/-- A config-file group naming `quay/files` with the single explicit entry `config.yaml`, no types
set and no content given. -/
def sampleExplicitGroup : ConfigFiles :=
  { SecretName := str "files"
    Files := [{ Type_ := [], Key := str "config.yaml", Filename := str "config.yaml", SecretContent := [] }]
    Type_ := [] }

/-- The group of `sampleExplicitGroup` with the group type `extraCaCert`. -/
def sampleTypedGroup : ConfigFiles :=
  { sampleExplicitGroup with Type_ := str "extraCaCert" }

/-- A config-file group naming `quay/files` without explicit file list. -/
def sampleWholeSecretGroup : ConfigFiles :=
  { SecretName := str "files", Files := [], Type_ := [] }

/-- The storage path and the location identifier (bucket or container name) of each non-Local
variant of a backend, in source order: S3, Azure, Google Cloud, RHOCS, RADOS, Swift, Cloudfront S3;
`none` where the backend does not set the variant. -/
def RegistryBackend.locations (m : RegistryBackend) : List (Option (GoString × GoString)) :=
  [ m.S3.map (fun s => (s.StoragePath, s.BucketName)),
    m.Azure.map (fun s => (s.StoragePath, s.ContainerName)),
    m.GoogleCloud.map (fun s => (s.StoragePath, s.BucketName)),
    m.RHOCS.map (fun s => (s.StoragePath, s.BucketName)),
    m.RADOS.map (fun s => (s.StoragePath, s.BucketName)),
    m.Swift.map (fun s => (s.StoragePath, s.Container)),
    m.CloudfrontS3.map (fun s => (s.StoragePath, s.BucketName)) ]

/-- What the stretches before the registry backends loop leave alone and the loop works on: the
resolved backend list, the namespace, the declared backends and the replication flag. -/
def backendView (q : QuayConfiguration) : List RegistryBackend × GoString × List RegistryBackend × Bool :=
  (q.RegistryBackends, q.QuayEcosystem.Namespace, q.QuayEcosystem.Spec.Quay.RegistryBackends,
    q.QuayEcosystem.Spec.Quay.EnableStorageReplication)

/-- How many of the six variants S3, Azure, RHOCS, RADOS, Swift and Cloudfront S3 a backend
sets. -/
def RegistryBackend.countSix (b : RegistryBackend) : Nat :=
  b.S3.isSome.toNat + b.Azure.isSome.toNat + b.RHOCS.isSome.toNat + b.RADOS.isSome.toNat
    + b.Swift.isSome.toNat + b.CloudfrontS3.isSome.toNat

/-- The credential projection as the specification words it (4.2, step 3), for the six variants
S3, Azure, RHOCS, RADOS, Swift and Cloudfront S3: the declared backend with, in each of these
variants that it sets, the two credential fields taken from the secret payload under the two keys
of the variant, the Azure SAS token taken from the payload when its key is present, and with the
credential-secret reference cleared. -/
def projectCredentials (K : Pkg) (secret : Secret) (b : RegistryBackend) : RegistryBackend :=
  { b with
    CredentialsSecretName := []
    S3 := b.S3.map (fun s => { s with
      AccessKey := secret.get K.S3AccessKey
      SecretKey := secret.get K.S3SecretKey })
    Azure := b.Azure.map (fun s => { s with
      AccountName := secret.get K.AzureAccountName
      AccountKey := secret.get K.AzureAccountKey
      SasToken := if secret.found K.AzureSasToken then secret.get K.AzureSasToken else s.SasToken })
    RHOCS := b.RHOCS.map (fun s => { s with
      AccessKey := secret.get K.RHOCSAccessKey
      SecretKey := secret.get K.RHOCSSecretKey })
    RADOS := b.RADOS.map (fun s => { s with
      AccessKey := secret.get K.RADOSAccessKey
      SecretKey := secret.get K.RADOSSecretKey })
    Swift := b.Swift.map (fun s => { s with
      User := secret.get K.SwiftUser
      Password := secret.get K.SwiftPassword })
    CloudfrontS3 := b.CloudfrontS3.map (fun s => { s with
      AccessKey := secret.get K.CloudfrontS3AccessKey
      SecretKey := secret.get K.CloudfrontS3SecretKey }) }

/-- A backend that sets no variant. -/
def emptyBackend (name : GoString) : RegistryBackend :=
  { Name := name, CredentialsSecretName := [], Local := none, S3 := none, Azure := none,
    GoogleCloud := none, RHOCS := none, RADOS := none, Swift := none, CloudfrontS3 := none }

/-- A configuration that declares no backend, no secret, no config file and no Clair, with a
literal superuser password of eight characters and an empty resolved backend list. -/
def sampleConfiguration : QuayConfiguration :=
  { QuayEcosystem :=
      { Namespace := str "quay"
        Spec :=
          { Quay :=
              { SuperuserCredentialsSecretName := [], SkipSetup := false, ConfigSecretName := [],
                ImagePullSecretName := [], Database := Database.zero, RegistryStorage := none,
                ConfigFiles := [],
                ExternalAccess := { Type_ := str "LoadBalancer", Hostname := [], TLS := { SecretName := [] } },
                EnableStorageReplication := false, RegistryBackends := [] }
            Redis := { ImagePullSecretName := [], CredentialsSecretName := [] }
            Clair := none }
        Status := { SetupComplete := false } }
    InitialQuaySuperuserEmail := str "quay@redhat.com"
    InitialQuaySuperuserUsername := str "quay"
    InitialQuaySuperuserPassword := str "password"
    ValidProvidedInitialQuaySuperuserSecret := false
    QuayConfigPassword := []
    QuayConfigPasswordSecret := []
    ValidProvidedQuayConfigPasswordSecret := false
    RedisPassword := []
    ValidProvidedRedisPasswordSecret := false
    QuayDatabase := { Username := [], Password := [], Database := [], Server := [], RootPassword := [] }
    ValidProvidedQuayDatabaseSecret := false
    QuayConfigFiles := []
    IsOpenShift := false
    RegistryBackends := []
    QuaySslCertificate := []
    QuaySslPrivateKey := []
    ClairUpdateInterval := 0
    ClairDatabase := { Username := [], Password := [], Database := [], Server := [], RootPassword := [] }
    ValidProvidedClairDatabaseSecret := false
    ClairConfigFiles := [] }

/-- The configuration `sampleConfiguration` declaring the given backends, with the given
replication flag. -/
def sampleWithBackends (replication : Bool) (backends : List RegistryBackend) : QuayConfiguration :=
  { sampleConfiguration with
    QuayEcosystem.Spec.Quay.EnableStorageReplication := replication
    QuayEcosystem.Spec.Quay.RegistryBackends := backends }

/-- A credentials secret with an access key `AK` and a secret key `SK`. -/
def sampleCredentials : Secret :=
  { Data := [(str "accessKey", str "AK"), (str "secretKey", str "SK")] }

/-- A store with the one secret `quay/creds`, which is `sampleCredentials`. -/
def sampleCredentialsStore : Client :=
  storeOf [((str "quay", str "creds"), sampleCredentials)]

/-- An S3 backend `s3` with storage path and bucket name, naming the secret `creds`. -/
def sampleS3Backend : RegistryBackend :=
  { emptyBackend (str "s3") with
    CredentialsSecretName := str "creds"
    S3 := some { StoragePath := str "/reg", BucketName := str "bucket", AccessKey := [], SecretKey := [] } }

/-- A Google Cloud backend `gcs` with storage path and bucket name, naming the secret `creds`. -/
def sampleGoogleCloudBackend : RegistryBackend :=
  { emptyBackend (str "gcs") with
    CredentialsSecretName := str "creds"
    GoogleCloud := some { StoragePath := str "/reg", BucketName := str "bucket", AccessKey := [], SecretKey := [] } }

/-- A backend `both` that sets the Google Cloud and the RHOCS variant, each with storage path and
bucket name, naming the secret `creds`. -/
def sampleGoogleCloudRHOCSBackend : RegistryBackend :=
  { emptyBackend (str "both") with
    CredentialsSecretName := str "creds"
    GoogleCloud := some { StoragePath := str "/g", BucketName := str "gbucket", AccessKey := [], SecretKey := [] }
    RHOCS := some { StoragePath := str "/r", BucketName := str "rbucket", AccessKey := [], SecretKey := [] } }

/-- A Local backend `local`. -/
def sampleLocalBackend : RegistryBackend :=
  { emptyBackend (str "local") with Local := some { StoragePath := str "/datastorage/registry" } }

/-- A database descriptor with the five fields blanked that `Validate` writes (lines 150-155 and
485-489): server, image, deployment strategy and the two probes. -/
def Database.stable (d : Database) : Database :=
  { d with Server := [], Image := [], DeploymentStrategy := [], ReadinessProbe := none,
           LivenessProbe := none }

/-- The request with those five fields blanked in the primary and in the scanner database
descriptor; every other field is kept. -/
def stableRequest (e : QuayEcosystem) : QuayEcosystem :=
  { e with
    Spec.Quay.Database := e.Spec.Quay.Database.stable
    Spec.Clair := e.Spec.Clair.map (fun clair => { clair with Database := clair.Database.stable }) }

/-- What no stretch of `Validate` writes: the request outside the five database fields, and the
platform flag. -/
def requestView (q : QuayConfiguration) : QuayEcosystem × Bool :=
  (stableRequest q.QuayEcosystem, q.IsOpenShift)

/-- What the stretches other than the superuser credentials, the database credentials and Clair
leave alone, among the fields the properties below speak of. -/
def fullView (q : QuayConfiguration) : QuayEcosystem × DatabaseConfig × GoString × Bool :=
  (q.QuayEcosystem, q.QuayDatabase, q.InitialQuaySuperuserPassword, q.IsOpenShift)

/-- The primary database: resolved credentials and the `Quay` part of the request. -/
def databaseView (q : QuayConfiguration) : DatabaseConfig × Quay :=
  (q.QuayDatabase, q.QuayEcosystem.Spec.Quay)

/-- The Go result of a run of stretches: `(false, err)` or `(true, nil)`, next to the
configuration the run leaves. -/
def resultOf (r : QuayConfiguration × Option GoError) : ValidateResult :=
  match r with
  | (q, some err) => { valid := false, err := some err, cfg := q }
  | (q, none) => { valid := true, err := none, cfg := q }

/-- All stretches of `Validate`, in source order. -/
def allBlocks (K : Pkg) (client : Client) : List Block :=
  blocksBeforeBackends K client ++ blocksFromBackends K client

/-- The stretches before the database credentials, lines 26-125. -/
def blocksBeforeDatabaseCredentials (K : Pkg) (client : Client) : List Block :=
  [ validateSuperuserCredentials K client,
    validateSuperuserPassword,
    validateConfigSecret K client,
    validateQuayImagePullSecret client,
    validateRedisImagePullSecret client,
    validateRedisCredentials K client,
    validateDatabaseImagePullSecret client ]

/-- The stretches between the database credentials and the hostname rule, lines 166-198. -/
def blocksBeforeHostname (K : Pkg) (client : Client) : List Block :=
  [ validateDatabaseVolumeSize K,
    validateRegistryStorage K,
    validateQuayConfigFiles K client ]

/-- `Validate` with the hostname rule (lines 200-203) left out. -/
def blocksWithoutHostname (K : Pkg) (client : Client) : List Block :=
  blocksBeforeDatabaseCredentials K client ++ validateDatabaseCredentials K client ::
    blocksBeforeHostname K client ++ validateRoute K :: blocksFromBackends K client

/-- `Validate` with the route rule (lines 205-208) left out. -/
def blocksWithoutRoute (K : Pkg) (client : Client) : List Block :=
  blocksBeforeDatabaseCredentials K client ++ validateDatabaseCredentials K client ::
    blocksBeforeHostname K client ++ validateHostname K :: blocksFromBackends K client

/-- The configuration with the platform flag set to `flag`. -/
def setOpenShift (flag : Bool) (q : QuayConfiguration) : QuayConfiguration :=
  { q with IsOpenShift := flag }

/-- What the Clair stretches leave alone: the request outside the five database fields, the
platform flag, the primary database and the superuser password. -/
def clairFrame (q : QuayConfiguration) : (QuayEcosystem × Bool) × (DatabaseConfig × Quay) × GoString :=
  (requestView q, databaseView q, q.InitialQuaySuperuserPassword)

/-- The superuser password in effect after the superuser credentials stretch, in the words of the
specification (4.4, steps 1 and 2): the password value of the secret when the superuser secret is
named, setup is not skipped and setup is not complete; otherwise the literal password already in
the configuration.  `none` when the secret is to be read and its lookup fails. -/
def superuserPasswordInEffect (K : Pkg) (client : Client) (q : QuayConfiguration) : Option GoString :=
  if q.QuayEcosystem.Spec.Quay.SuperuserCredentialsSecretName ≠ []
      ∧ q.QuayEcosystem.Spec.Quay.SkipSetup = false
      ∧ q.QuayEcosystem.Status.SetupComplete = false then
    match client.Get q.QuayEcosystem.Namespace
        q.QuayEcosystem.Spec.Quay.SuperuserCredentialsSecretName with
    | .ok secret => some (secret.get K.InitialQuaySuperuserPasswordKey)
    | .error _ => none
  else some q.InitialQuaySuperuserPassword

/-- A superuser credentials secret with a password of five characters. -/
def sampleShortSuperuser : Secret :=
  { Data := [(str "superuser-username", str "quay"), (str "superuser-password", str "short"),
             (str "superuser-email", str "quay@redhat.com")] }

/-- A database credentials secret with a server and a root password. -/
def sampleDatabaseSecret : Secret :=
  { Data := [(str "database-username", str "quay"), (str "database-password", str "secret"),
             (str "database-name", str "quaydb"), (str "database-server", str "db.example.com"),
             (str "database-root-password", str "root")] }

/-- A store with the one secret `quay/db`, which is `sampleDatabaseSecret`. -/
def sampleDatabaseStore : Client :=
  storeOf [((str "quay", str "db"), sampleDatabaseSecret)]

/-- The configuration `sampleConfiguration` with a primary database descriptor that names the
credentials secret `db`, an image and a readiness probe. -/
def sampleWithDatabase : QuayConfiguration :=
  { sampleConfiguration with
    QuayEcosystem.Spec.Quay.Database :=
      { Database.zero with
        CredentialsSecretName := str "db"
        Image := str "postgres:9.6"
        ReadinessProbe := some { raw := str "tcp:5432" } } }

/-- An S3 backend `s3` with the storage path `/reg`, an empty bucket name and no credentials
secret. -/
def sampleS3NoBucket : RegistryBackend :=
  { emptyBackend (str "s3") with
    S3 := some { StoragePath := str "/reg", BucketName := [], AccessKey := [], SecretKey := [] } }

/-- A stretch that does not read the platform flag: run on the configuration with the flag set
to `flag`, it returns what it returns otherwise, with the flag set to `flag` in the
configuration it leaves. -/
def FlagBlind (b : Block) : Prop :=
  ∀ (flag : Bool) (q : QuayConfiguration),
    b (setOpenShift flag q) = (setOpenShift flag (b q).1, (b q).2)

/-- The secret reference `name` resolves in its context: the store holds a secret under the
namespace and the name, and its payload contains every key of the required-key set. -/
def SecretHolds (client : Client) (ns name : GoString) (rp : RequiredParameters) : Prop :=
  ∃ secret, client.Get ns name = .ok secret ∧ ∀ k ∈ rp.keys, secret.found k = true

/-- The required-key set against which the credentials secret of a backend is checked: that of
the first non-Local variant the backend sets, in source order; `none` for a backend that sets no
non-Local variant. -/
def firstVariantKeys (K : Pkg) (b : RegistryBackend) : Option RequiredParameters :=
  if b.S3.isSome then some K.RequiredS3CredentialKeys
  else if b.Azure.isSome then some K.RequiredAzureCredentialKeys
  else if b.GoogleCloud.isSome then some K.RequiredGoogleCloudCredentialKeys
  else if b.RHOCS.isSome then some K.RequiredRHOCSCredentialKeys
  else if b.RADOS.isSome then some K.RequiredRADOSCredentialKeys
  else if b.Swift.isSome then some K.RequiredSwiftCredentialKeys
  else if b.CloudfrontS3.isSome then some K.RequiredCloudfrontS3CredentialKeys
  else none

/-- The configuration `sampleConfiguration` with setup skipped and a superuser credentials secret
`absent` named. -/
def sampleSkippedSetup : QuayConfiguration :=
  { sampleConfiguration with
    QuayEcosystem.Spec.Quay.SkipSetup := true
    QuayEcosystem.Spec.Quay.SuperuserCredentialsSecretName := str "absent" }

/-- A config-file group that names no secret. -/
def sampleUnnamedGroup : ConfigFiles :=
  { SecretName := []
    Files := []
    Type_ := [] }

/-- A group over the secret `files` whose one explicit entry names the key `absent`, which the
secret `sampleFilesSecret` does not hold. -/
def sampleAbsentKeyGroup : ConfigFiles :=
  { SecretName := str "files"
    Files := [{ Type_ := [], Key := str "absent", Filename := str "absent.txt", SecretContent := [] }]
    Type_ := [] }

/-- The configuration with the scanner descriptor `Spec.Clair` of its request set to `clair`. -/
def setClair (clair : Option Clair) (q : QuayConfiguration) : QuayConfiguration :=
  { q with QuayEcosystem.Spec.Clair := clair }

/-- A stretch that does not read the scanner descriptor: run on the configuration with the
descriptor set to `clair`, it returns what it returns otherwise, with the descriptor set to
`clair` in the configuration it leaves. -/
def ClairBlind (b : Block) : Prop :=
  ∀ (clair : Option Clair) (q : QuayConfiguration),
    b (setClair clair q) = (setClair clair (b q).1, (b q).2)

/-- The scanner is undeclared, or declared but not enabled: the negation of the test of
line 433. -/
def scannerOff (clair : Option Clair) : Bool :=
  match clair with
  | none => true
  | some c => !c.Enabled

/-- The scanner output fields of the configuration: the scanner database credentials with their
flag, the update interval and the scanner config files. -/
def scannerOutput (q : QuayConfiguration) : DatabaseConfig × Bool × Duration × List ConfigFiles :=
  (q.ClairDatabase, q.ValidProvidedClairDatabaseSecret, q.ClairUpdateInterval, q.ClairConfigFiles)

/-- The stretches of `Validate` before the scanner, lines 26-431. -/
def blocksBeforeClair (K : Pkg) (client : Client) : List Block :=
  blocksBeforeBackends K client ++
    [validateRegistryBackends K client, validateSslCertificate K client]

/-- The constants of `samplePkg` with a duration parser that rejects every string. -/
def strictDurationPkg : Pkg :=
  { samplePkg with ParseDuration := fun s => .error (Errorf (str "time: invalid duration " ++ s)) }

/-- A scanner descriptor with the given `Enabled` flag that names the pull secret `absent`, has
the update interval `soon`, an external database server without credentials secret and a
config-file group that names no secret. -/
def sampleBrokenScanner (enabled : Bool) : Clair :=
  { Enabled := enabled
    ImagePullSecretName := str "absent"
    UpdateInterval := str "soon"
    Database := { Database.zero with Server := str "db.example.com" }
    ConfigFiles := [sampleUnnamedGroup] }

/-- The backend sets none of the seven non-Local variants that the loop of `Validate` checks
(lines 222-410). -/
def RegistryBackend.noNonLocalVariant (b : RegistryBackend) : Bool :=
  b.S3.isNone && b.Azure.isNone && b.GoogleCloud.isNone && b.RHOCS.isNone && b.RADOS.isNone
    && b.Swift.isNone && b.CloudfrontS3.isNone

/-- The configuration with the declared backends of its request set to `declared` and its
resolved backend list set to `resolved`. -/
def setBackends (declared resolved : List RegistryBackend) (q : QuayConfiguration) :
    QuayConfiguration :=
  { q with
    QuayEcosystem.Spec.Quay.RegistryBackends := declared
    RegistryBackends := resolved }

/-- A stretch that reads neither the declared nor the resolved backends: run on the
configuration with the two lists replaced, it returns what it returns otherwise, with the two
lists replaced in the configuration it leaves. -/
def BackendsBlind (b : Block) : Prop :=
  ∀ (declared resolved : List RegistryBackend) (q : QuayConfiguration),
    b (setBackends declared resolved q) = (setBackends declared resolved (b q).1, (b q).2)

/-- A Local backend `local` that names the credentials secret `absent`. -/
def sampleLocalNamingSecret : RegistryBackend :=
  { sampleLocalBackend with CredentialsSecretName := str "absent" }

/-- The number of characters of a Go string in the sense of the specification's "shorter than 8
characters": the code points of its UTF-8 encoding, one per byte that is not a continuation byte
`10xxxxxx`.  Go's `len`, which line 45 tests, is the number of bytes, `List.length` here. -/
def characterCount (s : GoString) : Nat :=
  (s.filter (fun b => decide (b.toNat / 64 ≠ 2))).length

/-- A password of seven characters and eight bytes: `ä` takes two bytes in UTF-8. -/
def sampleSevenCharacterPassword : GoString := str "pässwor"

/-- A superuser credentials secret whose password is `sampleSevenCharacterPassword`. -/
def sampleSevenCharacterSuperuser : Secret :=
  { Data := [(str "superuser-username", str "quay"),
             (str "superuser-password", sampleSevenCharacterPassword),
             (str "superuser-email", str "quay@redhat.com")] }

/-! Theorems. -/

theorem validateProvidedSecretSlice_iff (secret : Secret) (l : List GoString) :
    validateProvidedSecretSlice secret l = true ↔ ∀ k ∈ l, secret.found k = true := by
  induction l with
  | nil => simp [validateProvidedSecretSlice]
  | cons a t ih =>
    unfold validateProvidedSecretSlice
    cases h : secret.found a <;> simp [h, ih]

theorem validateProvidedSecretMap_iff (secret : Secret) (m : List (GoString × GoString)) :
    validateProvidedSecretMap secret m = true ↔ ∀ k ∈ m.map Prod.fst, secret.found k = true := by
  induction m with
  | nil => simp [validateProvidedSecretMap]
  | cons a t ih =>
    obtain ⟨k, v⟩ := a
    unfold validateProvidedSecretMap
    cases h : secret.found k <;> simp [h]
    simpa using ih

/-- What `validateSecret` returns for a secret that the store holds: success with the secret
when every asked key is present, else the required-parameters error next to the secret. -/
theorem validateSecret_of_get (client : Client) (ns name : GoString) (rp : RequiredParameters)
    (secret : Secret) (hget : client.Get ns name = .ok secret) (hform : rp ≠ .other) :
    validateSecret client ns name rp =
      if ∀ k ∈ rp.keys, secret.found k = true then (true, some secret, none)
      else (false, some secret, some (Errorf
        (str "Failed to validate provided secret with required parameters. Namespace: "
          ++ ns ++ str ", Name: " ++ name))) := by
  unfold validateSecret
  rw [hget]
  cases rp with
  | nil => simp [RequiredParameters.keys]
  | other => exact absurd rfl hform
  | map m =>
    simp only [RequiredParameters.keys]
    by_cases h : ∀ k ∈ m.map Prod.fst, secret.found k = true
    · have := (validateProvidedSecretMap_iff secret m).2 h
      rw [if_pos h]
      simp [this]
    · have : validateProvidedSecretMap secret m = false := by
        cases hv : validateProvidedSecretMap secret m
        · rfl
        · exact absurd ((validateProvidedSecretMap_iff secret m).1 hv) h
      rw [if_neg h]
      simp [this]
  | slice s =>
    simp only [RequiredParameters.keys]
    by_cases h : ∀ k ∈ s, secret.found k = true
    · have := (validateProvidedSecretSlice_iff secret s).2 h
      rw [if_pos h]
      simp [this]
    · have : validateProvidedSecretSlice secret s = false := by
        cases hv : validateProvidedSecretSlice secret s
        · rfl
        · exact absurd ((validateProvidedSecretSlice_iff secret s).1 hv) h
      rw [if_neg h]
      simp [this]

/-- What `validateSecret` returns when the lookup fails. -/
theorem validateSecret_of_get_error (client : Client) (ns name : GoString) (rp : RequiredParameters)
    (err : GoError) (hget : client.Get ns name = .error err) :
    validateSecret client ns name rp = (false, none, some err) := by
  unfold validateSecret
  rw [hget]
  simp

/-- A result of `validateSecret` without error carries `valid = true` and a non-nil secret, the
one the store holds. -/
theorem validateSecret_valid_some (client : Client) (ns name : GoString) (rp : RequiredParameters)
    (valid : Bool) (s : Option Secret) (h : validateSecret client ns name rp = (valid, s, none)) :
    valid = true ∧ ∃ secret, s = some secret ∧ client.Get ns name = .ok secret := by
  unfold validateSecret at h
  cases hget : client.Get ns name with
  | error err => rw [hget] at h; simp at h
  | ok secret =>
    rw [hget] at h
    simp only at h
    split at h
    · split at h
      · simp at h
      · simp only [Prod.mk.injEq] at h
        exact ⟨h.1.symm, secret, h.2.1.symm, rfl⟩
    · simp only [Prod.mk.injEq] at h
      exact ⟨h.1.symm, secret, h.2.1.symm, rfl⟩

/-- C2. For every namespace, name and required-key set in map form, list form or nil: when the
store holds a secret under the namespace and name and every required key is a key of its payload,
`validateSecret` returns `(true, secret, nil)` with that very secret, so the whole stored payload,
keys outside the required set included. -/
theorem validateSecret_success (client : Client) (ns name : GoString) (rp : RequiredParameters)
    (secret : Secret) (hget : client.Get ns name = .ok secret) (hform : rp ≠ .other)
    (hkeys : ∀ k ∈ rp.keys, secret.found k = true) :
    validateSecret client ns name rp = (true, some secret, none)
      ∧ ∀ k, (Secret.deref (validateSecret client ns name rp).2.1).Data.lookup k = secret.Data.lookup k := by
  have h := validateSecret_of_get client ns name rp secret hget hform
  rw [if_pos hkeys] at h
  rw [h]
  exact ⟨rfl, fun _ => rfl⟩

theorem validateSecret_success_witness :
    validateSecret sampleFilesStore (str "quay") (str "files") (.slice [str "config.yaml"])
        = (true, some sampleFilesSecret, none)
      ∧ ∀ k, (Secret.deref (validateSecret sampleFilesStore (str "quay") (str "files")
          (.slice [str "config.yaml"])).2.1).Data.lookup k = sampleFilesSecret.Data.lookup k :=
  validateSecret_success sampleFilesStore (str "quay") (str "files") (.slice [str "config.yaml"])
    sampleFilesSecret (by rfl) (by decide) (by decide)

/-- C3. For an existing secret and a required-key set in map or list form: when some required key
is absent from the payload, `validateSecret` returns `valid = false` and a non-nil error whose
message contains the namespace and the secret name; and any result other than
`(true, secret, nil)` means that some required key is absent. -/
theorem validateSecret_missing_key (client : Client) (ns name : GoString) (rp : RequiredParameters)
    (secret : Secret) (hget : client.Get ns name = .ok secret) (hform : rp ≠ .other) :
    ((∃ k ∈ rp.keys, secret.found k = false) →
        ∃ err, validateSecret client ns name rp = (false, some secret, some err)
          ∧ ns <:+: err.msg ∧ name <:+: err.msg)
      ∧ (validateSecret client ns name rp ≠ (true, some secret, none) →
          ∃ k ∈ rp.keys, secret.found k = false) := by
  have h := validateSecret_of_get client ns name rp secret hget hform
  constructor
  · rintro ⟨k, hk, hf⟩
    have hnot : ¬ ∀ k ∈ rp.keys, secret.found k = true := fun hall => by
      have := hall k hk
      rw [hf] at this
      exact Bool.noConfusion this
    rw [if_neg hnot] at h
    refine ⟨_, h, ?_, ?_⟩
    · exact ⟨str "Failed to validate provided secret with required parameters. Namespace: ",
        str ", Name: " ++ name, by simp [Errorf]⟩
    · exact ⟨str "Failed to validate provided secret with required parameters. Namespace: "
        ++ ns ++ str ", Name: ", [], by simp [Errorf]⟩
  · intro hne
    by_cases hall : ∀ k ∈ rp.keys, secret.found k = true
    · rw [if_pos hall] at h
      exact absurd h hne
    · push_neg at hall
      obtain ⟨k, hk, hf⟩ := hall
      exact ⟨k, hk, by simpa using hf⟩

theorem validateSecret_missing_key_witness :
    ∃ err, validateSecret sampleFilesStore (str "quay") (str "files")
        (.slice [str "config.yaml", str "absent"]) = (false, some sampleFilesSecret, some err)
      ∧ str "quay" <:+: err.msg ∧ str "files" <:+: err.msg :=
  (validateSecret_missing_key sampleFilesStore (str "quay") (str "files")
    (.slice [str "config.yaml", str "absent"]) sampleFilesSecret (by rfl) (by decide)).1
    ⟨str "absent", by decide, by decide⟩

/-- C4. For every namespace and name whose lookup in the store fails, with a not-found error or
any other, and for every required-key set, `validateSecret` returns `valid = false`, a nil secret
and exactly the error of the store. -/
theorem validateSecret_lookup_fails (client : Client) (ns name : GoString) (rp : RequiredParameters)
    (err : GoError) (hget : client.Get ns name = .error err) :
    validateSecret client ns name rp = (false, none, some err) :=
  validateSecret_of_get_error client ns name rp err hget

theorem validateSecret_lookup_fails_witness :
    validateSecret sampleFilesStore (str "quay") (str "missing") (.slice [str "config.yaml"])
      = (false, none, some { msg := str "secrets \"missing\" not found", isNotFound := true }) :=
  validateSecret_lookup_fails sampleFilesStore (str "quay") (str "missing")
    (.slice [str "config.yaml"]) { msg := str "secrets \"missing\" not found", isNotFound := true }
    (by rfl)

@[simp] theorem isZero_list {α : Type} (l : List α) : IsZeroOfUnderlyingType l = l.isEmpty := rfl

@[simp] theorem isZero_option {α : Type} (o : Option α) : IsZeroOfUnderlyingType o = o.isNone := rfl

/-- The range loop over a slice of values leaves the slice as it was. -/
theorem rangeByValue_eq (files : List ConfigFile) (body : ConfigFile → ConfigFile) :
    rangeByValue files body = files := by
  unfold rangeByValue
  suffices h : ∀ (l : List ConfigFile) (acc : List ConfigFile × List ConfigFile),
      (l.foldl (fun (acc : List ConfigFile × List ConfigFile) v => (acc.1, body v :: acc.2)) acc).1
        = acc.1 from h files (files, [])
  intro l
  induction l with
  | nil => intro acc; rfl
  | cons a t ih => intro acc; simpa using ih (acc.1, body a :: acc.2)

/-- The loop over the payload appends one entry per payload entry, in the order of the visit. -/
theorem appendAllSecretFiles_eq (K : Pkg) (g : ConfigFiles) (data : List (GoString × Bytes)) :
    ∀ managed : ConfigFiles, managed.Type_ = g.Type_ →
      appendAllSecretFiles K g managed data =
        { managed with Files := managed.Files ++ data.map (fun kv =>
            { Type_ := if g.Type_ = [] then K.ConfigConfigFileType else g.Type_,
              Key := kv.1, Filename := kv.1, SecretContent := kv.2 }) } := by
  induction data with
  | nil => intro managed _; simp [appendAllSecretFiles]
  | cons kv t ih =>
    intro managed hty
    have step := ih { managed with Files := managed.Files ++
        [{ Type_ := if g.Type_ = [] then K.ConfigConfigFileType else g.Type_,
           Key := kv.1, Filename := kv.1, SecretContent := kv.2 }] } hty
    unfold appendAllSecretFiles at step ⊢
    rw [List.foldl_cons]
    have hhead : (if (!IsZeroOfUnderlyingType managed.Type_) = true then g.Type_
        else K.ConfigConfigFileType) = (if g.Type_ = [] then K.ConfigConfigFileType else g.Type_) := by
      rw [hty]
      cases hg : g.Type_ <;> simp
    simp only [hhead]
    rw [step]
    simp

/-- In an association list with distinct keys every entry is found under its key. -/
theorem lookup_of_mem_nodup (data : List (GoString × Bytes)) (hnodup : (data.map Prod.fst).Nodup) :
    ∀ kv ∈ data, data.lookup kv.1 = some kv.2 := by
  induction data with
  | nil => intro kv h; simp at h
  | cons a t ih =>
    intro kv hmem
    obtain ⟨k, v⟩ := a
    rw [List.map_cons, List.nodup_cons] at hnodup
    rcases List.mem_cons.1 hmem with h | h
    · subst h; simp [List.lookup]
    · have hne : kv.1 ≠ k := fun heq => hnodup.1 (by
        rw [← heq]
        exact List.mem_map.2 ⟨kv, h, rfl⟩)
      have hb : (kv.1 == k) = false := by simpa using hne
      rw [List.lookup_cons, hb]
      exact ih hnodup.2 kv h

/-- The result of `validateConfigFiles` on one group whose secret exists, by the two cases of the
file list. -/
theorem validateConfigFiles_single (K : Pkg) (client : Client) (ns : GoString) (g : ConfigFiles)
    (secret : Secret) (hname : g.SecretName ≠ [])
    (hget : client.Get ns g.SecretName = .ok secret)
    (hkeys : ∀ k ∈ g.GetKeys, secret.found k = true) :
    validateConfigFiles K client ns [g] = .ok
      [if g.Files = [] then
          { g with Files := secret.Data.map (fun kv =>
              { Type_ := if g.Type_ = [] then K.ConfigConfigFileType else g.Type_,
                Key := kv.1, Filename := kv.1, SecretContent := kv.2 }) }
        else g] := by
  have hsec := validateSecret_of_get client ns g.SecretName (.slice g.GetKeys) secret hget
    (by simp)
  rw [if_pos (by simpa [RequiredParameters.keys] using hkeys)] at hsec
  unfold validateConfigFiles validateConfigFilesLoop
  rw [if_neg hname]
  simp only [hsec, Bool.not_true, Secret.deref]
  by_cases hf : g.Files = []
  · have := appendAllSecretFiles_eq K g secret.Data g rfl
    simp [hf, validateConfigFilesLoop, this]
  · have hlen : g.Files.length ≠ 0 := fun h => hf (List.length_eq_zero.1 h)
    simp [hf, validateConfigFilesLoop, rangeByValue_eq]

/-- C5. For every group with a non-empty secret reference and no file list, and every store in
which that secret exists with distinct keys, `validateConfigFiles` succeeds and the returned group
holds as many file entries as the payload has keys, one per payload key, each with `Key` and
`Filename` that key, `SecretContent` the payload bytes under that key, and `Type` the group type
when the group sets one, else the default config file type. -/
theorem validateConfigFiles_whole_secret (K : Pkg) (client : Client) (ns : GoString)
    (g : ConfigFiles) (secret : Secret) (hname : g.SecretName ≠ []) (hfiles : g.Files = [])
    (hget : client.Get ns g.SecretName = .ok secret)
    (hnodup : (secret.Data.map Prod.fst).Nodup) :
    ∃ out, validateConfigFiles K client ns [g] = .ok [out]
      ∧ out.Files.length = secret.Data.length
      ∧ out.Files.map (fun f => f.Key) = secret.Data.map Prod.fst
      ∧ ∀ f ∈ out.Files, f.Filename = f.Key
          ∧ secret.Data.lookup f.Key = some f.SecretContent
          ∧ f.Type_ = (if g.Type_ = [] then K.ConfigConfigFileType else g.Type_) := by
  have h := validateConfigFiles_single K client ns g secret hname hget
    (by simp [ConfigFiles.GetKeys, hfiles])
  rw [if_pos hfiles] at h
  refine ⟨_, h, by simp, by simp [Function.comp_def], ?_⟩
  intro f hf
  simp only [List.mem_map] at hf
  obtain ⟨kv, hkv, rfl⟩ := hf
  exact ⟨rfl, lookup_of_mem_nodup secret.Data hnodup kv hkv, rfl⟩

theorem validateConfigFiles_whole_secret_witness :
    ∃ out, validateConfigFiles samplePkg sampleFilesStore (str "quay") [sampleWholeSecretGroup]
        = .ok [out]
      ∧ out.Files.length = sampleFilesSecret.Data.length
      ∧ out.Files.map (fun f => f.Key) = sampleFilesSecret.Data.map Prod.fst
      ∧ ∀ f ∈ out.Files, f.Filename = f.Key
          ∧ sampleFilesSecret.Data.lookup f.Key = some f.SecretContent
          ∧ f.Type_ = (if sampleWholeSecretGroup.Type_ = [] then samplePkg.ConfigConfigFileType
              else sampleWholeSecretGroup.Type_) :=
  validateConfigFiles_whole_secret samplePkg sampleFilesStore (str "quay") sampleWholeSecretGroup
    sampleFilesSecret (by decide) (by decide) (by rfl) (by decide)

/-- C1, evaluated on the code. The group `sampleExplicitGroup` names the one key `config.yaml`,
which the secret `quay/files` holds with the content `abc`; `validateConfigFiles` succeeds and
returns the group as declared: one file entry, whose `SecretContent` is empty and not `abc`. -/
theorem validateConfigFiles_explicit_entry_content_unset :
    sampleFilesStore.Get (str "quay") (str "files") = .ok sampleFilesSecret
      ∧ sampleFilesSecret.Data.lookup (str "config.yaml") = some (str "abc")
      ∧ validateConfigFiles samplePkg sampleFilesStore (str "quay") [sampleExplicitGroup]
          = .ok [sampleExplicitGroup]
      ∧ sampleExplicitGroup.Files.map (fun f => f.SecretContent) = [[]]
      ∧ ([] : Bytes) ≠ str "abc" := by
  refine ⟨by rfl, by decide, ?_, by decide, by decide⟩
  have h := validateConfigFiles_single samplePkg sampleFilesStore (str "quay") sampleExplicitGroup
    sampleFilesSecret (by decide) (by rfl) (by decide)
  rw [if_neg (by decide)] at h
  exact h

/-- C6, evaluated on the code. The group `sampleTypedGroup` sets the group type `extraCaCert` and
its one explicit entry sets no type; `validateConfigFiles` succeeds and the entry of the returned
group has the empty type, neither the group type nor the default config file type. -/
theorem validateConfigFiles_explicit_entry_type_unset :
    validateConfigFiles samplePkg sampleFilesStore (str "quay") [sampleTypedGroup]
        = .ok [sampleTypedGroup]
      ∧ sampleTypedGroup.Type_ = str "extraCaCert"
      ∧ sampleTypedGroup.Files.map (fun f => f.Type_) = [[]]
      ∧ ([] : ConfigFileType) ≠ str "extraCaCert"
      ∧ ([] : ConfigFileType) ≠ samplePkg.ConfigConfigFileType := by
  refine ⟨?_, by decide, by decide, by decide, by decide⟩
  have h := validateConfigFiles_single samplePkg sampleFilesStore (str "quay") sampleTypedGroup
    sampleFilesSecret (by decide) (by rfl) (by decide)
  rw [if_neg (by decide)] at h
  exact h

/-- The S3 stretch, when it does not return: either the backend has no S3 variant, or the variant
has a storage path and a bucket name and the credentials were projected from the named secret. -/
theorem validateS3_ok (K : Pkg) (client : Client) (ns : GoString) (b managed m : RegistryBackend)
    (h : validateS3 K client ns b managed = .ok m) :
    (managed.S3 = none ∧ m = managed) ∨
    ∃ s, managed.S3 = some s ∧ s.StoragePath ≠ [] ∧ s.BucketName ≠ [] ∧
      ((managed.CredentialsSecretName = [] ∧ m = managed) ∨
       (managed.CredentialsSecretName ≠ [] ∧ ∃ secret,
          client.Get ns b.CredentialsSecretName = .ok secret ∧
          m = { managed with
                S3 := some { s with
                  AccessKey := secret.get K.S3AccessKey
                  SecretKey := secret.get K.S3SecretKey }
                CredentialsSecretName := [] })) := by
  unfold validateS3 at h
  cases hs : managed.S3 with
  | none =>
    rw [hs] at h
    simp only [Except.ok.injEq] at h
    exact Or.inl ⟨rfl, h.symm⟩
  | some s =>
    rw [hs] at h
    simp only at h
    right
    refine ⟨s, rfl, ?_⟩
    by_cases hp : s.StoragePath = []
    · simp [hp] at h
    by_cases hb : s.BucketName = []
    · simp [hb] at h
    refine ⟨hp, hb, ?_⟩
    by_cases hc : managed.CredentialsSecretName = []
    · left
      simp [hp, hb, hc] at h
      exact ⟨hc, h.symm⟩
    · right
      refine ⟨hc, ?_⟩
      rcases hv : validateSecret client ns b.CredentialsSecretName K.RequiredS3CredentialKeys
        with ⟨valid, sec, _ | err⟩
      · obtain ⟨rfl, secret, rfl, hget⟩ := validateSecret_valid_some _ _ _ _ _ _ hv
        simp [hp, hb, hc, hv, Secret.deref] at h
        exact ⟨secret, hget, h.symm⟩
      · simp [hp, hb, hc, hv] at h

/-- The Azure stretch, when it does not return: either the backend has no Azure variant, or the
variant has a storage path and a container name and the credentials were projected from the named
secret, the SAS token only when the secret holds its key. -/
theorem validateAzure_ok (K : Pkg) (client : Client) (ns : GoString) (b managed m : RegistryBackend)
    (h : validateAzure K client ns b managed = .ok m) :
    (managed.Azure = none ∧ m = managed) ∨
    ∃ s, managed.Azure = some s ∧ s.StoragePath ≠ [] ∧ s.ContainerName ≠ [] ∧
      ((managed.CredentialsSecretName = [] ∧ m = managed) ∨
       (managed.CredentialsSecretName ≠ [] ∧ ∃ secret,
          client.Get ns b.CredentialsSecretName = .ok secret ∧
          m = { managed with
                Azure := some { s with
                  AccountName := secret.get K.AzureAccountName
                  AccountKey := secret.get K.AzureAccountKey
                  SasToken := if secret.found K.AzureSasToken then secret.get K.AzureSasToken
                    else s.SasToken }
                CredentialsSecretName := [] })) := by
  unfold validateAzure at h
  cases hs : managed.Azure with
  | none =>
    rw [hs] at h
    simp only [Except.ok.injEq] at h
    exact Or.inl ⟨rfl, h.symm⟩
  | some s =>
    rw [hs] at h
    simp only at h
    right
    refine ⟨s, rfl, ?_⟩
    by_cases hp : s.StoragePath = []
    · simp [hp] at h
    by_cases hb : s.ContainerName = []
    · simp [hb] at h
    refine ⟨hp, hb, ?_⟩
    by_cases hc : managed.CredentialsSecretName = []
    · left
      simp [hp, hb, hc] at h
      exact ⟨hc, h.symm⟩
    · right
      refine ⟨hc, ?_⟩
      rcases hv : validateSecret client ns b.CredentialsSecretName K.RequiredAzureCredentialKeys
        with ⟨valid, sec, _ | err⟩
      · obtain ⟨rfl, secret, rfl, hget⟩ := validateSecret_valid_some _ _ _ _ _ _ hv
        simp [hp, hb, hc, hv, Secret.deref] at h
        refine ⟨secret, hget, ?_⟩
        rw [← h]
        cases hf : secret.found K.AzureSasToken <;> simp
      · simp [hp, hb, hc, hv] at h

/-- The Google Cloud stretch, when it does not return: either the backend has no Google Cloud variant, or
the variant has a storage path and a location and the credentials were projected from the named
secret. -/
theorem validateGoogleCloud_ok (K : Pkg) (client : Client) (ns : GoString) (b managed m : RegistryBackend)
    (h : validateGoogleCloud K client ns b managed = .ok m) :
    (managed.GoogleCloud = none ∧ m = managed) ∨
    ∃ s, managed.GoogleCloud = some s ∧ s.StoragePath ≠ [] ∧ s.BucketName ≠ [] ∧
      ((managed.CredentialsSecretName = [] ∧ m = managed) ∨
       (managed.CredentialsSecretName ≠ [] ∧ ∃ secret,
          client.Get ns b.CredentialsSecretName = .ok secret ∧
          m = { managed with
                GoogleCloud := some { s with
                  AccessKey := secret.get K.GoogleCloudAccessKey
                  SecretKey := secret.get K.GoogleCloudAccessKey }
                CredentialsSecretName := [] })) := by
  unfold validateGoogleCloud at h
  cases hs : managed.GoogleCloud with
  | none =>
    rw [hs] at h
    simp only [Except.ok.injEq] at h
    exact Or.inl ⟨rfl, h.symm⟩
  | some s =>
    rw [hs] at h
    simp only at h
    right
    refine ⟨s, rfl, ?_⟩
    by_cases hc : managed.CredentialsSecretName = []
    · by_cases hp : s.StoragePath = []
      · simp [hp, hc, providedBackendFailure] at h
      by_cases hb : s.BucketName = []
      · simp [hb, hc, providedBackendFailure] at h
      simp [hp, hb, hc] at h
      exact ⟨hp, hb, Or.inl ⟨hc, h.symm⟩⟩
    · rcases hv : validateSecret client ns b.CredentialsSecretName K.RequiredGoogleCloudCredentialKeys
        with ⟨valid, sec, _ | err⟩
      · obtain ⟨rfl, secret, rfl, hget⟩ := validateSecret_valid_some _ _ _ _ _ _ hv
        by_cases hp : s.StoragePath = []
        · simp [hp, hc, hv, providedBackendFailure] at h
        by_cases hb : s.BucketName = []
        · simp [hb, hc, hv, providedBackendFailure] at h
        simp [hp, hb, hc, hv, Secret.deref] at h
        exact ⟨hp, hb, Or.inr ⟨hc, secret, hget, h.symm⟩⟩
      · simp [hc, hv] at h

/-- The RHOCS stretch, when it does not return: either the backend has no RHOCS variant, or
the variant has a storage path and a location and the credentials were projected from the named
secret. -/
theorem validateRHOCS_ok (K : Pkg) (client : Client) (ns : GoString) (b managed m : RegistryBackend)
    (h : validateRHOCS K client ns b managed = .ok m) :
    (managed.RHOCS = none ∧ m = managed) ∨
    ∃ s, managed.RHOCS = some s ∧ s.StoragePath ≠ [] ∧ s.BucketName ≠ [] ∧
      ((managed.CredentialsSecretName = [] ∧ m = managed) ∨
       (managed.CredentialsSecretName ≠ [] ∧ ∃ secret,
          client.Get ns b.CredentialsSecretName = .ok secret ∧
          m = { managed with
                RHOCS := some { s with
                  AccessKey := secret.get K.RHOCSAccessKey
                  SecretKey := secret.get K.RHOCSSecretKey }
                CredentialsSecretName := [] })) := by
  unfold validateRHOCS at h
  cases hs : managed.RHOCS with
  | none =>
    rw [hs] at h
    simp only [Except.ok.injEq] at h
    exact Or.inl ⟨rfl, h.symm⟩
  | some s =>
    rw [hs] at h
    simp only at h
    right
    refine ⟨s, rfl, ?_⟩
    by_cases hc : managed.CredentialsSecretName = []
    · by_cases hp : s.StoragePath = []
      · simp [hp, hc, providedBackendFailure] at h
      by_cases hb : s.BucketName = []
      · simp [hb, hc, providedBackendFailure] at h
      simp [hp, hb, hc] at h
      exact ⟨hp, hb, Or.inl ⟨hc, h.symm⟩⟩
    · rcases hv : validateSecret client ns b.CredentialsSecretName K.RequiredRHOCSCredentialKeys
        with ⟨valid, sec, _ | err⟩
      · obtain ⟨rfl, secret, rfl, hget⟩ := validateSecret_valid_some _ _ _ _ _ _ hv
        by_cases hp : s.StoragePath = []
        · simp [hp, hc, hv, providedBackendFailure] at h
        by_cases hb : s.BucketName = []
        · simp [hb, hc, hv, providedBackendFailure] at h
        simp [hp, hb, hc, hv, Secret.deref] at h
        exact ⟨hp, hb, Or.inr ⟨hc, secret, hget, h.symm⟩⟩
      · simp [hc, hv] at h

/-- The RADOS stretch, when it does not return: either the backend has no RADOS variant, or
the variant has a storage path and a location and the credentials were projected from the named
secret. -/
theorem validateRADOS_ok (K : Pkg) (client : Client) (ns : GoString) (b managed m : RegistryBackend)
    (h : validateRADOS K client ns b managed = .ok m) :
    (managed.RADOS = none ∧ m = managed) ∨
    ∃ s, managed.RADOS = some s ∧ s.StoragePath ≠ [] ∧ s.BucketName ≠ [] ∧
      ((managed.CredentialsSecretName = [] ∧ m = managed) ∨
       (managed.CredentialsSecretName ≠ [] ∧ ∃ secret,
          client.Get ns b.CredentialsSecretName = .ok secret ∧
          m = { managed with
                RADOS := some { s with
                  AccessKey := secret.get K.RADOSAccessKey
                  SecretKey := secret.get K.RADOSSecretKey }
                CredentialsSecretName := [] })) := by
  unfold validateRADOS at h
  cases hs : managed.RADOS with
  | none =>
    rw [hs] at h
    simp only [Except.ok.injEq] at h
    exact Or.inl ⟨rfl, h.symm⟩
  | some s =>
    rw [hs] at h
    simp only at h
    right
    refine ⟨s, rfl, ?_⟩
    by_cases hc : managed.CredentialsSecretName = []
    · by_cases hp : s.StoragePath = []
      · simp [hp, hc, providedBackendFailure] at h
      by_cases hb : s.BucketName = []
      · simp [hb, hc, providedBackendFailure] at h
      simp [hp, hb, hc] at h
      exact ⟨hp, hb, Or.inl ⟨hc, h.symm⟩⟩
    · rcases hv : validateSecret client ns b.CredentialsSecretName K.RequiredRADOSCredentialKeys
        with ⟨valid, sec, _ | err⟩
      · obtain ⟨rfl, secret, rfl, hget⟩ := validateSecret_valid_some _ _ _ _ _ _ hv
        by_cases hp : s.StoragePath = []
        · simp [hp, hc, hv, providedBackendFailure] at h
        by_cases hb : s.BucketName = []
        · simp [hb, hc, hv, providedBackendFailure] at h
        simp [hp, hb, hc, hv, Secret.deref] at h
        exact ⟨hp, hb, Or.inr ⟨hc, secret, hget, h.symm⟩⟩
      · simp [hc, hv] at h

/-- The Swift stretch, when it does not return: either the backend has no Swift variant, or
the variant has a storage path and a location and the credentials were projected from the named
secret. -/
theorem validateSwift_ok (K : Pkg) (client : Client) (ns : GoString) (b managed m : RegistryBackend)
    (h : validateSwift K client ns b managed = .ok m) :
    (managed.Swift = none ∧ m = managed) ∨
    ∃ s, managed.Swift = some s ∧ s.StoragePath ≠ [] ∧ s.Container ≠ [] ∧
      ((managed.CredentialsSecretName = [] ∧ m = managed) ∨
       (managed.CredentialsSecretName ≠ [] ∧ ∃ secret,
          client.Get ns b.CredentialsSecretName = .ok secret ∧
          m = { managed with
                Swift := some { s with
                  User := secret.get K.SwiftUser
                  Password := secret.get K.SwiftPassword }
                CredentialsSecretName := [] })) := by
  unfold validateSwift at h
  cases hs : managed.Swift with
  | none =>
    rw [hs] at h
    simp only [Except.ok.injEq] at h
    exact Or.inl ⟨rfl, h.symm⟩
  | some s =>
    rw [hs] at h
    simp only at h
    right
    refine ⟨s, rfl, ?_⟩
    by_cases hc : managed.CredentialsSecretName = []
    · by_cases hp : s.StoragePath = []
      · simp [hp, hc, providedBackendFailure] at h
      by_cases hb : s.Container = []
      · simp [hb, hc, providedBackendFailure] at h
      simp [hp, hb, hc] at h
      exact ⟨hp, hb, Or.inl ⟨hc, h.symm⟩⟩
    · rcases hv : validateSecret client ns b.CredentialsSecretName K.RequiredSwiftCredentialKeys
        with ⟨valid, sec, _ | err⟩
      · obtain ⟨rfl, secret, rfl, hget⟩ := validateSecret_valid_some _ _ _ _ _ _ hv
        by_cases hp : s.StoragePath = []
        · simp [hp, hc, hv, providedBackendFailure] at h
        by_cases hb : s.Container = []
        · simp [hb, hc, hv, providedBackendFailure] at h
        simp [hp, hb, hc, hv, Secret.deref] at h
        exact ⟨hp, hb, Or.inr ⟨hc, secret, hget, h.symm⟩⟩
      · simp [hc, hv] at h

/-- The Cloudfront S3 stretch, when it does not return: either the backend has no Cloudfront S3 variant, or
the variant has a storage path and a location and the credentials were projected from the named
secret. -/
theorem validateCloudfrontS3_ok (K : Pkg) (client : Client) (ns : GoString) (b managed m : RegistryBackend)
    (h : validateCloudfrontS3 K client ns b managed = .ok m) :
    (managed.CloudfrontS3 = none ∧ m = managed) ∨
    ∃ s, managed.CloudfrontS3 = some s ∧ s.StoragePath ≠ [] ∧ s.BucketName ≠ [] ∧
      ((managed.CredentialsSecretName = [] ∧ m = managed) ∨
       (managed.CredentialsSecretName ≠ [] ∧ ∃ secret,
          client.Get ns b.CredentialsSecretName = .ok secret ∧
          m = { managed with
                CloudfrontS3 := some { s with
                  AccessKey := secret.get K.CloudfrontS3AccessKey
                  SecretKey := secret.get K.CloudfrontS3SecretKey }
                CredentialsSecretName := [] })) := by
  unfold validateCloudfrontS3 at h
  cases hs : managed.CloudfrontS3 with
  | none =>
    rw [hs] at h
    simp only [Except.ok.injEq] at h
    exact Or.inl ⟨rfl, h.symm⟩
  | some s =>
    rw [hs] at h
    simp only at h
    right
    refine ⟨s, rfl, ?_⟩
    by_cases hc : managed.CredentialsSecretName = []
    · by_cases hp : s.StoragePath = []
      · simp [hp, hc, providedBackendFailure] at h
      by_cases hb : s.BucketName = []
      · simp [hb, hc, providedBackendFailure] at h
      simp [hp, hb, hc] at h
      exact ⟨hp, hb, Or.inl ⟨hc, h.symm⟩⟩
    · rcases hv : validateSecret client ns b.CredentialsSecretName K.RequiredCloudfrontS3CredentialKeys
        with ⟨valid, sec, _ | err⟩
      · obtain ⟨rfl, secret, rfl, hget⟩ := validateSecret_valid_some _ _ _ _ _ _ hv
        by_cases hp : s.StoragePath = []
        · simp [hp, hc, hv, providedBackendFailure] at h
        by_cases hb : s.BucketName = []
        · simp [hb, hc, hv, providedBackendFailure] at h
        simp [hp, hb, hc, hv, Secret.deref] at h
        exact ⟨hp, hb, Or.inr ⟨hc, secret, hget, h.symm⟩⟩
      · simp [hc, hv] at h

theorem runBlocks_append (l1 l2 : List Block) (q : QuayConfiguration) :
    runBlocks (l1 ++ l2) q =
      match runBlocks l1 q with
      | (q1, none) => runBlocks l2 q1
      | (q1, some err) => (q1, some err) := by
  induction l1 generalizing q with
  | nil => simp [runBlocks]
  | cons b t ih =>
    simp only [List.cons_append, runBlocks]
    rcases hb : b q with ⟨q1, _ | err⟩
    · simpa using ih q1
    · simp

/-- A view of the configuration that every block of a list leaves alone is left alone by the
list. -/
theorem runBlocks_preserves {α : Type} (v : QuayConfiguration → α) (l : List Block)
    (h : ∀ b ∈ l, ∀ q, v (b q).1 = v q) : ∀ q, v (runBlocks l q).1 = v q := by
  induction l with
  | nil => intro q; rfl
  | cons b t ih =>
    intro q
    have hb := h b (List.mem_cons_self _ _) q
    have ht := ih (fun b' hb' => h b' (List.mem_cons_of_mem _ hb'))
    simp only [runBlocks]
    rcases hbq : b q with ⟨q1, _ | err⟩
    · rw [hbq] at hb
      simp only
      rw [ht q1]
      exact hb
    · rw [hbq] at hb
      exact hb

theorem validateImagePullSecret_fst (client : Client) (f : QuayConfiguration → GoString)
    (failure : String) (q : QuayConfiguration) :
    (validateImagePullSecret client f failure q).1 = q := by
  unfold validateImagePullSecret
  split
  · split
    · rfl
    · split <;> rfl
  · rfl

theorem validateSuperuserCredentials_view (K : Pkg) (client : Client) (q : QuayConfiguration) :
    backendView (validateSuperuserCredentials K client q).1 = backendView q := by
  unfold validateSuperuserCredentials
  split
  · split
    · rfl
    · split <;> rfl
  · rfl

theorem validateConfigSecret_view (K : Pkg) (client : Client) (q : QuayConfiguration) :
    backendView (validateConfigSecret K client q).1 = backendView q := by
  unfold validateConfigSecret
  split
  · split
    · rfl
    · split <;> rfl
  · rfl

theorem validateRedisCredentials_view (K : Pkg) (client : Client) (q : QuayConfiguration) :
    backendView (validateRedisCredentials K client q).1 = backendView q := by
  unfold validateRedisCredentials
  split
  · split
    · rfl
    · split <;> rfl
  · rfl

theorem validateDatabaseCredentials_view (K : Pkg) (client : Client) (q : QuayConfiguration) :
    backendView (validateDatabaseCredentials K client q).1 = backendView q := by
  unfold validateDatabaseCredentials
  split
  · split
    · rfl
    · split
      · split
        · rfl
        · split <;> rfl
      · rfl
  · rfl

theorem validateQuayConfigFiles_view (K : Pkg) (client : Client) (q : QuayConfiguration) :
    backendView (validateQuayConfigFiles K client q).1 = backendView q := by
  unfold validateQuayConfigFiles
  split
  · split <;> rfl
  · rfl

/-- The stretches before the registry backends loop leave the resolved backend list, the
namespace, the declared backends and the replication flag as they were. -/
theorem blocksBeforeBackends_view (K : Pkg) (client : Client) (q : QuayConfiguration) :
    backendView (runBlocks (blocksBeforeBackends K client) q).1 = backendView q := by
  apply runBlocks_preserves
  intro b hb q
  simp only [blocksBeforeBackends, List.mem_cons, List.mem_singleton, List.not_mem_nil, or_false] at hb
  rcases hb with rfl | rfl | rfl | rfl | rfl | rfl | rfl | rfl | rfl | rfl | rfl | rfl | rfl
  · exact validateSuperuserCredentials_view K client q
  · unfold validateSuperuserPassword; split <;> rfl
  · exact validateConfigSecret_view K client q
  · unfold validateQuayImagePullSecret; rw [validateImagePullSecret_fst]
  · unfold validateRedisImagePullSecret; rw [validateImagePullSecret_fst]
  · exact validateRedisCredentials_view K client q
  · unfold validateDatabaseImagePullSecret; rw [validateImagePullSecret_fst]
  · exact validateDatabaseCredentials_view K client q
  · unfold validateDatabaseVolumeSize; split
    · split <;> rfl
    · rfl
  · unfold validateRegistryStorage; split
    · split <;> rfl
    · rfl
  · exact validateQuayConfigFiles_view K client q
  · unfold validateHostname; split <;> rfl
  · unfold validateRoute; split <;> rfl

theorem validateSslCertificate_backends (K : Pkg) (client : Client) (q : QuayConfiguration) :
    (validateSslCertificate K client q).1.RegistryBackends = q.RegistryBackends := by
  unfold validateSslCertificate
  split
  · split
    · rfl
    · split <;> rfl
  · rfl

theorem validateClair_backends (K : Pkg) (client : Client) (q : QuayConfiguration) :
    (validateClair K client q).1.RegistryBackends = q.RegistryBackends := by
  unfold validateClair
  split
  · rfl
  · rename_i clair _
    split
    · apply runBlocks_preserves (fun q => q.RegistryBackends)
      intro b hb q
      simp only [List.mem_cons, List.mem_singleton, List.not_mem_nil, or_false] at hb
      rcases hb with rfl | rfl | rfl | rfl
      · unfold validateClairImagePullSecret; rw [validateImagePullSecret_fst]
      · unfold validateClairUpdateInterval; split
        · split <;> rfl
        · rfl
      · unfold validateClairDatabase; split
        · rfl
        · split
          · split
            · rfl
            · split <;> rfl
          · rfl
      · unfold validateClairConfigFiles; split
        · split <;> rfl
        · rfl
    · rfl

/-- The registry backends loop, when it does not return: the resolved list has grown by one
entry per declared backend, each the result of the variant stretches on that backend, none of them
Local when replication is enabled; nothing else of the configuration has changed. -/
theorem validateRegistryBackendsLoop_ok (K : Pkg) (client : Client) (l : List RegistryBackend) :
    ∀ q q2 : QuayConfiguration, validateRegistryBackendsLoop K client l q = (q2, none) →
      ∃ ms, q2 = { q with RegistryBackends := q.RegistryBackends ++ ms } ∧
        List.Forall₂ (fun b m =>
          (q.QuayEcosystem.Spec.Quay.EnableStorageReplication = true → b.Local = none) ∧
          validateRegistryBackend K client q.QuayEcosystem.Namespace b = .ok m) l ms := by
  induction l with
  | nil =>
    intro q q2 h
    simp only [validateRegistryBackendsLoop, Prod.mk.injEq, and_true] at h
    exact ⟨[], by simp [← h], List.Forall₂.nil⟩
  | cons b t ih =>
    intro q q2 h
    unfold validateRegistryBackendsLoop at h
    split at h
    · simp at h
    · rename_i hlocal
      split at h
      · simp at h
      · rename_i m hm
        obtain ⟨ms, hq2, hall⟩ := ih _ _ h
        refine ⟨m :: ms, ?_, List.Forall₂.cons ⟨?_, hm⟩ hall⟩
        · rw [hq2]; simp
        · intro hrep
          cases hl : b.Local with
          | none => rfl
          | some x => simp [hrep, hl] at hlocal

/-- A run of `Validate` that succeeds: the stretches before the loop pass, and the resolved
backend list at the end is the one at the start followed by one entry per declared backend, each
the result of the variant stretches on that backend. -/
theorem Validate_valid (K : Pkg) (client : Client) (q : QuayConfiguration)
    (h : (Validate K client q).valid = true) :
    ∃ q1 ms, runBlocks (blocksBeforeBackends K client) q = (q1, none) ∧
      (Validate K client q).cfg.RegistryBackends = q.RegistryBackends ++ ms ∧
      List.Forall₂ (fun b m =>
        (q.QuayEcosystem.Spec.Quay.EnableStorageReplication = true → b.Local = none) ∧
        validateRegistryBackend K client q.QuayEcosystem.Namespace b = .ok m)
        q.QuayEcosystem.Spec.Quay.RegistryBackends ms := by
  have hview := blocksBeforeBackends_view K client q
  have hssl := validateSslCertificate_backends K client
  have hclair := validateClair_backends K client
  unfold Validate at h ⊢
  rw [runBlocks_append] at h ⊢
  rcases hpre : runBlocks (blocksBeforeBackends K client) q with ⟨q1, _ | e1⟩
  swap
  · rw [hpre] at h; simp at h
  rw [hpre] at h hview
  simp only [backendView, Prod.mk.injEq] at hview
  obtain ⟨hv1, hv2, hv3, hv4⟩ := hview
  simp only [blocksFromBackends, runBlocks] at h ⊢
  rcases hloop : validateRegistryBackends K client q1 with ⟨q2, _ | e2⟩
  swap
  · rw [hloop] at h; simp at h
  rw [hloop] at h
  simp only at h ⊢
  rcases hs : validateSslCertificate K client q2 with ⟨q3, _ | e3⟩
  swap
  · rw [hs] at h; simp at h
  rw [hs] at h
  simp only at h ⊢
  rcases hc : validateClair K client q3 with ⟨q4, _ | e4⟩
  swap
  · rw [hc] at h; simp at h
  simp only
  have hssl2 := hssl q2
  rw [hs] at hssl2
  have hclair3 := hclair q3
  rw [hc] at hclair3
  simp only at hssl2 hclair3
  unfold validateRegistryBackends at hloop
  obtain ⟨ms, hq2, hall⟩ := validateRegistryBackendsLoop_ok K client _ q1 q2 hloop
  refine ⟨q1, ms, rfl, ?_, ?_⟩
  · rw [hclair3, hssl2, hq2, ← hv1]
  · rw [hv2, hv3, hv4] at hall
    exact hall

theorem Except_bind_ok {ε α β : Type} (x : Except ε α) (f : α → Except ε β) (b : β)
    (h : x.bind f = .ok b) : ∃ a, x = .ok a ∧ f a = .ok b := by
  cases x with
  | error e => simp [Except.bind] at h
  | ok a => exact ⟨a, rfl, h⟩

/-- The variant stretches on one backend, when none returns: the intermediate values of
`managedRegistryBackend`. -/
theorem validateRegistryBackend_chain (K : Pkg) (client : Client) (ns : GoString)
    (b m : RegistryBackend) (h : validateRegistryBackend K client ns b = .ok m) :
    ∃ m1 m2 m3 m4 m5 m6,
      validateS3 K client ns b b = .ok m1 ∧
      validateAzure K client ns b m1 = .ok m2 ∧
      validateGoogleCloud K client ns b m2 = .ok m3 ∧
      validateRHOCS K client ns b m3 = .ok m4 ∧
      validateRADOS K client ns b m4 = .ok m5 ∧
      validateSwift K client ns b m5 = .ok m6 ∧
      validateCloudfrontS3 K client ns b m6 = .ok m := by
  unfold validateRegistryBackend at h
  obtain ⟨m1, h1, h⟩ := Except_bind_ok _ _ _ h
  obtain ⟨m2, h2, h⟩ := Except_bind_ok _ _ _ h
  obtain ⟨m3, h3, h⟩ := Except_bind_ok _ _ _ h
  obtain ⟨m4, h4, h⟩ := Except_bind_ok _ _ _ h
  obtain ⟨m5, h5, h⟩ := Except_bind_ok _ _ _ h
  obtain ⟨m6, h6, h⟩ := Except_bind_ok _ _ _ h
  exact ⟨m1, m2, m3, m4, m5, m6, h1, h2, h3, h4, h5, h6, h⟩

theorem validateS3_locations (K : Pkg) (client : Client) (ns : GoString)
    (b managed m : RegistryBackend) (h : validateS3 K client ns b managed = .ok m) :
    m.locations = managed.locations ∧
      ∀ p, managed.locations[0]? = some (some p) → p.1 ≠ [] ∧ p.2 ≠ [] := by
  rcases validateS3_ok K client ns b managed m h with
    ⟨hn, rfl⟩ | ⟨s, hs, hp, hb, ⟨_, rfl⟩ | ⟨_, secret, _, rfl⟩⟩ <;>
    simp_all [RegistryBackend.locations]

theorem validateAzure_locations (K : Pkg) (client : Client) (ns : GoString)
    (b managed m : RegistryBackend) (h : validateAzure K client ns b managed = .ok m) :
    m.locations = managed.locations ∧
      ∀ p, managed.locations[1]? = some (some p) → p.1 ≠ [] ∧ p.2 ≠ [] := by
  rcases validateAzure_ok K client ns b managed m h with
    ⟨hn, rfl⟩ | ⟨s, hs, hp, hb, ⟨_, rfl⟩ | ⟨_, secret, _, rfl⟩⟩ <;>
    simp_all [RegistryBackend.locations]

theorem validateGoogleCloud_locations (K : Pkg) (client : Client) (ns : GoString)
    (b managed m : RegistryBackend) (h : validateGoogleCloud K client ns b managed = .ok m) :
    m.locations = managed.locations ∧
      ∀ p, managed.locations[2]? = some (some p) → p.1 ≠ [] ∧ p.2 ≠ [] := by
  rcases validateGoogleCloud_ok K client ns b managed m h with
    ⟨hn, rfl⟩ | ⟨s, hs, hp, hb, ⟨_, rfl⟩ | ⟨_, secret, _, rfl⟩⟩ <;>
    simp_all [RegistryBackend.locations]

theorem validateRHOCS_locations (K : Pkg) (client : Client) (ns : GoString)
    (b managed m : RegistryBackend) (h : validateRHOCS K client ns b managed = .ok m) :
    m.locations = managed.locations ∧
      ∀ p, managed.locations[3]? = some (some p) → p.1 ≠ [] ∧ p.2 ≠ [] := by
  rcases validateRHOCS_ok K client ns b managed m h with
    ⟨hn, rfl⟩ | ⟨s, hs, hp, hb, ⟨_, rfl⟩ | ⟨_, secret, _, rfl⟩⟩ <;>
    simp_all [RegistryBackend.locations]

theorem validateRADOS_locations (K : Pkg) (client : Client) (ns : GoString)
    (b managed m : RegistryBackend) (h : validateRADOS K client ns b managed = .ok m) :
    m.locations = managed.locations ∧
      ∀ p, managed.locations[4]? = some (some p) → p.1 ≠ [] ∧ p.2 ≠ [] := by
  rcases validateRADOS_ok K client ns b managed m h with
    ⟨hn, rfl⟩ | ⟨s, hs, hp, hb, ⟨_, rfl⟩ | ⟨_, secret, _, rfl⟩⟩ <;>
    simp_all [RegistryBackend.locations]

theorem validateSwift_locations (K : Pkg) (client : Client) (ns : GoString)
    (b managed m : RegistryBackend) (h : validateSwift K client ns b managed = .ok m) :
    m.locations = managed.locations ∧
      ∀ p, managed.locations[5]? = some (some p) → p.1 ≠ [] ∧ p.2 ≠ [] := by
  rcases validateSwift_ok K client ns b managed m h with
    ⟨hn, rfl⟩ | ⟨s, hs, hp, hb, ⟨_, rfl⟩ | ⟨_, secret, _, rfl⟩⟩ <;>
    simp_all [RegistryBackend.locations]

theorem validateCloudfrontS3_locations (K : Pkg) (client : Client) (ns : GoString)
    (b managed m : RegistryBackend) (h : validateCloudfrontS3 K client ns b managed = .ok m) :
    m.locations = managed.locations ∧
      ∀ p, managed.locations[6]? = some (some p) → p.1 ≠ [] ∧ p.2 ≠ [] := by
  rcases validateCloudfrontS3_ok K client ns b managed m h with
    ⟨hn, rfl⟩ | ⟨s, hs, hp, hb, ⟨_, rfl⟩ | ⟨_, secret, _, rfl⟩⟩ <;>
    simp_all [RegistryBackend.locations]

/-- A backend that passed the variant stretches has the storage paths and locations it was
declared with, and each one it has is non-empty. -/
theorem validateRegistryBackend_locations (K : Pkg) (client : Client) (ns : GoString)
    (b m : RegistryBackend) (h : validateRegistryBackend K client ns b = .ok m) :
    m.locations = b.locations ∧ ∀ p, some p ∈ m.locations → p.1 ≠ [] ∧ p.2 ≠ [] := by
  obtain ⟨m1, m2, m3, m4, m5, m6, h1, h2, h3, h4, h5, h6, h7⟩ :=
    validateRegistryBackend_chain K client ns b m h
  have e1 := validateS3_locations K client ns b b m1 h1
  have e2 := validateAzure_locations K client ns b m1 m2 h2
  have e3 := validateGoogleCloud_locations K client ns b m2 m3 h3
  have e4 := validateRHOCS_locations K client ns b m3 m4 h4
  have e5 := validateRADOS_locations K client ns b m4 m5 h5
  have e6 := validateSwift_locations K client ns b m5 m6 h6
  have e7 := validateCloudfrontS3_locations K client ns b m6 m h7
  have l1 := e1.1
  have l2 := e2.1.trans l1
  have l3 := e3.1.trans l2
  have l4 := e4.1.trans l3
  have l5 := e5.1.trans l4
  have l6 := e6.1.trans l5
  have hall : m.locations = b.locations := e7.1.trans l6
  refine ⟨hall, ?_⟩
  intro p hp
  rw [hall] at hp
  have hlen : b.locations.length = 7 := rfl
  obtain ⟨i, hi, hget⟩ := List.getElem_of_mem hp
  have hi7 : i < 7 := hlen ▸ hi
  have hget2 : b.locations[i]? = some (some p) := by
    rw [List.getElem?_eq_getElem hi, hget]
  interval_cases i
  · exact e1.2 p hget2
  · exact e2.2 p (l1 ▸ hget2)
  · exact e3.2 p (l2 ▸ hget2)
  · exact e4.2 p (l3 ▸ hget2)
  · exact e5.2 p (l4 ▸ hget2)
  · exact e6.2 p (l5 ▸ hget2)
  · exact e7.2 p (l6 ▸ hget2)

/-- A backend that sets, of the six variants S3, Azure, RHOCS, RADOS, Swift and Cloudfront S3,
only S3, names a credentials secret and passes the variant stretches (Google Cloud may be set as
well: its stretch comes after and finds the reference cleared): the secret exists and the result
is the projection of its payload. -/
theorem validateRegistryBackend_onlyS3 (K : Pkg) (client : Client) (ns : GoString)
    (b m : RegistryBackend) (x : S3RegistryBackendSource)
    (h : validateRegistryBackend K client ns b = .ok m) (hcred : b.CredentialsSecretName ≠ [])
    (hS3 : b.S3 = some x) (hAzure : b.Azure = none) (hRHOCS : b.RHOCS = none)
    (hRADOS : b.RADOS = none) (hSwift : b.Swift = none) (hCloudfrontS3 : b.CloudfrontS3 = none) :
    ∃ secret, client.Get ns b.CredentialsSecretName = .ok secret ∧ m = projectCredentials K secret b := by
  obtain ⟨m1, m2, m3, m4, m5, m6, h1, h2, h3, h4, h5, h6, h7⟩ :=
    validateRegistryBackend_chain K client ns b m h
  obtain ⟨secret, hget, e1⟩ : ∃ secret, client.Get ns b.CredentialsSecretName = .ok secret ∧
      projectCredentials K secret b = m1 := by
    rcases validateS3_ok K client ns b b m1 h1 with
      ⟨hn, _⟩ | ⟨s, hs, _, _, ⟨hc, _⟩ | ⟨_, secret, hget, hm⟩⟩
    · simp [hS3] at hn
    · exact absurd hc hcred
    · refine ⟨secret, hget, ?_⟩
      rw [hS3] at hs
      cases hs
      rw [hm]
      cases b
      simp_all [projectCredentials]
  subst e1
  have e2 : projectCredentials K secret b = m2 := by
    rcases validateAzure_ok K client ns b (projectCredentials K secret b) m2 h2 with ⟨_, hm⟩ | ⟨s, hs, _⟩
    · exact hm.symm
    · simp [projectCredentials, hAzure] at hs
  subst e2
  have e3 : projectCredentials K secret b = m3 := by
    rcases validateGoogleCloud_ok K client ns b (projectCredentials K secret b) m3 h3 with
      ⟨_, hm⟩ | ⟨s, _, _, _, ⟨_, hm⟩ | ⟨hc, _⟩⟩
    · exact hm.symm
    · exact hm.symm
    · simp [projectCredentials] at hc
  subst e3
  have e4 : projectCredentials K secret b = m4 := by
    rcases validateRHOCS_ok K client ns b (projectCredentials K secret b) m4 h4 with ⟨_, hm⟩ | ⟨s, hs, _⟩
    · exact hm.symm
    · simp [projectCredentials, hRHOCS] at hs
  subst e4
  have e5 : projectCredentials K secret b = m5 := by
    rcases validateRADOS_ok K client ns b (projectCredentials K secret b) m5 h5 with ⟨_, hm⟩ | ⟨s, hs, _⟩
    · exact hm.symm
    · simp [projectCredentials, hRADOS] at hs
  subst e5
  have e6 : projectCredentials K secret b = m6 := by
    rcases validateSwift_ok K client ns b (projectCredentials K secret b) m6 h6 with ⟨_, hm⟩ | ⟨s, hs, _⟩
    · exact hm.symm
    · simp [projectCredentials, hSwift] at hs
  subst e6
  have e7 : projectCredentials K secret b = m := by
    rcases validateCloudfrontS3_ok K client ns b (projectCredentials K secret b) m h7 with ⟨_, hm⟩ | ⟨s, hs, _⟩
    · exact hm.symm
    · simp [projectCredentials, hCloudfrontS3] at hs
  subst e7
  exact ⟨secret, hget, rfl⟩

/-- A backend that sets, of the six variants S3, Azure, RHOCS, RADOS, Swift and Cloudfront S3,
only Azure, names a credentials secret and passes the variant stretches (Google Cloud may be set as
well: its stretch comes after and finds the reference cleared): the secret exists and the result
is the projection of its payload. -/
theorem validateRegistryBackend_onlyAzure (K : Pkg) (client : Client) (ns : GoString)
    (b m : RegistryBackend) (x : AzureRegistryBackendSource)
    (h : validateRegistryBackend K client ns b = .ok m) (hcred : b.CredentialsSecretName ≠ [])
    (hS3 : b.S3 = none) (hAzure : b.Azure = some x) (hRHOCS : b.RHOCS = none)
    (hRADOS : b.RADOS = none) (hSwift : b.Swift = none) (hCloudfrontS3 : b.CloudfrontS3 = none) :
    ∃ secret, client.Get ns b.CredentialsSecretName = .ok secret ∧ m = projectCredentials K secret b := by
  obtain ⟨m1, m2, m3, m4, m5, m6, h1, h2, h3, h4, h5, h6, h7⟩ :=
    validateRegistryBackend_chain K client ns b m h
  have e1 : b = m1 := by
    rcases validateS3_ok K client ns b b m1 h1 with ⟨_, hm⟩ | ⟨s, hs, _⟩
    · exact hm.symm
    · simp [projectCredentials, hS3] at hs
  subst e1
  obtain ⟨secret, hget, e2⟩ : ∃ secret, client.Get ns b.CredentialsSecretName = .ok secret ∧
      projectCredentials K secret b = m2 := by
    rcases validateAzure_ok K client ns b b m2 h2 with
      ⟨hn, _⟩ | ⟨s, hs, _, _, ⟨hc, _⟩ | ⟨_, secret, hget, hm⟩⟩
    · simp [hAzure] at hn
    · exact absurd hc hcred
    · refine ⟨secret, hget, ?_⟩
      rw [hAzure] at hs
      cases hs
      rw [hm]
      cases b
      simp_all [projectCredentials]
  subst e2
  have e3 : projectCredentials K secret b = m3 := by
    rcases validateGoogleCloud_ok K client ns b (projectCredentials K secret b) m3 h3 with
      ⟨_, hm⟩ | ⟨s, _, _, _, ⟨_, hm⟩ | ⟨hc, _⟩⟩
    · exact hm.symm
    · exact hm.symm
    · simp [projectCredentials] at hc
  subst e3
  have e4 : projectCredentials K secret b = m4 := by
    rcases validateRHOCS_ok K client ns b (projectCredentials K secret b) m4 h4 with ⟨_, hm⟩ | ⟨s, hs, _⟩
    · exact hm.symm
    · simp [projectCredentials, hRHOCS] at hs
  subst e4
  have e5 : projectCredentials K secret b = m5 := by
    rcases validateRADOS_ok K client ns b (projectCredentials K secret b) m5 h5 with ⟨_, hm⟩ | ⟨s, hs, _⟩
    · exact hm.symm
    · simp [projectCredentials, hRADOS] at hs
  subst e5
  have e6 : projectCredentials K secret b = m6 := by
    rcases validateSwift_ok K client ns b (projectCredentials K secret b) m6 h6 with ⟨_, hm⟩ | ⟨s, hs, _⟩
    · exact hm.symm
    · simp [projectCredentials, hSwift] at hs
  subst e6
  have e7 : projectCredentials K secret b = m := by
    rcases validateCloudfrontS3_ok K client ns b (projectCredentials K secret b) m h7 with ⟨_, hm⟩ | ⟨s, hs, _⟩
    · exact hm.symm
    · simp [projectCredentials, hCloudfrontS3] at hs
  subst e7
  exact ⟨secret, hget, rfl⟩

/-- A backend that sets, of the seven non-Local variants, only RHOCS, names a credentials secret
and passes the variant stretches: the secret exists and the result is the projection of its
payload. -/
theorem validateRegistryBackend_onlyRHOCS (K : Pkg) (client : Client) (ns : GoString)
    (b m : RegistryBackend) (x : RHOCSRegistryBackendSource)
    (h : validateRegistryBackend K client ns b = .ok m) (hcred : b.CredentialsSecretName ≠ [])
    (hS3 : b.S3 = none) (hAzure : b.Azure = none) (hGoogleCloud : b.GoogleCloud = none)
    (hRHOCS : b.RHOCS = some x) (hRADOS : b.RADOS = none) (hSwift : b.Swift = none) (hCloudfrontS3 : b.CloudfrontS3 = none) :
    ∃ secret, client.Get ns b.CredentialsSecretName = .ok secret ∧ m = projectCredentials K secret b := by
  obtain ⟨m1, m2, m3, m4, m5, m6, h1, h2, h3, h4, h5, h6, h7⟩ :=
    validateRegistryBackend_chain K client ns b m h
  have e1 : b = m1 := by
    rcases validateS3_ok K client ns b b m1 h1 with ⟨_, hm⟩ | ⟨s, hs, _⟩
    · exact hm.symm
    · simp [projectCredentials, hS3] at hs
  subst e1
  have e2 : b = m2 := by
    rcases validateAzure_ok K client ns b b m2 h2 with ⟨_, hm⟩ | ⟨s, hs, _⟩
    · exact hm.symm
    · simp [projectCredentials, hAzure] at hs
  subst e2
  have e3 : b = m3 := by
    rcases validateGoogleCloud_ok K client ns b b m3 h3 with ⟨_, hm⟩ | ⟨s, hs, _⟩
    · exact hm.symm
    · simp [projectCredentials, hGoogleCloud] at hs
  subst e3
  obtain ⟨secret, hget, e4⟩ : ∃ secret, client.Get ns b.CredentialsSecretName = .ok secret ∧
      projectCredentials K secret b = m4 := by
    rcases validateRHOCS_ok K client ns b b m4 h4 with
      ⟨hn, _⟩ | ⟨s, hs, _, _, ⟨hc, _⟩ | ⟨_, secret, hget, hm⟩⟩
    · simp [hRHOCS] at hn
    · exact absurd hc hcred
    · refine ⟨secret, hget, ?_⟩
      rw [hRHOCS] at hs
      cases hs
      rw [hm]
      cases b
      simp_all [projectCredentials]
  subst e4
  have e5 : projectCredentials K secret b = m5 := by
    rcases validateRADOS_ok K client ns b (projectCredentials K secret b) m5 h5 with ⟨_, hm⟩ | ⟨s, hs, _⟩
    · exact hm.symm
    · simp [projectCredentials, hRADOS] at hs
  subst e5
  have e6 : projectCredentials K secret b = m6 := by
    rcases validateSwift_ok K client ns b (projectCredentials K secret b) m6 h6 with ⟨_, hm⟩ | ⟨s, hs, _⟩
    · exact hm.symm
    · simp [projectCredentials, hSwift] at hs
  subst e6
  have e7 : projectCredentials K secret b = m := by
    rcases validateCloudfrontS3_ok K client ns b (projectCredentials K secret b) m h7 with ⟨_, hm⟩ | ⟨s, hs, _⟩
    · exact hm.symm
    · simp [projectCredentials, hCloudfrontS3] at hs
  subst e7
  exact ⟨secret, hget, rfl⟩

/-- A backend that sets, of the seven non-Local variants, only RADOS, names a credentials secret
and passes the variant stretches: the secret exists and the result is the projection of its
payload. -/
theorem validateRegistryBackend_onlyRADOS (K : Pkg) (client : Client) (ns : GoString)
    (b m : RegistryBackend) (x : RADOSRegistryBackendSource)
    (h : validateRegistryBackend K client ns b = .ok m) (hcred : b.CredentialsSecretName ≠ [])
    (hS3 : b.S3 = none) (hAzure : b.Azure = none) (hGoogleCloud : b.GoogleCloud = none)
    (hRHOCS : b.RHOCS = none) (hRADOS : b.RADOS = some x) (hSwift : b.Swift = none) (hCloudfrontS3 : b.CloudfrontS3 = none) :
    ∃ secret, client.Get ns b.CredentialsSecretName = .ok secret ∧ m = projectCredentials K secret b := by
  obtain ⟨m1, m2, m3, m4, m5, m6, h1, h2, h3, h4, h5, h6, h7⟩ :=
    validateRegistryBackend_chain K client ns b m h
  have e1 : b = m1 := by
    rcases validateS3_ok K client ns b b m1 h1 with ⟨_, hm⟩ | ⟨s, hs, _⟩
    · exact hm.symm
    · simp [projectCredentials, hS3] at hs
  subst e1
  have e2 : b = m2 := by
    rcases validateAzure_ok K client ns b b m2 h2 with ⟨_, hm⟩ | ⟨s, hs, _⟩
    · exact hm.symm
    · simp [projectCredentials, hAzure] at hs
  subst e2
  have e3 : b = m3 := by
    rcases validateGoogleCloud_ok K client ns b b m3 h3 with ⟨_, hm⟩ | ⟨s, hs, _⟩
    · exact hm.symm
    · simp [projectCredentials, hGoogleCloud] at hs
  subst e3
  have e4 : b = m4 := by
    rcases validateRHOCS_ok K client ns b b m4 h4 with ⟨_, hm⟩ | ⟨s, hs, _⟩
    · exact hm.symm
    · simp [projectCredentials, hRHOCS] at hs
  subst e4
  obtain ⟨secret, hget, e5⟩ : ∃ secret, client.Get ns b.CredentialsSecretName = .ok secret ∧
      projectCredentials K secret b = m5 := by
    rcases validateRADOS_ok K client ns b b m5 h5 with
      ⟨hn, _⟩ | ⟨s, hs, _, _, ⟨hc, _⟩ | ⟨_, secret, hget, hm⟩⟩
    · simp [hRADOS] at hn
    · exact absurd hc hcred
    · refine ⟨secret, hget, ?_⟩
      rw [hRADOS] at hs
      cases hs
      rw [hm]
      cases b
      simp_all [projectCredentials]
  subst e5
  have e6 : projectCredentials K secret b = m6 := by
    rcases validateSwift_ok K client ns b (projectCredentials K secret b) m6 h6 with ⟨_, hm⟩ | ⟨s, hs, _⟩
    · exact hm.symm
    · simp [projectCredentials, hSwift] at hs
  subst e6
  have e7 : projectCredentials K secret b = m := by
    rcases validateCloudfrontS3_ok K client ns b (projectCredentials K secret b) m h7 with ⟨_, hm⟩ | ⟨s, hs, _⟩
    · exact hm.symm
    · simp [projectCredentials, hCloudfrontS3] at hs
  subst e7
  exact ⟨secret, hget, rfl⟩

/-- A backend that sets, of the seven non-Local variants, only Swift, names a credentials secret
and passes the variant stretches: the secret exists and the result is the projection of its
payload. -/
theorem validateRegistryBackend_onlySwift (K : Pkg) (client : Client) (ns : GoString)
    (b m : RegistryBackend) (x : SwiftRegistryBackendSource)
    (h : validateRegistryBackend K client ns b = .ok m) (hcred : b.CredentialsSecretName ≠ [])
    (hS3 : b.S3 = none) (hAzure : b.Azure = none) (hGoogleCloud : b.GoogleCloud = none)
    (hRHOCS : b.RHOCS = none) (hRADOS : b.RADOS = none) (hSwift : b.Swift = some x) (hCloudfrontS3 : b.CloudfrontS3 = none) :
    ∃ secret, client.Get ns b.CredentialsSecretName = .ok secret ∧ m = projectCredentials K secret b := by
  obtain ⟨m1, m2, m3, m4, m5, m6, h1, h2, h3, h4, h5, h6, h7⟩ :=
    validateRegistryBackend_chain K client ns b m h
  have e1 : b = m1 := by
    rcases validateS3_ok K client ns b b m1 h1 with ⟨_, hm⟩ | ⟨s, hs, _⟩
    · exact hm.symm
    · simp [projectCredentials, hS3] at hs
  subst e1
  have e2 : b = m2 := by
    rcases validateAzure_ok K client ns b b m2 h2 with ⟨_, hm⟩ | ⟨s, hs, _⟩
    · exact hm.symm
    · simp [projectCredentials, hAzure] at hs
  subst e2
  have e3 : b = m3 := by
    rcases validateGoogleCloud_ok K client ns b b m3 h3 with ⟨_, hm⟩ | ⟨s, hs, _⟩
    · exact hm.symm
    · simp [projectCredentials, hGoogleCloud] at hs
  subst e3
  have e4 : b = m4 := by
    rcases validateRHOCS_ok K client ns b b m4 h4 with ⟨_, hm⟩ | ⟨s, hs, _⟩
    · exact hm.symm
    · simp [projectCredentials, hRHOCS] at hs
  subst e4
  have e5 : b = m5 := by
    rcases validateRADOS_ok K client ns b b m5 h5 with ⟨_, hm⟩ | ⟨s, hs, _⟩
    · exact hm.symm
    · simp [projectCredentials, hRADOS] at hs
  subst e5
  obtain ⟨secret, hget, e6⟩ : ∃ secret, client.Get ns b.CredentialsSecretName = .ok secret ∧
      projectCredentials K secret b = m6 := by
    rcases validateSwift_ok K client ns b b m6 h6 with
      ⟨hn, _⟩ | ⟨s, hs, _, _, ⟨hc, _⟩ | ⟨_, secret, hget, hm⟩⟩
    · simp [hSwift] at hn
    · exact absurd hc hcred
    · refine ⟨secret, hget, ?_⟩
      rw [hSwift] at hs
      cases hs
      rw [hm]
      cases b
      simp_all [projectCredentials]
  subst e6
  have e7 : projectCredentials K secret b = m := by
    rcases validateCloudfrontS3_ok K client ns b (projectCredentials K secret b) m h7 with ⟨_, hm⟩ | ⟨s, hs, _⟩
    · exact hm.symm
    · simp [projectCredentials, hCloudfrontS3] at hs
  subst e7
  exact ⟨secret, hget, rfl⟩

/-- A backend that sets, of the seven non-Local variants, only CloudfrontS3, names a credentials secret
and passes the variant stretches: the secret exists and the result is the projection of its
payload. -/
theorem validateRegistryBackend_onlyCloudfrontS3 (K : Pkg) (client : Client) (ns : GoString)
    (b m : RegistryBackend) (x : CloudfrontS3RegistryBackendSource)
    (h : validateRegistryBackend K client ns b = .ok m) (hcred : b.CredentialsSecretName ≠ [])
    (hS3 : b.S3 = none) (hAzure : b.Azure = none) (hGoogleCloud : b.GoogleCloud = none)
    (hRHOCS : b.RHOCS = none) (hRADOS : b.RADOS = none) (hSwift : b.Swift = none) (hCloudfrontS3 : b.CloudfrontS3 = some x) :
    ∃ secret, client.Get ns b.CredentialsSecretName = .ok secret ∧ m = projectCredentials K secret b := by
  obtain ⟨m1, m2, m3, m4, m5, m6, h1, h2, h3, h4, h5, h6, h7⟩ :=
    validateRegistryBackend_chain K client ns b m h
  have e1 : b = m1 := by
    rcases validateS3_ok K client ns b b m1 h1 with ⟨_, hm⟩ | ⟨s, hs, _⟩
    · exact hm.symm
    · simp [projectCredentials, hS3] at hs
  subst e1
  have e2 : b = m2 := by
    rcases validateAzure_ok K client ns b b m2 h2 with ⟨_, hm⟩ | ⟨s, hs, _⟩
    · exact hm.symm
    · simp [projectCredentials, hAzure] at hs
  subst e2
  have e3 : b = m3 := by
    rcases validateGoogleCloud_ok K client ns b b m3 h3 with ⟨_, hm⟩ | ⟨s, hs, _⟩
    · exact hm.symm
    · simp [projectCredentials, hGoogleCloud] at hs
  subst e3
  have e4 : b = m4 := by
    rcases validateRHOCS_ok K client ns b b m4 h4 with ⟨_, hm⟩ | ⟨s, hs, _⟩
    · exact hm.symm
    · simp [projectCredentials, hRHOCS] at hs
  subst e4
  have e5 : b = m5 := by
    rcases validateRADOS_ok K client ns b b m5 h5 with ⟨_, hm⟩ | ⟨s, hs, _⟩
    · exact hm.symm
    · simp [projectCredentials, hRADOS] at hs
  subst e5
  have e6 : b = m6 := by
    rcases validateSwift_ok K client ns b b m6 h6 with ⟨_, hm⟩ | ⟨s, hs, _⟩
    · exact hm.symm
    · simp [projectCredentials, hSwift] at hs
  subst e6
  obtain ⟨secret, hget, e7⟩ : ∃ secret, client.Get ns b.CredentialsSecretName = .ok secret ∧
      projectCredentials K secret b = m := by
    rcases validateCloudfrontS3_ok K client ns b b m h7 with
      ⟨hn, _⟩ | ⟨s, hs, _, _, ⟨hc, _⟩ | ⟨_, secret, hget, hm⟩⟩
    · simp [hCloudfrontS3] at hn
    · exact absurd hc hcred
    · refine ⟨secret, hget, ?_⟩
      rw [hCloudfrontS3] at hs
      cases hs
      rw [hm]
      cases b
      simp_all [projectCredentials]
  subst e7
  exact ⟨secret, hget, rfl⟩

theorem forall₂_getElem {α β : Type} {R : α → β → Prop} {l : List α} {ms : List β}
    (h : List.Forall₂ R l ms) : ∀ (i : Nat) (a : α), l[i]? = some a → ∃ m, ms[i]? = some m ∧ R a m := by
  induction h with
  | nil => intro i a hi; simp at hi
  | cons hr _ ih =>
    intro i a hi
    cases i with
    | zero =>
      simp only [List.getElem?_cons_zero, Option.some.injEq] at hi
      subst hi
      exact ⟨_, by simp, hr⟩
    | succ n =>
      simp only [List.getElem?_cons_succ] at hi
      obtain ⟨m, hm, hrm⟩ := ih n a hi
      exact ⟨m, by simpa using hm, hrm⟩

theorem forall₂_of_mem_right {α β : Type} {R : α → β → Prop} {l : List α} {ms : List β}
    (h : List.Forall₂ R l ms) : ∀ m ∈ ms, ∃ a ∈ l, R a m := by
  induction h with
  | nil => intro m hm; simp at hm
  | cons hr _ ih =>
    intro m hm
    rcases List.mem_cons.1 hm with rfl | hm
    · exact ⟨_, List.mem_cons_self _ _, hr⟩
    · obtain ⟨a, ha, hra⟩ := ih m hm
      exact ⟨a, List.mem_cons_of_mem _ ha, hra⟩

theorem forall₂_of_mem_left {α β : Type} {R : α → β → Prop} {l : List α} {ms : List β}
    (h : List.Forall₂ R l ms) : ∀ a ∈ l, ∃ m ∈ ms, R a m := by
  induction h with
  | nil => intro a ha; simp at ha
  | cons hr _ ih =>
    intro a ha
    rcases List.mem_cons.1 ha with rfl | ha
    · exact ⟨_, List.mem_cons_self _ _, hr⟩
    · obtain ⟨m, hm, hrm⟩ := ih a ha
      exact ⟨m, List.mem_cons_of_mem _ hm, hrm⟩

/-- A backend that sets exactly one of the six variants S3, Azure, RHOCS, RADOS, Swift and
Cloudfront S3, sets Google Cloud only next to S3 or Azure, names a credentials secret and passes
the variant stretches: the secret exists and the result is the projection of its payload. -/
theorem validateRegistryBackend_projects (K : Pkg) (client : Client) (ns : GoString)
    (b m : RegistryBackend) (h : validateRegistryBackend K client ns b = .ok m)
    (hcred : b.CredentialsSecretName ≠ []) (hsix : b.countSix = 1)
    (hgoogle : b.GoogleCloud = none ∨ b.S3 ≠ none ∨ b.Azure ≠ none) :
    ∃ secret, client.Get ns b.CredentialsSecretName = .ok secret ∧ m = projectCredentials K secret b := by
  unfold RegistryBackend.countSix at hsix
  rcases hS3 : b.S3 with _ | s3 <;> rcases hAzure : b.Azure with _ | azure <;>
    rcases hRHOCS : b.RHOCS with _ | rhocs <;> rcases hRADOS : b.RADOS with _ | rados <;>
    rcases hSwift : b.Swift with _ | swift <;> rcases hCloudfrontS3 : b.CloudfrontS3 with _ | cloudfrontS3 <;>
    simp only [hS3, hAzure, hRHOCS, hRADOS, hSwift, hCloudfrontS3, Option.isSome_some,
      Option.isSome_none, Bool.toNat_true, Bool.toNat_false, ne_eq, not_true_eq_false,
      or_false] at hsix hgoogle <;>
    first
    | omega
    | exact validateRegistryBackend_onlyS3 K client ns b m _ h hcred hS3 hAzure hRHOCS hRADOS hSwift hCloudfrontS3
    | exact validateRegistryBackend_onlyAzure K client ns b m _ h hcred hS3 hAzure hRHOCS hRADOS hSwift hCloudfrontS3
    | exact validateRegistryBackend_onlyRHOCS K client ns b m _ h hcred hS3 hAzure hgoogle hRHOCS hRADOS hSwift hCloudfrontS3
    | exact validateRegistryBackend_onlyRADOS K client ns b m _ h hcred hS3 hAzure hgoogle hRHOCS hRADOS hSwift hCloudfrontS3
    | exact validateRegistryBackend_onlySwift K client ns b m _ h hcred hS3 hAzure hgoogle hRHOCS hRADOS hSwift hCloudfrontS3
    | exact validateRegistryBackend_onlyCloudfrontS3 K client ns b m _ h hcred hS3 hAzure hgoogle hRHOCS hRADOS hSwift hCloudfrontS3

/-- C7, as amended. For every declared backend that names a credential secret, sets exactly one
of the six variants S3, Azure, RHOCS, RADOS, Swift and Cloudfront S3 and, unless that one is S3 or
Azure, does not set the Google Cloud variant: whenever `Validate` succeeds, the secret exists and
the corresponding entry of the resolved backend list is the declared backend with the two
credential fields of its variant taken from the secret payload under the two keys of the variant,
the Azure SAS token taken from the payload when its key is present, and an empty credential-secret
reference. -/
theorem Validate_projects_backend_credentials (K : Pkg) (client : Client) (q : QuayConfiguration)
    (i : Nat) (b : RegistryBackend)
    (hvalid : (Validate K client q).valid = true)
    (hb : q.QuayEcosystem.Spec.Quay.RegistryBackends[i]? = some b)
    (hcred : b.CredentialsSecretName ≠ []) (hsix : b.countSix = 1)
    (hgoogle : b.GoogleCloud = none ∨ b.S3 ≠ none ∨ b.Azure ≠ none) :
    ∃ secret, client.Get q.QuayEcosystem.Namespace b.CredentialsSecretName = .ok secret ∧
      (Validate K client q).cfg.RegistryBackends[q.RegistryBackends.length + i]?
        = some (projectCredentials K secret b) := by
  obtain ⟨q1, ms, _, hres, hall⟩ := Validate_valid K client q hvalid
  obtain ⟨m, hm, _, hok⟩ := forall₂_getElem hall i b hb
  obtain ⟨secret, hget, rfl⟩ :=
    validateRegistryBackend_projects K client _ b m hok hcred hsix hgoogle
  refine ⟨secret, hget, ?_⟩
  rw [hres, List.getElem?_append_right (Nat.le_add_right _ _)]
  simpa using hm

theorem Validate_projects_backend_credentials_witness :
    ∃ secret, sampleCredentialsStore.Get (str "quay") (str "creds") = .ok secret ∧
      (Validate samplePkg sampleCredentialsStore
          (sampleWithBackends false [sampleS3Backend])).cfg.RegistryBackends[0 + 0]?
        = some (projectCredentials samplePkg secret sampleS3Backend) :=
  Validate_projects_backend_credentials samplePkg sampleCredentialsStore
    (sampleWithBackends false [sampleS3Backend]) 0 sampleS3Backend
    (by decide) (by decide) (by decide) (by decide) (by decide)

/-- C7 as stated fails on the backend `both`, which sets RHOCS, so exactly one of the six
variants, and Google Cloud as well: `Validate` succeeds, the Google Cloud stretch consumes the
credential secret, and the RHOCS access key of the resolved entry stays empty although the payload
holds `AK` under the RHOCS access key. -/
theorem Validate_projects_backend_credentials_counterexample :
    (Validate samplePkg sampleCredentialsStore
        (sampleWithBackends false [sampleGoogleCloudRHOCSBackend])).valid = true
      ∧ (sampleWithBackends false [sampleGoogleCloudRHOCSBackend]).QuayEcosystem.Spec.Quay.RegistryBackends[0]?
          = some sampleGoogleCloudRHOCSBackend
      ∧ sampleGoogleCloudRHOCSBackend.CredentialsSecretName ≠ []
      ∧ sampleGoogleCloudRHOCSBackend.countSix = 1
      ∧ sampleGoogleCloudRHOCSBackend.RHOCS.isSome = true
      ∧ sampleCredentialsStore.Get (str "quay") sampleGoogleCloudRHOCSBackend.CredentialsSecretName
          = .ok sampleCredentials
      ∧ sampleCredentials.get samplePkg.RHOCSAccessKey = str "AK"
      ∧ ((Validate samplePkg sampleCredentialsStore
            (sampleWithBackends false [sampleGoogleCloudRHOCSBackend])).cfg.RegistryBackends.map
          (fun m => m.RHOCS.map (fun s => s.AccessKey))) = [some []]
      ∧ (Validate samplePkg sampleCredentialsStore
            (sampleWithBackends false [sampleGoogleCloudRHOCSBackend])).cfg.RegistryBackends[0]?
          ≠ some (projectCredentials samplePkg sampleCredentials sampleGoogleCloudRHOCSBackend) := by
  refine ⟨by decide, by decide, by decide, by decide, by decide, by rfl, by decide, by decide,
    by decide⟩

/-- C8, evaluated on the code. The backend `gcs` sets the Google Cloud variant and names the
secret `quay/creds`, which holds `AK` under the Google Cloud access key and `SK` under the Google
Cloud secret key; `Validate` succeeds and the resolved backend has the access key `AK`, an empty
credential-secret reference, and the secret key `AK`, not `SK`. -/
theorem Validate_googleCloud_secretKey_from_accessKey :
    (Validate samplePkg sampleCredentialsStore
        (sampleWithBackends false [sampleGoogleCloudBackend])).valid = true
      ∧ sampleCredentialsStore.Get (str "quay") sampleGoogleCloudBackend.CredentialsSecretName
          = .ok sampleCredentials
      ∧ sampleCredentials.get samplePkg.GoogleCloudAccessKey = str "AK"
      ∧ sampleCredentials.get samplePkg.GoogleCloudSecretKey = str "SK"
      ∧ (Validate samplePkg sampleCredentialsStore
            (sampleWithBackends false [sampleGoogleCloudBackend])).cfg.RegistryBackends
          = [{ sampleGoogleCloudBackend with
                CredentialsSecretName := []
                GoogleCloud := some { StoragePath := str "/reg", BucketName := str "bucket",
                                      AccessKey := str "AK", SecretKey := str "AK" } }]
      ∧ str "AK" ≠ str "SK" := by
  refine ⟨by decide, by rfl, by decide, by decide, by decide, by decide⟩

/-- C9. For every request and store: if `Validate` succeeds starting from an empty resolved
backend list, every backend of the resolved list has, for each non-Local variant it sets (S3,
Azure, Google Cloud, RHOCS, RADOS, Swift, Cloudfront S3), a non-empty storage path and a non-empty
bucket or container name. -/
theorem Validate_nonLocal_backends_located (K : Pkg) (client : Client) (q : QuayConfiguration)
    (hempty : q.RegistryBackends = []) (hvalid : (Validate K client q).valid = true) :
    ∀ m ∈ (Validate K client q).cfg.RegistryBackends,
      (∀ s, m.S3 = some s → s.StoragePath ≠ [] ∧ s.BucketName ≠ []) ∧
      (∀ s, m.Azure = some s → s.StoragePath ≠ [] ∧ s.ContainerName ≠ []) ∧
      (∀ s, m.GoogleCloud = some s → s.StoragePath ≠ [] ∧ s.BucketName ≠ []) ∧
      (∀ s, m.RHOCS = some s → s.StoragePath ≠ [] ∧ s.BucketName ≠ []) ∧
      (∀ s, m.RADOS = some s → s.StoragePath ≠ [] ∧ s.BucketName ≠ []) ∧
      (∀ s, m.Swift = some s → s.StoragePath ≠ [] ∧ s.Container ≠ []) ∧
      (∀ s, m.CloudfrontS3 = some s → s.StoragePath ≠ [] ∧ s.BucketName ≠ []) := by
  obtain ⟨q1, ms, _, hres, hall⟩ := Validate_valid K client q hvalid
  intro m hm
  rw [hres, hempty, List.nil_append] at hm
  obtain ⟨b, _, _, hok⟩ := forall₂_of_mem_right hall m hm
  have hloc := (validateRegistryBackend_locations K client _ b m hok).2
  refine ⟨?_, ?_, ?_, ?_, ?_, ?_, ?_⟩ <;> intro s hs
  · exact hloc (s.StoragePath, s.BucketName) (by simp [RegistryBackend.locations, hs])
  · exact hloc (s.StoragePath, s.ContainerName) (by simp [RegistryBackend.locations, hs])
  · exact hloc (s.StoragePath, s.BucketName) (by simp [RegistryBackend.locations, hs])
  · exact hloc (s.StoragePath, s.BucketName) (by simp [RegistryBackend.locations, hs])
  · exact hloc (s.StoragePath, s.BucketName) (by simp [RegistryBackend.locations, hs])
  · exact hloc (s.StoragePath, s.Container) (by simp [RegistryBackend.locations, hs])
  · exact hloc (s.StoragePath, s.BucketName) (by simp [RegistryBackend.locations, hs])

theorem Validate_nonLocal_backends_located_witness :
    (∀ s, (projectCredentials samplePkg sampleCredentials sampleS3Backend).S3 = some s →
        s.StoragePath ≠ [] ∧ s.BucketName ≠ []) ∧
      (∀ s, (projectCredentials samplePkg sampleCredentials sampleS3Backend).Azure = some s →
        s.StoragePath ≠ [] ∧ s.ContainerName ≠ []) ∧
      (∀ s, (projectCredentials samplePkg sampleCredentials sampleS3Backend).GoogleCloud = some s →
        s.StoragePath ≠ [] ∧ s.BucketName ≠ []) ∧
      (∀ s, (projectCredentials samplePkg sampleCredentials sampleS3Backend).RHOCS = some s →
        s.StoragePath ≠ [] ∧ s.BucketName ≠ []) ∧
      (∀ s, (projectCredentials samplePkg sampleCredentials sampleS3Backend).RADOS = some s →
        s.StoragePath ≠ [] ∧ s.BucketName ≠ []) ∧
      (∀ s, (projectCredentials samplePkg sampleCredentials sampleS3Backend).Swift = some s →
        s.StoragePath ≠ [] ∧ s.Container ≠ []) ∧
      (∀ s, (projectCredentials samplePkg sampleCredentials sampleS3Backend).CloudfrontS3 = some s →
        s.StoragePath ≠ [] ∧ s.BucketName ≠ []) :=
  Validate_nonLocal_backends_located samplePkg sampleCredentialsStore
    (sampleWithBackends false [sampleS3Backend, sampleGoogleCloudRHOCSBackend]) (by decide) (by decide)
    (projectCredentials samplePkg sampleCredentials sampleS3Backend) (by decide)

/-- The result of `Validate` carries `valid = true` exactly when it carries no error. -/
theorem Validate_valid_eq (K : Pkg) (client : Client) (q : QuayConfiguration) :
    (Validate K client q).valid = (Validate K client q).err.isNone := by
  unfold Validate
  split <;> rfl

/-- The loop over the declared backends with replication enabled: when the backends before a
Local one are not Local and pass the variant stretches, the loop returns the replication error
naming the Local one. -/
theorem validateRegistryBackendsLoop_local (K : Pkg) (client : Client) (b : RegistryBackend)
    (post : List RegistryBackend) (hlocal : b.Local ≠ none) (before : List RegistryBackend) :
    ∀ q : QuayConfiguration, q.QuayEcosystem.Spec.Quay.EnableStorageReplication = true →
      (∀ b1 ∈ before, b1.Local = none ∧
        ∃ m, validateRegistryBackend K client q.QuayEcosystem.Namespace b1 = .ok m) →
      (validateRegistryBackendsLoop K client (before ++ b :: post) q).2 = some (Errorf
        (str "Cannot have make use of local storage when replication enabled. Local storage: "
          ++ b.Name)) := by
  induction before with
  | nil =>
    intro q hrep _
    have : b.Local.isSome = true := by
      cases hl : b.Local with
      | none => exact absurd hl hlocal
      | some x => rfl
    simp [validateRegistryBackendsLoop, hrep, this]
  | cons b1 t ih =>
    intro q hrep hpass
    obtain ⟨hl1, m, hm⟩ := hpass b1 (List.mem_cons_self _ _)
    simp only [List.cons_append, validateRegistryBackendsLoop, hrep, hl1, Option.isSome_none,
      Bool.and_false, Bool.false_eq_true, if_false, hm]
    exact ih _ hrep (fun b2 hb2 => hpass b2 (List.mem_cons_of_mem _ hb2))

/-- The error of `Validate` when the stretches before the loop pass and the loop returns. -/
theorem Validate_err_of_loop (K : Pkg) (client : Client) (q q1 : QuayConfiguration) (e : GoError)
    (hpre : runBlocks (blocksBeforeBackends K client) q = (q1, none))
    (hloop : (validateRegistryBackendsLoop K client q1.QuayEcosystem.Spec.Quay.RegistryBackends q1).2
      = some e) :
    (Validate K client q).err = some e := by
  unfold Validate
  rw [runBlocks_append, hpre]
  simp only [blocksFromBackends, runBlocks, validateRegistryBackends]
  rcases hl : validateRegistryBackendsLoop K client q1.QuayEcosystem.Spec.Quay.RegistryBackends q1
    with ⟨q2, _ | e2⟩
  · rw [hl] at hloop; simp at hloop
  · rw [hl] at hloop
    simp only [Option.some.injEq] at hloop
    simp [hloop]

/-- C10. For every request in which storage replication is enabled: if some declared registry
backend is Local, `Validate` does not succeed, whatever the store and the other fields of the
backend; and when the stretches before the backends loop pass and the backends declared before a
Local one are not Local and pass the variant stretches, `Validate` returns the error
"Cannot have make use of local storage when replication enabled. Local storage: " followed by
the name of that backend. -/
theorem Validate_local_with_replication (K : Pkg) (client : Client) (q : QuayConfiguration)
    (hrep : q.QuayEcosystem.Spec.Quay.EnableStorageReplication = true) :
    ((∃ b ∈ q.QuayEcosystem.Spec.Quay.RegistryBackends, b.Local ≠ none) →
        (Validate K client q).valid = false ∧ (Validate K client q).err ≠ none) ∧
    (∀ (before post : List RegistryBackend) (b : RegistryBackend) (q1 : QuayConfiguration),
        q.QuayEcosystem.Spec.Quay.RegistryBackends = before ++ b :: post → b.Local ≠ none →
        runBlocks (blocksBeforeBackends K client) q = (q1, none) →
        (∀ b1 ∈ before, b1.Local = none ∧
          ∃ m, validateRegistryBackend K client q.QuayEcosystem.Namespace b1 = .ok m) →
        (Validate K client q).valid = false ∧
        (Validate K client q).err = some (Errorf
          (str "Cannot have make use of local storage when replication enabled. Local storage: "
            ++ b.Name)) ∧
        ∀ e, (Validate K client q).err = some e → b.Name <:+: e.msg) := by
  constructor
  · rintro ⟨b, hb, hlocal⟩
    have hnot : (Validate K client q).valid ≠ true := by
      intro hvalid
      obtain ⟨q1, ms, _, _, hall⟩ := Validate_valid K client q hvalid
      obtain ⟨m, _, hl, _⟩ := forall₂_of_mem_left hall b hb
      exact hlocal (hl hrep)
    have hv := Validate_valid_eq K client q
    cases hval : (Validate K client q).valid with
    | true => exact absurd hval hnot
    | false =>
      rw [hval] at hv
      refine ⟨rfl, ?_⟩
      intro hnone
      rw [hnone] at hv
      simp at hv
  · intro before post b q1 hdecl hlocal hpre hpass
    have hview := blocksBeforeBackends_view K client q
    rw [hpre] at hview
    simp only [backendView, Prod.mk.injEq] at hview
    obtain ⟨_, hns, hbs, hr⟩ := hview
    have hloop := validateRegistryBackendsLoop_local K client b post hlocal before q1
      (by rw [hr]; exact hrep) (by rw [hns]; exact hpass)
    rw [← hdecl, ← hbs] at hloop
    have herr := Validate_err_of_loop K client q q1 _ hpre hloop
    have hv := Validate_valid_eq K client q
    rw [herr] at hv
    refine ⟨by simpa using hv, herr, ?_⟩
    intro e he
    rw [herr] at he
    simp only [Option.some.injEq] at he
    subst he
    exact ⟨str "Cannot have make use of local storage when replication enabled. Local storage: ",
      [], by simp [Errorf]⟩

theorem Validate_local_with_replication_witness :
    ((Validate samplePkg sampleCredentialsStore
          (sampleWithBackends true [sampleS3Backend, sampleLocalBackend])).valid = false ∧
      (Validate samplePkg sampleCredentialsStore
          (sampleWithBackends true [sampleS3Backend, sampleLocalBackend])).err ≠ none) ∧
    ((Validate samplePkg sampleCredentialsStore
          (sampleWithBackends true [sampleS3Backend, sampleLocalBackend])).valid = false ∧
      (Validate samplePkg sampleCredentialsStore
          (sampleWithBackends true [sampleS3Backend, sampleLocalBackend])).err = some (Errorf
        (str "Cannot have make use of local storage when replication enabled. Local storage: "
          ++ sampleLocalBackend.Name)) ∧
      ∀ e, (Validate samplePkg sampleCredentialsStore
          (sampleWithBackends true [sampleS3Backend, sampleLocalBackend])).err = some e →
        sampleLocalBackend.Name <:+: e.msg) :=
  ⟨(Validate_local_with_replication samplePkg sampleCredentialsStore
      (sampleWithBackends true [sampleS3Backend, sampleLocalBackend]) (by decide)).1
      ⟨sampleLocalBackend, by decide, by decide⟩,
   (Validate_local_with_replication samplePkg sampleCredentialsStore
      (sampleWithBackends true [sampleS3Backend, sampleLocalBackend]) (by decide)).2
      [sampleS3Backend] [] sampleLocalBackend
      (sampleWithBackends true [sampleS3Backend, sampleLocalBackend])
      (by decide) (by decide) (by rfl)
      (by
        intro b1 hb1
        rw [List.mem_singleton] at hb1
        subst hb1
        exact ⟨by decide, projectCredentials samplePkg sampleCredentials sampleS3Backend, by rfl⟩)⟩

theorem allBlocks_eq (K : Pkg) (client : Client) :
    allBlocks K client =
      blocksBeforeDatabaseCredentials K client ++ validateDatabaseCredentials K client ::
        (blocksBeforeHostname K client ++ validateHostname K :: validateRoute K ::
          blocksFromBackends K client) := rfl

theorem Validate_eq_resultOf (K : Pkg) (client : Client) (q : QuayConfiguration) :
    Validate K client q = resultOf (runBlocks (allBlocks K client) q) := rfl

theorem resultOf_valid (r : QuayConfiguration × Option GoError) :
    (resultOf r).valid = r.2.isNone ∧ (resultOf r).err = r.2 ∧ (resultOf r).cfg = r.1 := by
  rcases r with ⟨q, _ | e⟩ <;> exact ⟨rfl, rfl, rfl⟩

/-- A run of `Validate` that succeeds is a run of all stretches without error. -/
theorem Validate_valid_run (K : Pkg) (client : Client) (q : QuayConfiguration)
    (h : (Validate K client q).valid = true) :
    runBlocks (allBlocks K client) q = ((Validate K client q).cfg, none) := by
  rw [Validate_eq_resultOf] at h ⊢
  rcases hr : runBlocks (allBlocks K client) q with ⟨q1, _ | e⟩
  · rfl
  · rw [hr] at h; simp [resultOf] at h

/-- A run without error passes every stretch: the runs before and after a stretch and the
stretch itself return no error. -/
theorem runBlocks_ok_split (l1 l2 : List Block) (b : Block) (q q3 : QuayConfiguration)
    (h : runBlocks (l1 ++ b :: l2) q = (q3, none)) :
    ∃ q1 q2, runBlocks l1 q = (q1, none) ∧ b q1 = (q2, none) ∧ runBlocks l2 q2 = (q3, none) := by
  rw [runBlocks_append] at h
  rcases h1 : runBlocks l1 q with ⟨q1, _ | e1⟩
  · rw [h1] at h
    simp only [runBlocks] at h
    rcases hb : b q1 with ⟨q2, _ | e2⟩
    · rw [hb] at h
      exact ⟨q1, q2, rfl, hb, h⟩
    · rw [hb] at h; simp at h
  · rw [h1] at h; simp at h

/-- A run reaches the error of the first stretch that fails. -/
theorem runBlocks_fail_at (l1 l2 : List Block) (b : Block) (q q1 q2 : QuayConfiguration)
    (e : GoError) (h1 : runBlocks l1 q = (q1, none)) (hb : b q1 = (q2, some e)) :
    runBlocks (l1 ++ b :: l2) q = (q2, some e) := by
  rw [runBlocks_append, h1]
  simp [runBlocks, hb]

/-- A stretch that returns `(q, none)` on every configuration it meets can be left out. -/
theorem runBlocks_skip (l1 l2 : List Block) (b : Block) (q : QuayConfiguration)
    (h : ∀ q1, (runBlocks l1 q).1 = q1 → b q1 = (q1, none)) :
    runBlocks (l1 ++ b :: l2) q = runBlocks (l1 ++ l2) q := by
  rw [runBlocks_append, runBlocks_append]
  rcases h1 : runBlocks l1 q with ⟨q1, _ | e1⟩
  · have := h q1 (by rw [h1])
    simp [runBlocks, this]
  · rfl

theorem requestView_of_fullView (q1 q : QuayConfiguration) (h : fullView q1 = fullView q) :
    requestView q1 = requestView q := by
  simp only [fullView, Prod.mk.injEq] at h
  simp only [requestView, h.1, h.2.2.2]

theorem validateImagePullSecret_full (client : Client) (f : QuayConfiguration → GoString)
    (failure : String) (q : QuayConfiguration) :
    fullView (validateImagePullSecret client f failure q).1 = fullView q := by
  rw [validateImagePullSecret_fst]

/-- The registry backends loop writes the resolved backend list and nothing else, whatever it
returns. -/
theorem validateRegistryBackendsLoop_fst (K : Pkg) (client : Client) (l : List RegistryBackend) :
    ∀ q : QuayConfiguration, ∃ ms,
      (validateRegistryBackendsLoop K client l q).1 =
        { q with RegistryBackends := q.RegistryBackends ++ ms } := by
  induction l with
  | nil => intro q; exact ⟨[], by simp [validateRegistryBackendsLoop]⟩
  | cons b t ih =>
    intro q
    unfold validateRegistryBackendsLoop
    split
    · exact ⟨[], by simp⟩
    · split
      · exact ⟨[], by simp⟩
      · rename_i m _
        obtain ⟨ms, hms⟩ := ih { q with RegistryBackends := q.RegistryBackends ++ [m] }
        exact ⟨m :: ms, by rw [hms]; simp⟩

/-- The stretches other than the superuser credentials, the database credentials and Clair leave
the request, the resolved primary database credentials, the superuser password and the platform
flag as they were. -/
theorem plainBlock_full (K : Pkg) (client : Client) (b : Block)
    (hb : b ∈ [validateSuperuserPassword, validateConfigSecret K client,
      validateQuayImagePullSecret client, validateRedisImagePullSecret client,
      validateRedisCredentials K client, validateDatabaseImagePullSecret client,
      validateDatabaseVolumeSize K, validateRegistryStorage K, validateQuayConfigFiles K client,
      validateHostname K, validateRoute K, validateRegistryBackends K client,
      validateSslCertificate K client]) (q : QuayConfiguration) :
    fullView (b q).1 = fullView q := by
  simp only [List.mem_cons, List.mem_singleton, List.not_mem_nil, or_false] at hb
  rcases hb with rfl | rfl | rfl | rfl | rfl | rfl | rfl | rfl | rfl | rfl | rfl | rfl | rfl
  · unfold validateSuperuserPassword; (repeat' split) <;> rfl
  · unfold validateConfigSecret; (repeat' split) <;> rfl
  · exact validateImagePullSecret_full _ _ _ q
  · exact validateImagePullSecret_full _ _ _ q
  · unfold validateRedisCredentials; (repeat' split) <;> rfl
  · exact validateImagePullSecret_full _ _ _ q
  · unfold validateDatabaseVolumeSize; (repeat' split) <;> rfl
  · unfold validateRegistryStorage; (repeat' split) <;> rfl
  · unfold validateQuayConfigFiles; (repeat' split) <;> rfl
  · unfold validateHostname; (repeat' split) <;> rfl
  · unfold validateRoute; (repeat' split) <;> rfl
  · unfold validateRegistryBackends
    obtain ⟨ms, hms⟩ := validateRegistryBackendsLoop_fst K client
      q.QuayEcosystem.Spec.Quay.RegistryBackends q
    rw [hms]
    rfl
  · unfold validateSslCertificate; (repeat' split) <;> rfl

/-- The superuser credentials stretch leaves the request, the resolved primary database
credentials and the platform flag as they were. -/
theorem validateSuperuserCredentials_frame (K : Pkg) (client : Client) (q : QuayConfiguration) :
    (validateSuperuserCredentials K client q).1.QuayEcosystem = q.QuayEcosystem ∧
    (validateSuperuserCredentials K client q).1.QuayDatabase = q.QuayDatabase ∧
    (validateSuperuserCredentials K client q).1.IsOpenShift = q.IsOpenShift := by
  unfold validateSuperuserCredentials; (repeat' split) <;> exact ⟨rfl, rfl, rfl⟩

theorem Database.stable_project (K : Pkg) (secret : Secret) (config : DatabaseConfig)
    (d : Database) : (projectDatabaseSecret K secret config d).2.stable = d.stable := by
  unfold projectDatabaseSecret
  split <;> rfl

/-- The database credentials stretch leaves the request outside the five database fields, the
platform flag and the superuser password as they were. -/
theorem validateDatabaseCredentials_frame (K : Pkg) (client : Client) (q : QuayConfiguration) :
    requestView (validateDatabaseCredentials K client q).1 = requestView q ∧
    (validateDatabaseCredentials K client q).1.InitialQuaySuperuserPassword
      = q.InitialQuaySuperuserPassword := by
  unfold validateDatabaseCredentials
  (repeat' split) <;> first
    | exact ⟨rfl, rfl⟩
    | (refine ⟨?_, rfl⟩
       simp only [requestView, stableRequest, Database.stable_project])

theorem clairFrame_of_fullView (q1 q : QuayConfiguration) (h : fullView q1 = fullView q) :
    clairFrame q1 = clairFrame q := by
  have hr := requestView_of_fullView q1 q h
  simp only [fullView, Prod.mk.injEq] at h
  simp only [clairFrame, databaseView, hr, h.1, h.2.1, h.2.2.1]

/-- A view that the run before a stretch, the stretch on the configuration that run leaves, and
the run after it leave alone is left alone by the whole run. -/
theorem runBlocks_preserves_mid {α : Type} (v : QuayConfiguration → α) (l1 l2 : List Block)
    (b : Block) (q : QuayConfiguration)
    (h1 : v (runBlocks l1 q).1 = v q)
    (hb : v (b (runBlocks l1 q).1).1 = v (runBlocks l1 q).1)
    (h2 : ∀ q2, v (runBlocks l2 q2).1 = v q2) :
    v (runBlocks (l1 ++ b :: l2) q).1 = v q := by
  rw [runBlocks_append]
  rcases hr : runBlocks l1 q with ⟨q1, _ | e1⟩
  · rw [hr] at h1 hb
    simp only [runBlocks] at hb ⊢
    rcases hbq : b q1 with ⟨q2, _ | e2⟩
    · rw [hbq] at hb
      simp only at hb ⊢
      rw [h2 q2, hb, h1]
    · rw [hbq] at hb
      simp only at hb ⊢
      rw [hb, h1]
  · rw [hr] at h1
    exact h1

theorem validateClairUpdateInterval_full (K : Pkg) (clair : Clair) (q : QuayConfiguration) :
    fullView (validateClairUpdateInterval K clair q).1 = fullView q := by
  unfold validateClairUpdateInterval; (repeat' split) <;> rfl

theorem validateClairConfigFiles_full (K : Pkg) (client : Client) (clair : Clair)
    (q : QuayConfiguration) :
    fullView (validateClairConfigFiles K client clair q).1 = fullView q := by
  unfold validateClairConfigFiles; (repeat' split) <;> rfl

/-- The Clair database stretch, run on a configuration whose `Spec.Clair` points to `clair`. -/
theorem validateClairDatabase_frame (K : Pkg) (client : Client) (clair : Clair)
    (q : QuayConfiguration) (h : q.QuayEcosystem.Spec.Clair = some clair) :
    clairFrame (validateClairDatabase K client clair q).1 = clairFrame q := by
  unfold validateClairDatabase
  (repeat' split) <;> first
    | rfl
    | simp [clairFrame, requestView, databaseView, stableRequest, h, Database.stable_project]

/-- The Clair stretches leave the request outside the five database fields, the platform flag,
the primary database and the superuser password as they were. -/
theorem validateClair_frame (K : Pkg) (client : Client) (q : QuayConfiguration) :
    clairFrame (validateClair K client q).1 = clairFrame q := by
  unfold validateClair
  split
  · rfl
  · rename_i clair hclair
    split
    · have hpre : ∀ q2, fullView (runBlocks [validateClairImagePullSecret client clair,
          validateClairUpdateInterval K clair] q2).1 = fullView q2 := by
        apply runBlocks_preserves
        intro b hb q2
        simp only [List.mem_cons, List.mem_singleton, List.not_mem_nil, or_false] at hb
        rcases hb with rfl | rfl
        · exact validateImagePullSecret_full _ _ _ q2
        · exact validateClairUpdateInterval_full K clair q2
      have hpost : ∀ q2, clairFrame (runBlocks [validateClairConfigFiles K client clair] q2).1
          = clairFrame q2 := by
        apply runBlocks_preserves
        intro b hb q2
        simp only [List.mem_singleton] at hb
        subst hb
        exact clairFrame_of_fullView _ _ (validateClairConfigFiles_full K client clair q2)
      have hq := hpre q
      apply runBlocks_preserves_mid clairFrame
        [validateClairImagePullSecret client clair, validateClairUpdateInterval K clair]
        [validateClairConfigFiles K client clair] (validateClairDatabase K client clair) q
        (clairFrame_of_fullView _ _ hq) _ hpost
      apply validateClairDatabase_frame
      simp only [fullView, Prod.mk.injEq] at hq
      rw [hq.1]
      exact hclair
    · rfl

/-- Every stretch of `Validate` leaves the request outside the five database fields and the
platform flag as they were. -/
theorem allBlocks_requestView (K : Pkg) (client : Client) (b : Block)
    (hb : b ∈ allBlocks K client) (q : QuayConfiguration) :
    requestView (b q).1 = requestView q := by
  simp only [allBlocks, blocksBeforeBackends, blocksFromBackends, List.cons_append,
    List.nil_append, List.mem_cons, List.mem_singleton, List.not_mem_nil, or_false] at hb
  rcases hb with rfl | hb
  · have h := validateSuperuserCredentials_frame K client q
    simp only [requestView, h.1, h.2.2]
  rcases hb with rfl | rfl | rfl | rfl | rfl | rfl | hb
  · exact requestView_of_fullView _ _ (plainBlock_full K client _ (by simp) q)
  · exact requestView_of_fullView _ _ (plainBlock_full K client _ (by simp) q)
  · exact requestView_of_fullView _ _ (plainBlock_full K client _ (by simp) q)
  · exact requestView_of_fullView _ _ (plainBlock_full K client _ (by simp) q)
  · exact requestView_of_fullView _ _ (plainBlock_full K client _ (by simp) q)
  · exact requestView_of_fullView _ _ (plainBlock_full K client _ (by simp) q)
  rcases hb with rfl | hb
  · exact (validateDatabaseCredentials_frame K client q).1
  rcases hb with rfl | rfl | rfl | rfl | rfl | rfl | rfl | rfl
  · exact requestView_of_fullView _ _ (plainBlock_full K client _ (by simp) q)
  · exact requestView_of_fullView _ _ (plainBlock_full K client _ (by simp) q)
  · exact requestView_of_fullView _ _ (plainBlock_full K client _ (by simp) q)
  · exact requestView_of_fullView _ _ (plainBlock_full K client _ (by simp) q)
  · exact requestView_of_fullView _ _ (plainBlock_full K client _ (by simp) q)
  · exact requestView_of_fullView _ _ (plainBlock_full K client _ (by simp) q)
  · exact requestView_of_fullView _ _ (plainBlock_full K client _ (by simp) q)
  · have h := validateClair_frame K client q
    simp only [clairFrame, Prod.mk.injEq] at h
    exact h.1

/-- A run of stretches of `Validate` leaves the request outside the five database fields and the
platform flag as they were. -/
theorem runBlocks_requestView (K : Pkg) (client : Client) (l : List Block)
    (hl : ∀ b ∈ l, b ∈ allBlocks K client) (q : QuayConfiguration) :
    requestView (runBlocks l q).1 = requestView q :=
  runBlocks_preserves requestView l (fun b hb => allBlocks_requestView K client b (hl b hb)) q

/-- Whatever `Validate` returns, it leaves the request outside the five database fields and the
platform flag as they were. -/
theorem Validate_requestView (K : Pkg) (client : Client) (q : QuayConfiguration) :
    requestView (Validate K client q).cfg = requestView q := by
  rw [Validate_eq_resultOf, (resultOf_valid _).2.2]
  exact runBlocks_requestView K client _ (fun _ h => h) q

/-- The stretches before the database credentials leave the request, the resolved primary
database credentials and the platform flag as they were. -/
theorem blocksBeforeDatabaseCredentials_frame (K : Pkg) (client : Client) (q : QuayConfiguration) :
    (runBlocks (blocksBeforeDatabaseCredentials K client) q).1.QuayEcosystem = q.QuayEcosystem ∧
    (runBlocks (blocksBeforeDatabaseCredentials K client) q).1.QuayDatabase = q.QuayDatabase ∧
    (runBlocks (blocksBeforeDatabaseCredentials K client) q).1.IsOpenShift = q.IsOpenShift := by
  have h := runBlocks_preserves
    (fun q : QuayConfiguration => (q.QuayEcosystem, q.QuayDatabase, q.IsOpenShift))
    (blocksBeforeDatabaseCredentials K client) (by
      intro b hb q
      simp only [blocksBeforeDatabaseCredentials, List.mem_cons, List.mem_singleton,
        List.not_mem_nil, or_false] at hb
      rcases hb with rfl | hb
      · have h := validateSuperuserCredentials_frame K client q
        simp only [h.1, h.2.1, h.2.2]
      · have h := plainBlock_full K client b (by
          simp only [List.mem_cons, List.mem_singleton, List.not_mem_nil, or_false]
          rcases hb with h | h | h | h | h | h <;> simp [h]) q
        simp only [fullView, Prod.mk.injEq] at h
        simp only [h.1, h.2.1, h.2.2.2]) q
  simp only [Prod.mk.injEq] at h
  exact h

/-- C13, in bytes. For every request that names no superuser credentials secret and carries a
literal superuser password of fewer than 8 bytes (the length Go's `len` gives): for every store
(one in which every lookup fails included) `Validate` returns `false` and the password-length
error, and leaves the configuration as it was; the result does not depend on the store. -/
theorem Validate_short_literal_password (K : Pkg) (client : Client) (q : QuayConfiguration)
    (hname : q.QuayEcosystem.Spec.Quay.SuperuserCredentialsSecretName = [])
    (hlen : q.InitialQuaySuperuserPassword.length < 8) :
    Validate K client q =
      { valid := false
        err := some (Errorf (str "Quay Superuser Password Must Be At Least 8 Characters in Length"))
        cfg := q } := by
  have h1 : validateSuperuserCredentials K client q = (q, none) := by
    simp [validateSuperuserCredentials, hname]
  have h2 : validateSuperuserPassword q = (q, some (Errorf
      (str "Quay Superuser Password Must Be At Least 8 Characters in Length"))) := by
    simp [validateSuperuserPassword, hlen]
  simp [Validate, blocksBeforeBackends, runBlocks, h1, h2]

theorem Validate_short_literal_password_witness :
    Validate samplePkg (storeOf [])
        { sampleConfiguration with InitialQuaySuperuserPassword := str "short" } =
      { valid := false
        err := some (Errorf (str "Quay Superuser Password Must Be At Least 8 Characters in Length"))
        cfg := { sampleConfiguration with InitialQuaySuperuserPassword := str "short" } } :=
  Validate_short_literal_password samplePkg (storeOf [])
    { sampleConfiguration with InitialQuaySuperuserPassword := str "short" } (by decide) (by decide)

/-- C16. For every request in which setup is not skipped and the primary database descriptor
names a server but no credentials secret, `Validate` fails, for every store. -/
theorem Validate_external_database_without_credentials (K : Pkg) (client : Client)
    (q : QuayConfiguration)
    (hskip : q.QuayEcosystem.Spec.Quay.SkipSetup = false)
    (hserver : q.QuayEcosystem.Spec.Quay.Database.Server ≠ [])
    (hcred : q.QuayEcosystem.Spec.Quay.Database.CredentialsSecretName = []) :
    (Validate K client q).valid = false ∧ (Validate K client q).err ≠ none := by
  have hnot : (Validate K client q).valid ≠ true := by
    intro hvalid
    have hrun := Validate_valid_run K client q hvalid
    rw [allBlocks_eq] at hrun
    obtain ⟨q1, q2, h1, hb, _⟩ := runBlocks_ok_split _ _ _ _ _ hrun
    have hq := (blocksBeforeDatabaseCredentials_frame K client q).1
    rw [h1] at hq
    simp only at hq
    have hzero : q.QuayEcosystem.Spec.Quay.Database ≠ Database.zero := by
      intro hz
      rw [hz] at hserver
      exact hserver rfl
    have hs : q.QuayEcosystem.Spec.Quay.Database.Server.isEmpty = false := by
      cases hsv : q.QuayEcosystem.Spec.Quay.Database.Server with
      | nil => exact absurd hsv hserver
      | cons a t => rfl
    simp [validateDatabaseCredentials, hq, hskip, hcred, IsZeroOfUnderlyingType, GoZero.isZero,
      hzero, hs] at hb
  have hv := Validate_valid_eq K client q
  cases hval : (Validate K client q).valid with
  | true => exact absurd hval hnot
  | false =>
    rw [hval] at hv
    refine ⟨rfl, ?_⟩
    intro hnone
    rw [hnone] at hv
    simp at hv

theorem Validate_external_database_without_credentials_witness :
    (Validate samplePkg (storeOf [])
        { sampleConfiguration with
          QuayEcosystem.Spec.Quay.Database.Server := str "db.example.com" }).valid = false ∧
    (Validate samplePkg (storeOf [])
        { sampleConfiguration with
          QuayEcosystem.Spec.Quay.Database.Server := str "db.example.com" }).err ≠ none :=
  Validate_external_database_without_credentials samplePkg (storeOf [])
    { sampleConfiguration with QuayEcosystem.Spec.Quay.Database.Server := str "db.example.com" }
    (by decide) (by decide) (by decide)

/-- A run of `Validate` that is not valid returns `false` and an error. -/
theorem Validate_fails_of_not_valid (K : Pkg) (client : Client) (q : QuayConfiguration)
    (hnot : (Validate K client q).valid ≠ true) :
    (Validate K client q).valid = false ∧ (Validate K client q).err ≠ none := by
  have hv := Validate_valid_eq K client q
  cases hval : (Validate K client q).valid with
  | true => exact absurd hval hnot
  | false =>
    rw [hval] at hv
    refine ⟨rfl, ?_⟩
    intro hnone
    rw [hnone] at hv
    simp at hv

/-- The stretches before the hostname rule leave the request outside the five database fields
and the platform flag as they were. -/
theorem beforeHostname_requestView (K : Pkg) (client : Client) (q : QuayConfiguration) :
    requestView (runBlocks (blocksBeforeDatabaseCredentials K client ++
      validateDatabaseCredentials K client :: blocksBeforeHostname K client) q).1
      = requestView q := by
  apply runBlocks_requestView K client
  intro b hb
  rw [allBlocks_eq]
  simp only [List.mem_append, List.mem_cons] at hb ⊢
  tauto

/-- The stretches before the route rule leave the request outside the five database fields and
the platform flag as they were. -/
theorem beforeRoute_requestView (K : Pkg) (client : Client) (q : QuayConfiguration) :
    requestView (runBlocks (blocksBeforeDatabaseCredentials K client ++
      validateDatabaseCredentials K client :: (blocksBeforeHostname K client ++
        [validateHostname K])) q).1 = requestView q := by
  apply runBlocks_requestView K client
  intro b hb
  rw [allBlocks_eq]
  simp only [List.mem_append, List.mem_cons, List.mem_singleton] at hb ⊢
  tauto

/-- C14. For every request whose external access type is NodePort or Ingress: with an empty
hostname `Validate` fails, for every store; with a non-empty hostname the hostname rule never
rejects, that is, `Validate` returns what the run of all other stretches returns. -/
theorem Validate_hostname_rule (K : Pkg) (client : Client) (q : QuayConfiguration)
    (htype : K.NodePortExternalAccessType = q.QuayEcosystem.Spec.Quay.ExternalAccess.Type_ ∨
      K.IngressExternalAccessType = q.QuayEcosystem.Spec.Quay.ExternalAccess.Type_) :
    (q.QuayEcosystem.Spec.Quay.ExternalAccess.Hostname = [] →
        (Validate K client q).valid = false ∧ (Validate K client q).err ≠ none) ∧
    (q.QuayEcosystem.Spec.Quay.ExternalAccess.Hostname ≠ [] →
        Validate K client q = resultOf (runBlocks (blocksWithoutHostname K client) q)) := by
  have hsplit : allBlocks K client =
      (blocksBeforeDatabaseCredentials K client ++ validateDatabaseCredentials K client ::
        blocksBeforeHostname K client) ++ validateHostname K ::
        (validateRoute K :: blocksFromBackends K client) := by
    rw [allBlocks_eq]; simp
  have hwithout : blocksWithoutHostname K client =
      (blocksBeforeDatabaseCredentials K client ++ validateDatabaseCredentials K client ::
        blocksBeforeHostname K client) ++ (validateRoute K :: blocksFromBackends K client) := by
    simp [blocksWithoutHostname]
  have haccess : ∀ q1 : QuayConfiguration, requestView q1 = requestView q →
      q1.QuayEcosystem.Spec.Quay.ExternalAccess = q.QuayEcosystem.Spec.Quay.ExternalAccess :=
    fun q1 h => congrArg (fun v : QuayEcosystem × Bool => v.1.Spec.Quay.ExternalAccess) h
  constructor
  · intro hhost
    apply Validate_fails_of_not_valid
    intro hvalid
    have hrun := Validate_valid_run K client q hvalid
    rw [hsplit] at hrun
    obtain ⟨q1, q2, h1, hb, _⟩ := runBlocks_ok_split _ _ _ _ _ hrun
    have hq := beforeHostname_requestView K client q
    rw [h1] at hq
    have ha := haccess q1 hq
    rcases htype with ht | ht <;>
      simp [validateHostname, ha, hhost, ht] at hb
  · intro hhost
    rw [Validate_eq_resultOf, hsplit, hwithout]
    congr 1
    apply runBlocks_skip
    intro q1 hq1
    have hq := beforeHostname_requestView K client q
    rw [hq1] at hq
    have ha := haccess q1 hq
    have hs : q.QuayEcosystem.Spec.Quay.ExternalAccess.Hostname.isEmpty = false := by
      cases hsv : q.QuayEcosystem.Spec.Quay.ExternalAccess.Hostname with
      | nil => exact absurd hsv hhost
      | cons a t => rfl
    simp [validateHostname, ha, hs]

theorem Validate_hostname_rule_witness :
    ((Validate samplePkg (storeOf [])
        { sampleConfiguration with
          QuayEcosystem.Spec.Quay.ExternalAccess.Type_ := str "NodePort" }).valid = false ∧
      (Validate samplePkg (storeOf [])
        { sampleConfiguration with
          QuayEcosystem.Spec.Quay.ExternalAccess.Type_ := str "NodePort" }).err ≠ none) ∧
    (Validate samplePkg (storeOf [])
        { sampleConfiguration with
          QuayEcosystem.Spec.Quay.ExternalAccess.Type_ := str "NodePort"
          QuayEcosystem.Spec.Quay.ExternalAccess.Hostname := str "quay.example.com" }
      = resultOf (runBlocks (blocksWithoutHostname samplePkg (storeOf []))
        { sampleConfiguration with
          QuayEcosystem.Spec.Quay.ExternalAccess.Type_ := str "NodePort"
          QuayEcosystem.Spec.Quay.ExternalAccess.Hostname := str "quay.example.com" })) :=
  ⟨(Validate_hostname_rule samplePkg (storeOf [])
      { sampleConfiguration with QuayEcosystem.Spec.Quay.ExternalAccess.Type_ := str "NodePort" }
      (Or.inl (by decide))).1 (by decide),
   (Validate_hostname_rule samplePkg (storeOf [])
      { sampleConfiguration with
        QuayEcosystem.Spec.Quay.ExternalAccess.Type_ := str "NodePort"
        QuayEcosystem.Spec.Quay.ExternalAccess.Hostname := str "quay.example.com" }
      (Or.inl (by decide))).2 (by decide)⟩

/-- The resolved backend list only grows, whatever `Validate` returns. -/
theorem Validate_resolved_backends_grow (K : Pkg) (client : Client) (q : QuayConfiguration) :
    ∃ ms, (Validate K client q).cfg.RegistryBackends = q.RegistryBackends ++ ms := by
  rw [Validate_eq_resultOf, (resultOf_valid _).2.2]
  unfold allBlocks
  rw [runBlocks_append]
  have hview := blocksBeforeBackends_view K client q
  rcases hpre : runBlocks (blocksBeforeBackends K client) q with ⟨q1, _ | e1⟩
  swap
  · rw [hpre] at hview
    simp only [backendView, Prod.mk.injEq] at hview
    exact ⟨[], by simp [hview.1]⟩
  rw [hpre] at hview
  simp only [backendView, Prod.mk.injEq] at hview
  simp only [blocksFromBackends, runBlocks, validateRegistryBackends]
  obtain ⟨ms, hms⟩ := validateRegistryBackendsLoop_fst K client
    q1.QuayEcosystem.Spec.Quay.RegistryBackends q1
  rcases hloop : validateRegistryBackendsLoop K client
    q1.QuayEcosystem.Spec.Quay.RegistryBackends q1 with ⟨q2, _ | e2⟩
  swap
  · rw [hloop] at hms
    simp only at hms ⊢
    exact ⟨ms, by rw [hms, ← hview.1]⟩
  rw [hloop] at hms
  simp only at hms ⊢
  have hssl := validateSslCertificate_backends K client q2
  rcases hs : validateSslCertificate K client q2 with ⟨q3, _ | e3⟩
  swap
  · rw [hs] at hssl
    simp only at hssl ⊢
    exact ⟨ms, by rw [hssl, hms, ← hview.1]⟩
  rw [hs] at hssl
  simp only at hssl ⊢
  have hclair := validateClair_backends K client q3
  rcases hc : validateClair K client q3 with ⟨q4, _ | e4⟩ <;>
    (rw [hc] at hclair
     simp only at hclair ⊢
     exact ⟨ms, by rw [hclair, hssl, hms, ← hview.1]⟩)

/-- C18. For every request and store, whatever `Validate` returns: the declared registry
backends of the request are afterwards what they were before the call, and the resolved backend
list is the one before the call followed by the copies appended. -/
theorem Validate_declared_backends_unchanged (K : Pkg) (client : Client) (q : QuayConfiguration) :
    (Validate K client q).cfg.QuayEcosystem.Spec.Quay.RegistryBackends
        = q.QuayEcosystem.Spec.Quay.RegistryBackends ∧
      ∃ ms, (Validate K client q).cfg.RegistryBackends = q.RegistryBackends ++ ms :=
  ⟨congrArg (fun v : QuayEcosystem × Bool => v.1.Spec.Quay.RegistryBackends)
      (Validate_requestView K client q),
    Validate_resolved_backends_grow K client q⟩

/-- The stretches after the superuser credentials leave the superuser password as it was. -/
theorem afterSuperuser_password (K : Pkg) (client : Client) (q : QuayConfiguration) :
    (runBlocks (validateConfigSecret K client :: validateQuayImagePullSecret client ::
        validateRedisImagePullSecret client :: validateRedisCredentials K client ::
        validateDatabaseImagePullSecret client :: validateDatabaseCredentials K client ::
        (blocksBeforeHostname K client ++ validateHostname K :: validateRoute K ::
          blocksFromBackends K client)) q).1.InitialQuaySuperuserPassword
      = q.InitialQuaySuperuserPassword := by
  apply runBlocks_preserves (fun q : QuayConfiguration => q.InitialQuaySuperuserPassword)
  intro b hb q
  have hfull : ∀ b : Block, fullView (b q).1 = fullView q →
      (b q).1.InitialQuaySuperuserPassword = q.InitialQuaySuperuserPassword := by
    intro b h
    simp only [fullView, Prod.mk.injEq] at h
    exact h.2.2.1
  simp only [blocksBeforeHostname, blocksFromBackends, List.cons_append, List.nil_append,
    List.mem_cons, List.mem_singleton, List.not_mem_nil, or_false] at hb
  rcases hb with rfl | rfl | rfl | rfl | rfl | hb
  · exact hfull _ (plainBlock_full K client _ (by simp) q)
  · exact hfull _ (plainBlock_full K client _ (by simp) q)
  · exact hfull _ (plainBlock_full K client _ (by simp) q)
  · exact hfull _ (plainBlock_full K client _ (by simp) q)
  · exact hfull _ (plainBlock_full K client _ (by simp) q)
  rcases hb with rfl | hb
  · exact (validateDatabaseCredentials_frame K client q).2
  rcases hb with rfl | rfl | rfl | rfl | rfl | rfl | rfl | rfl
  · exact hfull _ (plainBlock_full K client _ (by simp) q)
  · exact hfull _ (plainBlock_full K client _ (by simp) q)
  · exact hfull _ (plainBlock_full K client _ (by simp) q)
  · exact hfull _ (plainBlock_full K client _ (by simp) q)
  · exact hfull _ (plainBlock_full K client _ (by simp) q)
  · exact hfull _ (plainBlock_full K client _ (by simp) q)
  · exact hfull _ (plainBlock_full K client _ (by simp) q)
  · have h := validateClair_frame K client q
    simp only [clairFrame, Prod.mk.injEq] at h
    exact h.2.2

/-- The superuser credentials stretch, when it does not return, leaves in the configuration the
superuser password in effect. -/
theorem validateSuperuserCredentials_ok (K : Pkg) (client : Client) (q q1 : QuayConfiguration)
    (h : validateSuperuserCredentials K client q = (q1, none)) :
    superuserPasswordInEffect K client q = some q1.InitialQuaySuperuserPassword := by
  unfold validateSuperuserCredentials at h
  unfold superuserPasswordInEffect
  by_cases hgate : q.QuayEcosystem.Spec.Quay.SuperuserCredentialsSecretName ≠ []
      ∧ q.QuayEcosystem.Spec.Quay.SkipSetup = false
      ∧ q.QuayEcosystem.Status.SetupComplete = false
  · rw [if_pos hgate]
    have hs : q.QuayEcosystem.Spec.Quay.SuperuserCredentialsSecretName.isEmpty = false := by
      cases hsv : q.QuayEcosystem.Spec.Quay.SuperuserCredentialsSecretName with
      | nil => exact absurd hsv hgate.1
      | cons a t => rfl
    simp only [isZero_list, hs, hgate.2.1, hgate.2.2, Bool.not_false, Bool.and_self,
      if_true] at h
    rcases hv : validateSecret client q.QuayEcosystem.Namespace
        q.QuayEcosystem.Spec.Quay.SuperuserCredentialsSecretName
        K.DefaultQuaySuperuserCredentials with ⟨valid, sec, _ | err⟩
    · obtain ⟨rfl, secret, rfl, hget⟩ := validateSecret_valid_some _ _ _ _ _ _ hv
      rw [hv] at h
      simp only [Bool.not_true, Bool.false_eq_true, if_false, Prod.mk.injEq, and_true,
        Secret.deref] at h
      rw [hget, ← h]
    · rw [hv] at h
      simp at h
  · rw [if_neg hgate]
    have hq : q1 = q := by
      by_cases hn : q.QuayEcosystem.Spec.Quay.SuperuserCredentialsSecretName = []
      · simp [hn] at h
        exact h.symm
      · have hs : q.QuayEcosystem.Spec.Quay.SuperuserCredentialsSecretName.isEmpty = false := by
          cases hsv : q.QuayEcosystem.Spec.Quay.SuperuserCredentialsSecretName with
          | nil => exact absurd hsv hn
          | cons a t => rfl
        have hrest : ¬ (q.QuayEcosystem.Spec.Quay.SkipSetup = false
            ∧ q.QuayEcosystem.Status.SetupComplete = false) := fun hr => hgate ⟨hn, hr⟩
        cases hsk : q.QuayEcosystem.Spec.Quay.SkipSetup <;>
          cases hsc : q.QuayEcosystem.Status.SetupComplete <;>
          simp [hs, hsk, hsc] at h hrest
        all_goals exact h.symm
    rw [hq]

/-- C12, in bytes. For every request and store: if the superuser password in effect after the superuser
credentials stretch (the password value of the secret when the superuser secret is named, setup is
not skipped and setup is not complete; otherwise the literal password of the configuration) has a
length below 8, `Validate` fails; and whenever `Validate` succeeds, the superuser password of the
output is the password in effect and has a length of at least 8.  The length is the one Go's `len`
gives, the number of bytes, not the number of characters. -/
theorem Validate_superuser_password_length (K : Pkg) (client : Client) (q : QuayConfiguration) :
    (∀ p, superuserPasswordInEffect K client q = some p → p.length < 8 →
        (Validate K client q).valid = false ∧ (Validate K client q).err ≠ none) ∧
    ((Validate K client q).valid = true →
        superuserPasswordInEffect K client q
          = some (Validate K client q).cfg.InitialQuaySuperuserPassword ∧
        8 ≤ (Validate K client q).cfg.InitialQuaySuperuserPassword.length) := by
  have hsucc : (Validate K client q).valid = true →
      superuserPasswordInEffect K client q
        = some (Validate K client q).cfg.InitialQuaySuperuserPassword ∧
      8 ≤ (Validate K client q).cfg.InitialQuaySuperuserPassword.length := by
    intro hvalid
    have hrun := Validate_valid_run K client q hvalid
    have hsplit : allBlocks K client = [validateSuperuserCredentials K client] ++
        validateSuperuserPassword ::
        (validateConfigSecret K client :: validateQuayImagePullSecret client ::
        validateRedisImagePullSecret client :: validateRedisCredentials K client ::
        validateDatabaseImagePullSecret client :: validateDatabaseCredentials K client ::
        (blocksBeforeHostname K client ++ validateHostname K :: validateRoute K ::
          blocksFromBackends K client)) := rfl
    rw [hsplit] at hrun
    obtain ⟨q1, q2, h1, hb, hrest⟩ := runBlocks_ok_split _ _ _ _ _ hrun
    have hsu : validateSuperuserCredentials K client q = (q1, none) := by
      simp only [runBlocks] at h1
      rcases hs : validateSuperuserCredentials K client q with ⟨q0, _ | e⟩
      · rw [hs] at h1
        simp only [Prod.mk.injEq, and_true] at h1
        rw [h1]
      · rw [hs] at h1; simp at h1
    have heff := validateSuperuserCredentials_ok K client q q1 hsu
    have hpw := afterSuperuser_password K client q2
    rw [hrest] at hpw
    simp only at hpw
    unfold validateSuperuserPassword at hb
    by_cases hlen : q1.InitialQuaySuperuserPassword.length < 8
    · simp [hlen] at hb
    · simp only [hlen, if_false, Prod.mk.injEq, and_true] at hb
      rw [hpw, ← hb]
      exact ⟨heff, Nat.le_of_not_lt hlen⟩
  refine ⟨?_, hsucc⟩
  intro p hp hlen
  apply Validate_fails_of_not_valid
  intro hvalid
  obtain ⟨heq, hge⟩ := hsucc hvalid
  rw [hp, Option.some.injEq] at heq
  rw [← heq] at hge
  omega

theorem Validate_superuser_password_length_witness :
    ((Validate samplePkg (storeOf [((str "quay", str "superuser"), sampleShortSuperuser)])
        { sampleConfiguration with
          QuayEcosystem.Spec.Quay.SuperuserCredentialsSecretName := str "superuser" }).valid
        = false ∧
      (Validate samplePkg (storeOf [((str "quay", str "superuser"), sampleShortSuperuser)])
        { sampleConfiguration with
          QuayEcosystem.Spec.Quay.SuperuserCredentialsSecretName := str "superuser" }).err
        ≠ none) ∧
    (superuserPasswordInEffect samplePkg sampleCredentialsStore sampleConfiguration
        = some (Validate samplePkg sampleCredentialsStore
            sampleConfiguration).cfg.InitialQuaySuperuserPassword ∧
      8 ≤ (Validate samplePkg sampleCredentialsStore
            sampleConfiguration).cfg.InitialQuaySuperuserPassword.length) :=
  ⟨(Validate_superuser_password_length samplePkg
      (storeOf [((str "quay", str "superuser"), sampleShortSuperuser)])
      { sampleConfiguration with
        QuayEcosystem.Spec.Quay.SuperuserCredentialsSecretName := str "superuser" }).1
      (str "short") (by rfl) (by decide),
   (Validate_superuser_password_length samplePkg sampleCredentialsStore sampleConfiguration).2
      (by decide)⟩

/-- A result of `validateSecret` without error: the secret exists in the store and holds every
key asked for. -/
theorem validateSecret_valid_keys (client : Client) (ns name : GoString) (rp : RequiredParameters)
    (valid : Bool) (s : Option Secret) (h : validateSecret client ns name rp = (valid, s, none)) :
    valid = true ∧ ∃ secret, s = some secret ∧ client.Get ns name = .ok secret ∧
      ∀ k ∈ rp.keys, secret.found k = true := by
  obtain ⟨hv, secret, hs, hget⟩ := validateSecret_valid_some client ns name rp valid s h
  refine ⟨hv, secret, hs, hget, ?_⟩
  by_cases hform : rp = .other
  · subst hform
    simp [RequiredParameters.keys]
  · have h2 := validateSecret_of_get client ns name rp secret hget hform
    by_cases hall : ∀ k ∈ rp.keys, secret.found k = true
    · exact hall
    · rw [if_neg hall, h] at h2
      simp at h2

/-- The stretches after the database credentials leave the resolved primary database credentials
and the `Quay` part of the request as they were. -/
theorem afterDatabase_view (K : Pkg) (client : Client) (q : QuayConfiguration) :
    databaseView (runBlocks (blocksBeforeHostname K client ++ validateHostname K ::
      validateRoute K :: blocksFromBackends K client) q).1 = databaseView q := by
  apply runBlocks_preserves databaseView
  intro b hb q
  have hfull : ∀ b : Block, fullView (b q).1 = fullView q →
      databaseView (b q).1 = databaseView q := by
    intro b h
    simp only [fullView, Prod.mk.injEq] at h
    simp only [databaseView, h.1, h.2.1]
  simp only [blocksBeforeHostname, blocksFromBackends, List.cons_append, List.nil_append,
    List.mem_cons, List.mem_singleton, List.not_mem_nil, or_false] at hb
  rcases hb with rfl | rfl | rfl | rfl | rfl | rfl | rfl | rfl
  · exact hfull _ (plainBlock_full K client _ (by simp) q)
  · exact hfull _ (plainBlock_full K client _ (by simp) q)
  · exact hfull _ (plainBlock_full K client _ (by simp) q)
  · exact hfull _ (plainBlock_full K client _ (by simp) q)
  · exact hfull _ (plainBlock_full K client _ (by simp) q)
  · exact hfull _ (plainBlock_full K client _ (by simp) q)
  · exact hfull _ (plainBlock_full K client _ (by simp) q)
  · have h := validateClair_frame K client q
    simp only [clairFrame, Prod.mk.injEq] at h
    exact h.2.1

theorem isEmpty_false_of_ne {α : Type} (l : List α) (h : l ≠ []) : l.isEmpty = false := by
  cases l with
  | nil => exact absurd rfl h
  | cons a t => rfl

/-- The database credentials stretch, with setup not skipped and a credentials secret named,
when it does not return: the secret exists with the required keys and its payload is projected
into the resolved credentials and the descriptor of the request. -/
theorem validateDatabaseCredentials_ok (K : Pkg) (client : Client) (q q2 : QuayConfiguration)
    (hskip : q.QuayEcosystem.Spec.Quay.SkipSetup = false)
    (hcred : q.QuayEcosystem.Spec.Quay.Database.CredentialsSecretName ≠ [])
    (h : validateDatabaseCredentials K client q = (q2, none)) :
    ∃ secret, client.Get q.QuayEcosystem.Namespace
        q.QuayEcosystem.Spec.Quay.Database.CredentialsSecretName = .ok secret ∧
      (∀ k ∈ K.RequiredDatabaseCredentialKeys.keys, secret.found k = true) ∧
      q2.QuayDatabase = (projectDatabaseSecret K secret q.QuayDatabase
        q.QuayEcosystem.Spec.Quay.Database).1 ∧
      q2.QuayEcosystem.Spec.Quay.Database = (projectDatabaseSecret K secret q.QuayDatabase
        q.QuayEcosystem.Spec.Quay.Database).2 := by
  have hzero : q.QuayEcosystem.Spec.Quay.Database ≠ Database.zero := by
    intro hz
    rw [hz] at hcred
    exact hcred rfl
  have hs := isEmpty_false_of_ne _ hcred
  unfold validateDatabaseCredentials at h
  simp only [hskip, IsZeroOfUnderlyingType, GoZero.isZero, hzero, hs, decide_False,
    Bool.not_false, Bool.and_false, Bool.and_true, Bool.false_eq_true, if_false, if_true,
    Bool.true_and, Bool.and_self] at h
  rcases hv : validateSecret client q.QuayEcosystem.Namespace
      q.QuayEcosystem.Spec.Quay.Database.CredentialsSecretName
      K.RequiredDatabaseCredentialKeys with ⟨valid, sec, _ | err⟩
  · obtain ⟨rfl, secret, rfl, hget, hkeys⟩ := validateSecret_valid_keys _ _ _ _ _ _ hv
    rw [hv] at h
    simp only [Bool.not_true, Bool.false_eq_true, if_false, Prod.mk.injEq, and_true,
      Secret.deref] at h
    refine ⟨secret, hget, hkeys, ?_, ?_⟩ <;> rw [← h]
  · rw [hv] at h
    simp at h

/-- C17. For every request in which setup is not skipped and a primary database credentials
secret is named: whenever `Validate` succeeds, the secret exists and the output database username,
password and database name are the payload under the username, password and database keys; if
the payload holds the server key, the output server and the server of the request both are that
value, the image and the deployment strategy of the request are empty and its two probes are
absent; if it does not, the descriptor of the request and the output server are unchanged; and the
output root password is the payload value when the root-password key is present, unchanged
otherwise. -/
theorem Validate_database_credentials_projected (K : Pkg) (client : Client) (q : QuayConfiguration)
    (hskip : q.QuayEcosystem.Spec.Quay.SkipSetup = false)
    (hcred : q.QuayEcosystem.Spec.Quay.Database.CredentialsSecretName ≠ [])
    (hvalid : (Validate K client q).valid = true) :
    ∃ secret, client.Get q.QuayEcosystem.Namespace
        q.QuayEcosystem.Spec.Quay.Database.CredentialsSecretName = .ok secret ∧
      (Validate K client q).cfg.QuayDatabase.Username
        = secret.get K.DatabaseCredentialsUsernameKey ∧
      (Validate K client q).cfg.QuayDatabase.Password
        = secret.get K.DatabaseCredentialsPasswordKey ∧
      (Validate K client q).cfg.QuayDatabase.Database
        = secret.get K.DatabaseCredentialsDatabaseKey ∧
      (secret.found K.DatabaseCredentialsServerKey = true →
        (Validate K client q).cfg.QuayDatabase.Server
          = secret.get K.DatabaseCredentialsServerKey ∧
        (Validate K client q).cfg.QuayEcosystem.Spec.Quay.Database.Server
          = secret.get K.DatabaseCredentialsServerKey ∧
        (Validate K client q).cfg.QuayEcosystem.Spec.Quay.Database.Image = [] ∧
        (Validate K client q).cfg.QuayEcosystem.Spec.Quay.Database.DeploymentStrategy = [] ∧
        (Validate K client q).cfg.QuayEcosystem.Spec.Quay.Database.ReadinessProbe = none ∧
        (Validate K client q).cfg.QuayEcosystem.Spec.Quay.Database.LivenessProbe = none) ∧
      (secret.found K.DatabaseCredentialsServerKey = false →
        (Validate K client q).cfg.QuayEcosystem.Spec.Quay.Database
          = q.QuayEcosystem.Spec.Quay.Database ∧
        (Validate K client q).cfg.QuayDatabase.Server = q.QuayDatabase.Server) ∧
      (secret.found K.DatabaseCredentialsRootPasswordKey = true →
        (Validate K client q).cfg.QuayDatabase.RootPassword
          = secret.get K.DatabaseCredentialsRootPasswordKey) ∧
      (secret.found K.DatabaseCredentialsRootPasswordKey = false →
        (Validate K client q).cfg.QuayDatabase.RootPassword = q.QuayDatabase.RootPassword) := by
  have hrun := Validate_valid_run K client q hvalid
  rw [allBlocks_eq] at hrun
  obtain ⟨q1, q2, h1, hb, hrest⟩ := runBlocks_ok_split _ _ _ _ _ hrun
  have hq := blocksBeforeDatabaseCredentials_frame K client q
  rw [h1] at hq
  simp only at hq
  obtain ⟨hqe, hqd, _⟩ := hq
  obtain ⟨secret, hget, _, hd1, hd2⟩ := validateDatabaseCredentials_ok K client q1 q2
    (by rw [hqe]; exact hskip) (by rw [hqe]; exact hcred) hb
  rw [hqe, hqd] at hd1 hd2
  rw [hqe] at hget
  have hview := afterDatabase_view K client q2
  rw [hrest] at hview
  simp only [databaseView, Prod.mk.injEq] at hview
  have e1 : (Validate K client q).cfg.QuayDatabase = (projectDatabaseSecret K secret
      q.QuayDatabase q.QuayEcosystem.Spec.Quay.Database).1 := by rw [hview.1, hd1]
  have e2 : (Validate K client q).cfg.QuayEcosystem.Spec.Quay.Database =
      (projectDatabaseSecret K secret q.QuayDatabase q.QuayEcosystem.Spec.Quay.Database).2 := by
    rw [hview.2, hd2]
  refine ⟨secret, hget, ?_⟩
  rw [e1, e2]
  unfold projectDatabaseSecret
  cases hsrv : secret.found K.DatabaseCredentialsServerKey <;>
    cases hroot : secret.found K.DatabaseCredentialsRootPasswordKey <;> simp

theorem Validate_database_credentials_projected_witness :
    ∃ secret, sampleDatabaseStore.Get sampleWithDatabase.QuayEcosystem.Namespace
        sampleWithDatabase.QuayEcosystem.Spec.Quay.Database.CredentialsSecretName = .ok secret ∧
      (Validate samplePkg sampleDatabaseStore sampleWithDatabase).cfg.QuayDatabase.Username
        = secret.get samplePkg.DatabaseCredentialsUsernameKey ∧
      (Validate samplePkg sampleDatabaseStore sampleWithDatabase).cfg.QuayDatabase.Password
        = secret.get samplePkg.DatabaseCredentialsPasswordKey ∧
      (Validate samplePkg sampleDatabaseStore sampleWithDatabase).cfg.QuayDatabase.Database
        = secret.get samplePkg.DatabaseCredentialsDatabaseKey ∧
      (secret.found samplePkg.DatabaseCredentialsServerKey = true →
        (Validate samplePkg sampleDatabaseStore sampleWithDatabase).cfg.QuayDatabase.Server
          = secret.get samplePkg.DatabaseCredentialsServerKey ∧
        (Validate samplePkg sampleDatabaseStore
            sampleWithDatabase).cfg.QuayEcosystem.Spec.Quay.Database.Server
          = secret.get samplePkg.DatabaseCredentialsServerKey ∧
        (Validate samplePkg sampleDatabaseStore
            sampleWithDatabase).cfg.QuayEcosystem.Spec.Quay.Database.Image = [] ∧
        (Validate samplePkg sampleDatabaseStore
            sampleWithDatabase).cfg.QuayEcosystem.Spec.Quay.Database.DeploymentStrategy = [] ∧
        (Validate samplePkg sampleDatabaseStore
            sampleWithDatabase).cfg.QuayEcosystem.Spec.Quay.Database.ReadinessProbe = none ∧
        (Validate samplePkg sampleDatabaseStore
            sampleWithDatabase).cfg.QuayEcosystem.Spec.Quay.Database.LivenessProbe = none) ∧
      (secret.found samplePkg.DatabaseCredentialsServerKey = false →
        (Validate samplePkg sampleDatabaseStore
            sampleWithDatabase).cfg.QuayEcosystem.Spec.Quay.Database
          = sampleWithDatabase.QuayEcosystem.Spec.Quay.Database ∧
        (Validate samplePkg sampleDatabaseStore sampleWithDatabase).cfg.QuayDatabase.Server
          = sampleWithDatabase.QuayDatabase.Server) ∧
      (secret.found samplePkg.DatabaseCredentialsRootPasswordKey = true →
        (Validate samplePkg sampleDatabaseStore sampleWithDatabase).cfg.QuayDatabase.RootPassword
          = secret.get samplePkg.DatabaseCredentialsRootPasswordKey) ∧
      (secret.found samplePkg.DatabaseCredentialsRootPasswordKey = false →
        (Validate samplePkg sampleDatabaseStore sampleWithDatabase).cfg.QuayDatabase.RootPassword
          = sampleWithDatabase.QuayDatabase.RootPassword) :=
  Validate_database_credentials_projected samplePkg sampleDatabaseStore sampleWithDatabase
    (by decide) (by decide) (by decide)

/-- The configuration a run leaves shows, in a view the run after a stretch leaves alone, what
the run before the stretch or the stretch itself left. -/
theorem runBlocks_mid_cases {α : Type} (v : QuayConfiguration → α) (l1 l2 : List Block)
    (b : Block) (q : QuayConfiguration) (h2 : ∀ q2, v (runBlocks l2 q2).1 = v q2) :
    v (runBlocks (l1 ++ b :: l2) q).1 = v (runBlocks l1 q).1 ∨
    v (runBlocks (l1 ++ b :: l2) q).1 = v (b (runBlocks l1 q).1).1 := by
  rw [runBlocks_append]
  rcases hr : runBlocks l1 q with ⟨q1, _ | e1⟩
  · right
    simp only [runBlocks]
    rcases hbq : b q1 with ⟨q2, _ | e2⟩
    · simp only
      exact h2 q2
    · rfl
  · left
    rfl

/-- The database credentials stretch writes the descriptor of the request only when setup is not
skipped and the named secret exists and holds the server key. -/
theorem validateDatabaseCredentials_writes (K : Pkg) (client : Client) (q : QuayConfiguration)
    (h : (validateDatabaseCredentials K client q).1.QuayEcosystem.Spec.Quay.Database
      ≠ q.QuayEcosystem.Spec.Quay.Database) :
    q.QuayEcosystem.Spec.Quay.SkipSetup = false ∧
    ∃ secret, client.Get q.QuayEcosystem.Namespace
        q.QuayEcosystem.Spec.Quay.Database.CredentialsSecretName = .ok secret ∧
      secret.found K.DatabaseCredentialsServerKey = true := by
  unfold validateDatabaseCredentials at h
  split at h
  · rename_i hskip
    split at h
    · exact absurd rfl h
    · split at h
      · rcases hv : validateSecret client q.QuayEcosystem.Namespace
            q.QuayEcosystem.Spec.Quay.Database.CredentialsSecretName
            K.RequiredDatabaseCredentialKeys with ⟨valid, sec, _ | err⟩
        · obtain ⟨rfl, secret, rfl, hget⟩ := validateSecret_valid_some _ _ _ _ _ _ hv
          rw [hv] at h
          simp only [Bool.not_true, Bool.false_eq_true, if_false, Secret.deref] at h
          refine ⟨by simpa using hskip, secret, hget, ?_⟩
          cases hf : secret.found K.DatabaseCredentialsServerKey
          · exfalso
            apply h
            simp [projectDatabaseSecret, hf]
          · rfl
        · rw [hv] at h
          exact absurd rfl h
      · exact absurd rfl h
  · exact absurd rfl h

theorem validateDatabaseCredentials_clair (K : Pkg) (client : Client) (q : QuayConfiguration) :
    (validateDatabaseCredentials K client q).1.QuayEcosystem.Spec.Clair
      = q.QuayEcosystem.Spec.Clair := by
  unfold validateDatabaseCredentials
  (repeat' split) <;> rfl

/-- The Clair database stretch, run on a configuration whose `Spec.Clair` points to `clair`,
writes the descriptor of the request only when the named secret exists and holds the server
key. -/
theorem validateClairDatabase_writes (K : Pkg) (client : Client) (clair : Clair)
    (q : QuayConfiguration) (hclair : q.QuayEcosystem.Spec.Clair = some clair)
    (h : (validateClairDatabase K client clair q).1.QuayEcosystem ≠ q.QuayEcosystem) :
    ∃ secret, client.Get q.QuayEcosystem.Namespace clair.Database.CredentialsSecretName
        = .ok secret ∧ secret.found K.DatabaseCredentialsServerKey = true := by
  unfold validateClairDatabase at h
  split at h
  · exact absurd rfl h
  · split at h
    · rcases hv : validateSecret client q.QuayEcosystem.Namespace
          clair.Database.CredentialsSecretName K.RequiredDatabaseCredentialKeys
          with ⟨valid, sec, _ | err⟩
      · obtain ⟨rfl, secret, rfl, hget⟩ := validateSecret_valid_some _ _ _ _ _ _ hv
        rw [hv] at h
        simp only [Bool.not_true, Bool.false_eq_true, if_false, Secret.deref] at h
        refine ⟨secret, hget, ?_⟩
        cases hf : secret.found K.DatabaseCredentialsServerKey
        · exfalso
          apply h
          have hp : (projectDatabaseSecret K secret q.ClairDatabase clair.Database).2
              = clair.Database := by
            simp [projectDatabaseSecret, hf]
          simp only [hp]
          rcases hq : q.QuayEcosystem with ⟨ns, ⟨quay, redis, cl⟩, status⟩
          rw [hq] at hclair
          simp only at hclair
          simp [hclair]
        · rfl
      · rw [hv] at h
        exact absurd rfl h
    · exact absurd rfl h

/-- The Clair stretches write the request only when Clair is declared and enabled and the secret
named by its database descriptor exists and holds the server key. -/
theorem validateClair_writes (K : Pkg) (client : Client) (q : QuayConfiguration)
    (h : (validateClair K client q).1.QuayEcosystem ≠ q.QuayEcosystem) :
    ∃ clair secret, q.QuayEcosystem.Spec.Clair = some clair ∧ clair.Enabled = true ∧
      client.Get q.QuayEcosystem.Namespace clair.Database.CredentialsSecretName = .ok secret ∧
      secret.found K.DatabaseCredentialsServerKey = true := by
  unfold validateClair at h
  split at h
  · exact absurd rfl h
  · rename_i clair hclair
    split at h
    · rename_i henabled
      have hpre : ∀ q2, fullView (runBlocks [validateClairImagePullSecret client clair,
          validateClairUpdateInterval K clair] q2).1 = fullView q2 := by
        apply runBlocks_preserves
        intro b hb q2
        simp only [List.mem_cons, List.mem_singleton, List.not_mem_nil, or_false] at hb
        rcases hb with rfl | rfl
        · exact validateImagePullSecret_full _ _ _ q2
        · exact validateClairUpdateInterval_full K clair q2
      have hpost : ∀ q2, (runBlocks [validateClairConfigFiles K client clair] q2).1.QuayEcosystem
          = q2.QuayEcosystem := by
        apply runBlocks_preserves (fun q : QuayConfiguration => q.QuayEcosystem)
        intro b hb q2
        simp only [List.mem_singleton] at hb
        subst hb
        have := validateClairConfigFiles_full K client clair q2
        simp only [fullView, Prod.mk.injEq] at this
        exact this.1
      have hq := hpre q
      simp only [fullView, Prod.mk.injEq] at hq
      have hcases := runBlocks_mid_cases (fun q : QuayConfiguration => q.QuayEcosystem)
        [validateClairImagePullSecret client clair, validateClairUpdateInterval K clair]
        [validateClairConfigFiles K client clair] (validateClairDatabase K client clair) q hpost
      simp only [List.cons_append, List.nil_append] at hcases
      rcases hcases with hc | hc
      · rw [hc, hq.1] at h
        exact absurd rfl h
      · rw [hc] at h
        have hne : (validateClairDatabase K client clair
            (runBlocks [validateClairImagePullSecret client clair,
              validateClairUpdateInterval K clair] q).1).1.QuayEcosystem
            ≠ (runBlocks [validateClairImagePullSecret client clair,
              validateClairUpdateInterval K clair] q).1.QuayEcosystem := by
          rw [hq.1]
          exact h
        obtain ⟨secret, hget, hfound⟩ := validateClairDatabase_writes K client clair _
          (by rw [hq.1]; exact hclair) hne
        rw [hq.1] at hget
        exact ⟨clair, secret, hclair, henabled, hget, hfound⟩
    · exact absurd rfl h

/-- The stretches before Clair leave `Spec.Clair` of the request as it was. -/
theorem beforeClair_clair (K : Pkg) (client : Client) (q : QuayConfiguration) :
    (runBlocks (blocksBeforeBackends K client ++ [validateRegistryBackends K client,
      validateSslCertificate K client]) q).1.QuayEcosystem.Spec.Clair
      = q.QuayEcosystem.Spec.Clair := by
  apply runBlocks_preserves (fun q : QuayConfiguration => q.QuayEcosystem.Spec.Clair)
  intro b hb q
  have hfull : ∀ b : Block, fullView (b q).1 = fullView q →
      (b q).1.QuayEcosystem.Spec.Clair = q.QuayEcosystem.Spec.Clair := by
    intro b h
    simp only [fullView, Prod.mk.injEq] at h
    rw [h.1]
  simp only [blocksBeforeBackends, List.cons_append, List.nil_append,
    List.mem_cons, List.mem_singleton, List.not_mem_nil, or_false] at hb
  rcases hb with rfl | hb
  · rw [(validateSuperuserCredentials_frame K client q).1]
  rcases hb with rfl | rfl | rfl | rfl | rfl | rfl | hb
  · exact hfull _ (plainBlock_full K client _ (by simp) q)
  · exact hfull _ (plainBlock_full K client _ (by simp) q)
  · exact hfull _ (plainBlock_full K client _ (by simp) q)
  · exact hfull _ (plainBlock_full K client _ (by simp) q)
  · exact hfull _ (plainBlock_full K client _ (by simp) q)
  · exact hfull _ (plainBlock_full K client _ (by simp) q)
  rcases hb with rfl | hb
  · exact validateDatabaseCredentials_clair K client q
  rcases hb with rfl | rfl | rfl | rfl | rfl | rfl | rfl
  · exact hfull _ (plainBlock_full K client _ (by simp) q)
  · exact hfull _ (plainBlock_full K client _ (by simp) q)
  · exact hfull _ (plainBlock_full K client _ (by simp) q)
  · exact hfull _ (plainBlock_full K client _ (by simp) q)
  · exact hfull _ (plainBlock_full K client _ (by simp) q)
  · exact hfull _ (plainBlock_full K client _ (by simp) q)
  · exact hfull _ (plainBlock_full K client _ (by simp) q)

/-- C19, as amended. For every request and store, whatever `Validate` returns: the request is
afterwards what it was before the call outside the fields server, image, deployment strategy,
readiness probe and liveness probe of the primary and of the scanner database descriptor; the
primary descriptor is written only when setup is not skipped and its credentials secret exists
and holds the server key; the scanner descriptor is written only when the scanner is declared and
enabled and its credentials secret exists and holds the server key. -/
theorem Validate_request_outside_database_fields (K : Pkg) (client : Client)
    (q : QuayConfiguration) :
    stableRequest (Validate K client q).cfg.QuayEcosystem = stableRequest q.QuayEcosystem ∧
    ((Validate K client q).cfg.QuayEcosystem.Spec.Quay.Database
        ≠ q.QuayEcosystem.Spec.Quay.Database →
      q.QuayEcosystem.Spec.Quay.SkipSetup = false ∧
      ∃ secret, client.Get q.QuayEcosystem.Namespace
          q.QuayEcosystem.Spec.Quay.Database.CredentialsSecretName = .ok secret ∧
        secret.found K.DatabaseCredentialsServerKey = true) ∧
    ((Validate K client q).cfg.QuayEcosystem.Spec.Clair ≠ q.QuayEcosystem.Spec.Clair →
      ∃ clair secret, q.QuayEcosystem.Spec.Clair = some clair ∧ clair.Enabled = true ∧
        client.Get q.QuayEcosystem.Namespace clair.Database.CredentialsSecretName = .ok secret ∧
        secret.found K.DatabaseCredentialsServerKey = true) := by
  refine ⟨congrArg Prod.fst (Validate_requestView K client q), ?_, ?_⟩
  · intro hne
    rw [Validate_eq_resultOf, (resultOf_valid _).2.2, allBlocks_eq] at hne
    have hpre := (blocksBeforeDatabaseCredentials_frame K client q).1
    have hcases := runBlocks_mid_cases
      (fun q : QuayConfiguration => q.QuayEcosystem.Spec.Quay.Database)
      (blocksBeforeDatabaseCredentials K client)
      (blocksBeforeHostname K client ++ validateHostname K :: validateRoute K ::
        blocksFromBackends K client) (validateDatabaseCredentials K client) q (by
        intro q2
        have := afterDatabase_view K client q2
        simp only [databaseView, Prod.mk.injEq] at this
        show (runBlocks _ q2).1.QuayEcosystem.Spec.Quay.Database = q2.QuayEcosystem.Spec.Quay.Database
        rw [this.2])
    simp only at hcases
    rcases hcases with hc | hc
    · rw [hc, hpre] at hne
      exact absurd rfl hne
    · rw [hc] at hne
      have := validateDatabaseCredentials_writes K client
        (runBlocks (blocksBeforeDatabaseCredentials K client) q).1 (by rw [hpre]; exact hne)
      rw [hpre] at this
      exact this
  · intro hne
    have hsplit : allBlocks K client = (blocksBeforeBackends K client ++
        [validateRegistryBackends K client, validateSslCertificate K client]) ++
        validateClair K client :: [] := by
      simp [allBlocks, blocksFromBackends]
    rw [Validate_eq_resultOf, (resultOf_valid _).2.2, hsplit] at hne
    have hpre := beforeClair_clair K client q
    have hreq := runBlocks_requestView K client (blocksBeforeBackends K client ++
        [validateRegistryBackends K client, validateSslCertificate K client]) (by
        intro b hb
        rw [hsplit]
        exact List.mem_append_left _ hb) q
    have hns : (runBlocks (blocksBeforeBackends K client ++
        [validateRegistryBackends K client, validateSslCertificate K client])
        q).1.QuayEcosystem.Namespace = q.QuayEcosystem.Namespace :=
      congrArg (fun v : QuayEcosystem × Bool => v.1.Namespace) hreq
    have hcases := runBlocks_mid_cases
      (fun q : QuayConfiguration => q.QuayEcosystem.Spec.Clair)
      (blocksBeforeBackends K client ++
        [validateRegistryBackends K client, validateSslCertificate K client])
      [] (validateClair K client) q (fun q2 => rfl)
    simp only at hcases
    rcases hcases with hc | hc
    · rw [hc, hpre] at hne
      exact absurd rfl hne
    · rw [hc] at hne
      have hne2 : (validateClair K client (runBlocks (blocksBeforeBackends K client ++
          [validateRegistryBackends K client, validateSslCertificate K client])
          q).1).1.QuayEcosystem ≠ (runBlocks (blocksBeforeBackends K client ++
          [validateRegistryBackends K client, validateSslCertificate K client])
          q).1.QuayEcosystem := by
        intro heq
        apply hne
        rw [heq, hpre]
      obtain ⟨clair, secret, hcl, hen, hget, hf⟩ := validateClair_writes K client _ hne2
      rw [hpre] at hcl
      rw [hns] at hget
      exact ⟨clair, secret, hcl, hen, hget, hf⟩

/-- C19 as stated fails on `sampleWithDatabase`, whose primary database descriptor names the
secret `quay/db`, which holds a server: `Validate` succeeds and the request afterwards carries the
server of the secret and neither the image nor the readiness probe it was declared with. -/
theorem Validate_request_read_only_counterexample :
    (Validate samplePkg sampleDatabaseStore sampleWithDatabase).valid = true
      ∧ (Validate samplePkg sampleDatabaseStore sampleWithDatabase).cfg.QuayEcosystem
          ≠ sampleWithDatabase.QuayEcosystem
      ∧ sampleWithDatabase.QuayEcosystem.Spec.Quay.Database.Image = str "postgres:9.6"
      ∧ (Validate samplePkg sampleDatabaseStore
            sampleWithDatabase).cfg.QuayEcosystem.Spec.Quay.Database.Image = []
      ∧ (Validate samplePkg sampleDatabaseStore
            sampleWithDatabase).cfg.QuayEcosystem.Spec.Quay.Database.Server
          = str "db.example.com" := by
  refine ⟨by decide, by decide, by decide, by decide, by decide⟩

/-- The loop over the declared backends: when the backends before one pass and that one makes the
variant stretches return an error (and is not stopped by the replication rule), the loop returns
that error. -/
theorem validateRegistryBackendsLoop_error (K : Pkg) (client : Client) (b : RegistryBackend)
    (post : List RegistryBackend) (e : GoError) (before : List RegistryBackend) :
    ∀ q : QuayConfiguration,
      (q.QuayEcosystem.Spec.Quay.EnableStorageReplication = true → b.Local = none) →
      validateRegistryBackend K client q.QuayEcosystem.Namespace b = .error e →
      (∀ b1 ∈ before,
        (q.QuayEcosystem.Spec.Quay.EnableStorageReplication = true → b1.Local = none) ∧
        ∃ m, validateRegistryBackend K client q.QuayEcosystem.Namespace b1 = .ok m) →
      (validateRegistryBackendsLoop K client (before ++ b :: post) q).2 = some e := by
  induction before with
  | nil =>
    intro q hlocal herr _
    have hguard : (q.QuayEcosystem.Spec.Quay.EnableStorageReplication && b.Local.isSome) = false := by
      cases hrep : q.QuayEcosystem.Spec.Quay.EnableStorageReplication
      · rfl
      · simp [hlocal hrep]
    simp [validateRegistryBackendsLoop, hguard, herr]
  | cons b1 t ih =>
    intro q hlocal herr hpass
    obtain ⟨hl1, m, hm⟩ := hpass b1 (List.mem_cons_self _ _)
    have hguard : (q.QuayEcosystem.Spec.Quay.EnableStorageReplication && b1.Local.isSome) = false := by
      cases hrep : q.QuayEcosystem.Spec.Quay.EnableStorageReplication
      · rfl
      · simp [hl1 hrep]
    simp only [List.cons_append, validateRegistryBackendsLoop, hguard, Bool.false_eq_true,
      if_false, hm]
    exact ih _ hlocal herr (fun b2 hb2 => hpass b2 (List.mem_cons_of_mem _ hb2))

/-- An S3 backend without storage path or without bucket name makes the variant stretches return
the required-properties error naming it, for every store: no secret is looked up. -/
theorem validateRegistryBackend_s3_required (K : Pkg) (client : Client) (ns : GoString)
    (b : RegistryBackend) (s : S3RegistryBackendSource) (hs3 : b.S3 = some s)
    (hempty : s.StoragePath = [] ∨ s.BucketName = []) :
    validateRegistryBackend K client ns b = .error (Errorf
      (str "Failed to validate required properties for registry backend. Name: " ++ b.Name)) := by
  have h1 : validateS3 K client ns b b = .error (Errorf
      (str "Failed to validate required properties for registry backend. Name: " ++ b.Name)) := by
    unfold validateS3
    rw [hs3]
    rcases hempty with h | h <;> simp [h]
  unfold validateRegistryBackend
  simp only [h1]
  rfl

/-- C11. For every request that declares an S3 backend whose storage path or bucket name is
empty: `Validate` fails, for every store; the variant stretches return the required-properties
error on that backend for every store, so without a lookup of its credentials secret; and when
replication is disabled, the stretches before the loop pass and the backends declared before it
pass, `Validate` returns that error, whose message contains the name of the backend. -/
theorem Validate_s3_required_fields (K : Pkg) (client : Client) (q : QuayConfiguration)
    (b : RegistryBackend) (s : S3RegistryBackendSource)
    (hb : b ∈ q.QuayEcosystem.Spec.Quay.RegistryBackends) (hs3 : b.S3 = some s)
    (hempty : s.StoragePath = [] ∨ s.BucketName = []) :
    ((Validate K client q).valid = false ∧ (Validate K client q).err ≠ none) ∧
    (∀ client2 : Client, validateRegistryBackend K client2 q.QuayEcosystem.Namespace b
        = .error (Errorf
          (str "Failed to validate required properties for registry backend. Name: " ++ b.Name))) ∧
    (∀ (before post : List RegistryBackend) (q1 : QuayConfiguration),
        q.QuayEcosystem.Spec.Quay.EnableStorageReplication = false →
        q.QuayEcosystem.Spec.Quay.RegistryBackends = before ++ b :: post →
        runBlocks (blocksBeforeBackends K client) q = (q1, none) →
        (∀ b1 ∈ before, ∃ m, validateRegistryBackend K client q.QuayEcosystem.Namespace b1 = .ok m) →
        (Validate K client q).err = some (Errorf
          (str "Failed to validate required properties for registry backend. Name: " ++ b.Name)) ∧
        ∀ e, (Validate K client q).err = some e → b.Name <:+: e.msg) := by
  refine ⟨?_, fun client2 => validateRegistryBackend_s3_required K client2 _ b s hs3 hempty, ?_⟩
  · apply Validate_fails_of_not_valid
    intro hvalid
    obtain ⟨q1, ms, _, _, hall⟩ := Validate_valid K client q hvalid
    obtain ⟨m, _, _, hok⟩ := forall₂_of_mem_left hall b hb
    rw [validateRegistryBackend_s3_required K client _ b s hs3 hempty] at hok
    exact Except.noConfusion hok
  · intro before post q1 hrep hdecl hpre hpass
    have hview := blocksBeforeBackends_view K client q
    rw [hpre] at hview
    simp only [backendView, Prod.mk.injEq] at hview
    obtain ⟨_, hns, hbs, hr⟩ := hview
    have hloop := validateRegistryBackendsLoop_error K client b post _ before q1
      (by rw [hr, hrep]; intro h; exact Bool.noConfusion h)
      (validateRegistryBackend_s3_required K client _ b s hs3 hempty)
      (by
        intro b1 hb1
        refine ⟨by rw [hr, hrep]; intro h; exact Bool.noConfusion h, ?_⟩
        rw [hns]
        exact hpass b1 hb1)
    rw [← hdecl, ← hbs] at hloop
    have herr := Validate_err_of_loop K client q q1 _ hpre hloop
    refine ⟨herr, ?_⟩
    intro e he
    rw [herr] at he
    simp only [Option.some.injEq] at he
    subst he
    exact ⟨str "Failed to validate required properties for registry backend. Name: ",
      [], by simp [Errorf]⟩

theorem Validate_s3_required_fields_witness :
    ((Validate samplePkg (storeOf []) (sampleWithBackends false [sampleS3NoBucket])).valid = false ∧
      (Validate samplePkg (storeOf []) (sampleWithBackends false [sampleS3NoBucket])).err ≠ none) ∧
    ((Validate samplePkg (storeOf []) (sampleWithBackends false [sampleS3NoBucket])).err
        = some (Errorf
          (str "Failed to validate required properties for registry backend. Name: "
            ++ sampleS3NoBucket.Name)) ∧
      ∀ e, (Validate samplePkg (storeOf []) (sampleWithBackends false [sampleS3NoBucket])).err
        = some e → sampleS3NoBucket.Name <:+: e.msg) :=
  ⟨(Validate_s3_required_fields samplePkg (storeOf []) (sampleWithBackends false [sampleS3NoBucket])
      sampleS3NoBucket { StoragePath := str "/reg", BucketName := [], AccessKey := [], SecretKey := [] }
      (by decide) (by rfl) (Or.inr rfl)).1,
   (Validate_s3_required_fields samplePkg (storeOf []) (sampleWithBackends false [sampleS3NoBucket])
      sampleS3NoBucket { StoragePath := str "/reg", BucketName := [], AccessKey := [], SecretKey := [] }
      (by decide) (by rfl) (Or.inr rfl)).2.2 [] []
      (sampleWithBackends false [sampleS3NoBucket]) (by decide) (by rfl) (by rfl)
      (by intro b1 hb1; simp at hb1)⟩

theorem runBlocks_flagBlind (l : List Block) (h : ∀ b ∈ l, FlagBlind b) :
    FlagBlind (runBlocks l) := by
  induction l with
  | nil => intro flag q; rfl
  | cons b t ih =>
    intro flag q
    have hb := h b (List.mem_cons_self _ _) flag q
    have ht := ih (fun b1 hb1 => h b1 (List.mem_cons_of_mem _ hb1))
    simp only [runBlocks]
    rw [hb]
    rcases hbq : b q with ⟨q1, _ | e⟩
    · simp only
      exact ht flag q1
    · rfl

theorem validateImagePullSecret_flagBlind (client : Client) (f : QuayConfiguration → GoString)
    (failure : String) (hf : ∀ flag q, f (setOpenShift flag q) = f q) :
    FlagBlind (validateImagePullSecret client f failure) := by
  intro flag q
  unfold validateImagePullSecret
  rw [hf]
  simp only [setOpenShift]
  (repeat' split) <;> rfl

theorem validateConfigSecret_flagBlind (K : Pkg) (client : Client) :
    FlagBlind (validateConfigSecret K client) := by
  intro flag q
  unfold validateConfigSecret setOpenShift
  dsimp only
  (repeat' split) <;> rfl

theorem validateRegistryBackendsLoop_flagBlind (K : Pkg) (client : Client)
    (l : List RegistryBackend) : FlagBlind (validateRegistryBackendsLoop K client l) := by
  induction l with
  | nil => intro flag q; rfl
  | cons b t ih =>
    intro flag q
    unfold validateRegistryBackendsLoop
    simp only [setOpenShift]
    split
    · rfl
    · split
      · rfl
      · rename_i m _
        exact ih flag { q with RegistryBackends := q.RegistryBackends ++ [m] }

theorem validateClair_flagBlind (K : Pkg) (client : Client) : FlagBlind (validateClair K client) := by
  intro flag q
  unfold validateClair
  simp only [setOpenShift]
  split
  · rfl
  · rename_i clair _
    split
    · apply runBlocks_flagBlind
      intro b hb
      simp only [List.mem_cons, List.mem_singleton, List.not_mem_nil, or_false] at hb
      rcases hb with rfl | rfl | rfl | rfl
      · exact validateImagePullSecret_flagBlind client _ _ (fun _ _ => rfl)
      · intro flag q
        unfold validateClairUpdateInterval setOpenShift
        dsimp only
        (repeat' split) <;> rfl
      · intro flag q
        unfold validateClairDatabase setOpenShift
        dsimp only
        (repeat' split) <;> rfl
      · intro flag q
        unfold validateClairConfigFiles setOpenShift
        dsimp only
        (repeat' split) <;> rfl
    · rfl

/-- No stretch of `Validate` other than the route rule reads the platform flag. -/
theorem blocksWithoutRoute_flagBlind (K : Pkg) (client : Client) :
    ∀ b ∈ blocksWithoutRoute K client, FlagBlind b := by
  intro b hb
  simp only [blocksWithoutRoute, blocksBeforeDatabaseCredentials, blocksBeforeHostname,
    blocksFromBackends, List.cons_append, List.nil_append, List.mem_cons, List.mem_singleton,
    List.not_mem_nil, or_false] at hb
  rcases hb with rfl | rfl | rfl | rfl | rfl | rfl | rfl | hb
  · intro flag q
    unfold validateSuperuserCredentials setOpenShift
    dsimp only
    (repeat' split) <;> rfl
  · intro flag q
    unfold validateSuperuserPassword setOpenShift
    dsimp only
    (repeat' split) <;> rfl
  · exact validateConfigSecret_flagBlind K client
  · exact validateImagePullSecret_flagBlind client _ _ (fun _ _ => rfl)
  · exact validateImagePullSecret_flagBlind client _ _ (fun _ _ => rfl)
  · intro flag q
    unfold validateRedisCredentials setOpenShift
    dsimp only
    (repeat' split) <;> rfl
  · exact validateImagePullSecret_flagBlind client _ _ (fun _ _ => rfl)
  rcases hb with rfl | rfl | rfl | rfl | rfl | rfl | rfl | rfl
  · intro flag q
    unfold validateDatabaseCredentials setOpenShift
    dsimp only
    (repeat' split) <;> rfl
  · intro flag q
    unfold validateDatabaseVolumeSize setOpenShift
    dsimp only
    (repeat' split) <;> rfl
  · intro flag q
    unfold validateRegistryStorage setOpenShift
    dsimp only
    (repeat' split) <;> rfl
  · intro flag q
    unfold validateQuayConfigFiles setOpenShift
    dsimp only
    (repeat' split) <;> rfl
  · intro flag q
    unfold validateHostname setOpenShift
    dsimp only
    (repeat' split) <;> rfl
  · intro flag q
    unfold validateRegistryBackends
    exact validateRegistryBackendsLoop_flagBlind K client _ flag q
  · intro flag q
    unfold validateSslCertificate setOpenShift
    dsimp only
    (repeat' split) <;> rfl
  · exact validateClair_flagBlind K client

/-- C15. For every request with Route-type external access and every store: `Validate` fails
when the platform flag `IsOpenShift` is unset; and on the otherwise-identical request with the flag
set, `Validate` returns what the run of all stretches other than the route rule returns on the
request as given (with the flag set in the configuration it leaves), so it succeeds whenever
every other stretch passes: the two runs differ only in the route rule. -/
theorem Validate_route_rule (K : Pkg) (client : Client) (q : QuayConfiguration)
    (htype : K.RouteExternalAccessType = q.QuayEcosystem.Spec.Quay.ExternalAccess.Type_) :
    (q.IsOpenShift = false →
        (Validate K client q).valid = false ∧ (Validate K client q).err ≠ none) ∧
    Validate K client (setOpenShift true q) =
      resultOf (setOpenShift true (runBlocks (blocksWithoutRoute K client) q).1,
        (runBlocks (blocksWithoutRoute K client) q).2) ∧
    ((runBlocks (blocksWithoutRoute K client) q).2 = none →
        (Validate K client (setOpenShift true q)).valid = true) := by
  have hsplit : allBlocks K client =
      (blocksBeforeDatabaseCredentials K client ++ validateDatabaseCredentials K client ::
        (blocksBeforeHostname K client ++ [validateHostname K])) ++ validateRoute K ::
        blocksFromBackends K client := by
    rw [allBlocks_eq]; simp
  have hwithout : blocksWithoutRoute K client =
      (blocksBeforeDatabaseCredentials K client ++ validateDatabaseCredentials K client ::
        (blocksBeforeHostname K client ++ [validateHostname K])) ++
        blocksFromBackends K client := by
    simp [blocksWithoutRoute]
  have hskip : runBlocks (allBlocks K client) (setOpenShift true q) =
      runBlocks (blocksWithoutRoute K client) (setOpenShift true q) := by
    rw [hsplit, hwithout]
    apply runBlocks_skip
    intro q1 hq1
    have hq := beforeRoute_requestView K client (setOpenShift true q)
    rw [hq1] at hq
    have hflag : q1.IsOpenShift = true :=
      congrArg (fun v : QuayEcosystem × Bool => v.2) hq
    simp [validateRoute, hflag]
  have hblind := runBlocks_flagBlind _ (blocksWithoutRoute_flagBlind K client) true q
  have hrun : Validate K client (setOpenShift true q) =
      resultOf (setOpenShift true (runBlocks (blocksWithoutRoute K client) q).1,
        (runBlocks (blocksWithoutRoute K client) q).2) := by
    rw [Validate_eq_resultOf, hskip, hblind]
  refine ⟨?_, hrun, ?_⟩
  · intro hflag
    apply Validate_fails_of_not_valid
    intro hvalid
    have hr := Validate_valid_run K client q hvalid
    rw [hsplit] at hr
    obtain ⟨q1, q2, h1, hb, _⟩ := runBlocks_ok_split _ _ _ _ _ hr
    have hq := beforeRoute_requestView K client q
    rw [h1] at hq
    have ha : q1.QuayEcosystem.Spec.Quay.ExternalAccess.Type_
        = q.QuayEcosystem.Spec.Quay.ExternalAccess.Type_ :=
      congrArg (fun v : QuayEcosystem × Bool => v.1.Spec.Quay.ExternalAccess.Type_) hq
    have hf : q1.IsOpenShift = q.IsOpenShift :=
      congrArg (fun v : QuayEcosystem × Bool => v.2) hq
    simp [validateRoute, ha, hf, hflag, htype] at hb
  · intro hnone
    rw [hrun, hnone]
    rfl

theorem Validate_route_rule_witness :
    ((Validate samplePkg (storeOf [])
        { sampleConfiguration with
          QuayEcosystem.Spec.Quay.ExternalAccess.Type_ := str "Route" }).valid = false ∧
      (Validate samplePkg (storeOf [])
        { sampleConfiguration with
          QuayEcosystem.Spec.Quay.ExternalAccess.Type_ := str "Route" }).err ≠ none) ∧
    (Validate samplePkg (storeOf [])
        (setOpenShift true { sampleConfiguration with
          QuayEcosystem.Spec.Quay.ExternalAccess.Type_ := str "Route" })).valid = true :=
  ⟨(Validate_route_rule samplePkg (storeOf [])
      { sampleConfiguration with QuayEcosystem.Spec.Quay.ExternalAccess.Type_ := str "Route" }
      (by decide)).1 (by decide),
   (Validate_route_rule samplePkg (storeOf [])
      { sampleConfiguration with QuayEcosystem.Spec.Quay.ExternalAccess.Type_ := str "Route" }
      (by decide)).2.2 (by decide)⟩

/-- The S3 stretch on a backend copy that sets S3 and still names its credentials secret,
when it does not return: the secret resolves with the required keys of S3. -/
theorem validateS3_holds (K : Pkg) (client : Client) (ns : GoString) (b managed m : RegistryBackend)
    (h : validateS3 K client ns b managed = .ok m) (hset : managed.S3 ≠ none)
    (hcred : managed.CredentialsSecretName ≠ []) :
    SecretHolds client ns b.CredentialsSecretName K.RequiredS3CredentialKeys := by
  unfold validateS3 at h
  cases hs : managed.S3 with
  | none => exact absurd hs hset
  | some s =>
    rw [hs] at h
    simp only at h
    have hc := isEmpty_false_of_ne _ hcred
    rcases hv : validateSecret client ns b.CredentialsSecretName K.RequiredS3CredentialKeys
      with ⟨valid, sec, _ | err⟩
    · obtain ⟨_, secret, _, hget, hkeys⟩ := validateSecret_valid_keys _ _ _ _ _ _ hv
      exact ⟨secret, hget, hkeys⟩
    · exfalso
      by_cases hp : s.StoragePath = []
      · simp [hp] at h
      by_cases hb : s.BucketName = []
      · simp [hb] at h
      simp [hp, hb, hc, hv] at h

/-- The Azure stretch on a backend copy that sets Azure and still names its credentials secret,
when it does not return: the secret resolves with the required keys of Azure. -/
theorem validateAzure_holds (K : Pkg) (client : Client) (ns : GoString) (b managed m : RegistryBackend)
    (h : validateAzure K client ns b managed = .ok m) (hset : managed.Azure ≠ none)
    (hcred : managed.CredentialsSecretName ≠ []) :
    SecretHolds client ns b.CredentialsSecretName K.RequiredAzureCredentialKeys := by
  unfold validateAzure at h
  cases hs : managed.Azure with
  | none => exact absurd hs hset
  | some s =>
    rw [hs] at h
    simp only at h
    have hc := isEmpty_false_of_ne _ hcred
    rcases hv : validateSecret client ns b.CredentialsSecretName K.RequiredAzureCredentialKeys
      with ⟨valid, sec, _ | err⟩
    · obtain ⟨_, secret, _, hget, hkeys⟩ := validateSecret_valid_keys _ _ _ _ _ _ hv
      exact ⟨secret, hget, hkeys⟩
    · exfalso
      by_cases hp : s.StoragePath = []
      · simp [hp] at h
      by_cases hb : s.ContainerName = []
      · simp [hb] at h
      simp [hp, hb, hc, hv] at h

/-- The GoogleCloud stretch on a backend copy that sets GoogleCloud and still names its credentials secret,
when it does not return: the secret resolves with the required keys of GoogleCloud. -/
theorem validateGoogleCloud_holds (K : Pkg) (client : Client) (ns : GoString) (b managed m : RegistryBackend)
    (h : validateGoogleCloud K client ns b managed = .ok m) (hset : managed.GoogleCloud ≠ none)
    (hcred : managed.CredentialsSecretName ≠ []) :
    SecretHolds client ns b.CredentialsSecretName K.RequiredGoogleCloudCredentialKeys := by
  unfold validateGoogleCloud at h
  cases hs : managed.GoogleCloud with
  | none => exact absurd hs hset
  | some s =>
    rw [hs] at h
    simp only at h
    have hc := isEmpty_false_of_ne _ hcred
    rcases hv : validateSecret client ns b.CredentialsSecretName K.RequiredGoogleCloudCredentialKeys
      with ⟨valid, sec, _ | err⟩
    · obtain ⟨_, secret, _, hget, hkeys⟩ := validateSecret_valid_keys _ _ _ _ _ _ hv
      exact ⟨secret, hget, hkeys⟩
    · exfalso
      simp [hc, hv] at h

/-- The RHOCS stretch on a backend copy that sets RHOCS and still names its credentials secret,
when it does not return: the secret resolves with the required keys of RHOCS. -/
theorem validateRHOCS_holds (K : Pkg) (client : Client) (ns : GoString) (b managed m : RegistryBackend)
    (h : validateRHOCS K client ns b managed = .ok m) (hset : managed.RHOCS ≠ none)
    (hcred : managed.CredentialsSecretName ≠ []) :
    SecretHolds client ns b.CredentialsSecretName K.RequiredRHOCSCredentialKeys := by
  unfold validateRHOCS at h
  cases hs : managed.RHOCS with
  | none => exact absurd hs hset
  | some s =>
    rw [hs] at h
    simp only at h
    have hc := isEmpty_false_of_ne _ hcred
    rcases hv : validateSecret client ns b.CredentialsSecretName K.RequiredRHOCSCredentialKeys
      with ⟨valid, sec, _ | err⟩
    · obtain ⟨_, secret, _, hget, hkeys⟩ := validateSecret_valid_keys _ _ _ _ _ _ hv
      exact ⟨secret, hget, hkeys⟩
    · exfalso
      simp [hc, hv] at h

/-- The RADOS stretch on a backend copy that sets RADOS and still names its credentials secret,
when it does not return: the secret resolves with the required keys of RADOS. -/
theorem validateRADOS_holds (K : Pkg) (client : Client) (ns : GoString) (b managed m : RegistryBackend)
    (h : validateRADOS K client ns b managed = .ok m) (hset : managed.RADOS ≠ none)
    (hcred : managed.CredentialsSecretName ≠ []) :
    SecretHolds client ns b.CredentialsSecretName K.RequiredRADOSCredentialKeys := by
  unfold validateRADOS at h
  cases hs : managed.RADOS with
  | none => exact absurd hs hset
  | some s =>
    rw [hs] at h
    simp only at h
    have hc := isEmpty_false_of_ne _ hcred
    rcases hv : validateSecret client ns b.CredentialsSecretName K.RequiredRADOSCredentialKeys
      with ⟨valid, sec, _ | err⟩
    · obtain ⟨_, secret, _, hget, hkeys⟩ := validateSecret_valid_keys _ _ _ _ _ _ hv
      exact ⟨secret, hget, hkeys⟩
    · exfalso
      simp [hc, hv] at h

/-- The Swift stretch on a backend copy that sets Swift and still names its credentials secret,
when it does not return: the secret resolves with the required keys of Swift. -/
theorem validateSwift_holds (K : Pkg) (client : Client) (ns : GoString) (b managed m : RegistryBackend)
    (h : validateSwift K client ns b managed = .ok m) (hset : managed.Swift ≠ none)
    (hcred : managed.CredentialsSecretName ≠ []) :
    SecretHolds client ns b.CredentialsSecretName K.RequiredSwiftCredentialKeys := by
  unfold validateSwift at h
  cases hs : managed.Swift with
  | none => exact absurd hs hset
  | some s =>
    rw [hs] at h
    simp only at h
    have hc := isEmpty_false_of_ne _ hcred
    rcases hv : validateSecret client ns b.CredentialsSecretName K.RequiredSwiftCredentialKeys
      with ⟨valid, sec, _ | err⟩
    · obtain ⟨_, secret, _, hget, hkeys⟩ := validateSecret_valid_keys _ _ _ _ _ _ hv
      exact ⟨secret, hget, hkeys⟩
    · exfalso
      simp [hc, hv] at h

/-- The CloudfrontS3 stretch on a backend copy that sets CloudfrontS3 and still names its credentials secret,
when it does not return: the secret resolves with the required keys of CloudfrontS3. -/
theorem validateCloudfrontS3_holds (K : Pkg) (client : Client) (ns : GoString) (b managed m : RegistryBackend)
    (h : validateCloudfrontS3 K client ns b managed = .ok m) (hset : managed.CloudfrontS3 ≠ none)
    (hcred : managed.CredentialsSecretName ≠ []) :
    SecretHolds client ns b.CredentialsSecretName K.RequiredCloudfrontS3CredentialKeys := by
  unfold validateCloudfrontS3 at h
  cases hs : managed.CloudfrontS3 with
  | none => exact absurd hs hset
  | some s =>
    rw [hs] at h
    simp only at h
    have hc := isEmpty_false_of_ne _ hcred
    rcases hv : validateSecret client ns b.CredentialsSecretName K.RequiredCloudfrontS3CredentialKeys
      with ⟨valid, sec, _ | err⟩
    · obtain ⟨_, secret, _, hget, hkeys⟩ := validateSecret_valid_keys _ _ _ _ _ _ hv
      exact ⟨secret, hget, hkeys⟩
    · exfalso
      simp [hc, hv] at h

/-- A backend that names a credentials secret and passes the variant stretches: the secret
resolves with the required keys of the first non-Local variant the backend sets. -/
theorem validateRegistryBackend_holds (K : Pkg) (client : Client) (ns : GoString)
    (b m : RegistryBackend) (h : validateRegistryBackend K client ns b = .ok m)
    (hcred : b.CredentialsSecretName ≠ []) (rp : RequiredParameters)
    (hrp : firstVariantKeys K b = some rp) :
    SecretHolds client ns b.CredentialsSecretName rp := by
  obtain ⟨m1, m2, m3, m4, m5, m6, h1, h2, h3, h4, h5, h6, h7⟩ :=
    validateRegistryBackend_chain K client ns b m h
  unfold firstVariantKeys at hrp
  by_cases hS3 : b.S3 = none
  swap
  · have hsome : b.S3.isSome = true := by
      cases hx : b.S3 with
      | none => exact absurd hx hS3
      | some x => rfl
    simp only [hsome, if_true, Option.some.injEq] at hrp
    rw [← hrp]
    exact validateS3_holds K client ns b b m1 h1 hS3 hcred
  have e1 : b = m1 := by
    rcases validateS3_ok K client ns b b m1 h1 with ⟨_, hm⟩ | ⟨s, hs, _⟩
    · exact hm.symm
    · rw [hS3] at hs
      exact Option.noConfusion hs
  subst e1
  simp only [hS3, Option.isSome_none, Bool.false_eq_true, if_false] at hrp
  by_cases hAzure : b.Azure = none
  swap
  · have hsome : b.Azure.isSome = true := by
      cases hx : b.Azure with
      | none => exact absurd hx hAzure
      | some x => rfl
    simp only [hsome, if_true, Option.some.injEq] at hrp
    rw [← hrp]
    exact validateAzure_holds K client ns b b m2 h2 hAzure hcred
  have e2 : b = m2 := by
    rcases validateAzure_ok K client ns b b m2 h2 with ⟨_, hm⟩ | ⟨s, hs, _⟩
    · exact hm.symm
    · rw [hAzure] at hs
      exact Option.noConfusion hs
  subst e2
  simp only [hAzure, Option.isSome_none, Bool.false_eq_true, if_false] at hrp
  by_cases hGoogleCloud : b.GoogleCloud = none
  swap
  · have hsome : b.GoogleCloud.isSome = true := by
      cases hx : b.GoogleCloud with
      | none => exact absurd hx hGoogleCloud
      | some x => rfl
    simp only [hsome, if_true, Option.some.injEq] at hrp
    rw [← hrp]
    exact validateGoogleCloud_holds K client ns b b m3 h3 hGoogleCloud hcred
  have e3 : b = m3 := by
    rcases validateGoogleCloud_ok K client ns b b m3 h3 with ⟨_, hm⟩ | ⟨s, hs, _⟩
    · exact hm.symm
    · rw [hGoogleCloud] at hs
      exact Option.noConfusion hs
  subst e3
  simp only [hGoogleCloud, Option.isSome_none, Bool.false_eq_true, if_false] at hrp
  by_cases hRHOCS : b.RHOCS = none
  swap
  · have hsome : b.RHOCS.isSome = true := by
      cases hx : b.RHOCS with
      | none => exact absurd hx hRHOCS
      | some x => rfl
    simp only [hsome, if_true, Option.some.injEq] at hrp
    rw [← hrp]
    exact validateRHOCS_holds K client ns b b m4 h4 hRHOCS hcred
  have e4 : b = m4 := by
    rcases validateRHOCS_ok K client ns b b m4 h4 with ⟨_, hm⟩ | ⟨s, hs, _⟩
    · exact hm.symm
    · rw [hRHOCS] at hs
      exact Option.noConfusion hs
  subst e4
  simp only [hRHOCS, Option.isSome_none, Bool.false_eq_true, if_false] at hrp
  by_cases hRADOS : b.RADOS = none
  swap
  · have hsome : b.RADOS.isSome = true := by
      cases hx : b.RADOS with
      | none => exact absurd hx hRADOS
      | some x => rfl
    simp only [hsome, if_true, Option.some.injEq] at hrp
    rw [← hrp]
    exact validateRADOS_holds K client ns b b m5 h5 hRADOS hcred
  have e5 : b = m5 := by
    rcases validateRADOS_ok K client ns b b m5 h5 with ⟨_, hm⟩ | ⟨s, hs, _⟩
    · exact hm.symm
    · rw [hRADOS] at hs
      exact Option.noConfusion hs
  subst e5
  simp only [hRADOS, Option.isSome_none, Bool.false_eq_true, if_false] at hrp
  by_cases hSwift : b.Swift = none
  swap
  · have hsome : b.Swift.isSome = true := by
      cases hx : b.Swift with
      | none => exact absurd hx hSwift
      | some x => rfl
    simp only [hsome, if_true, Option.some.injEq] at hrp
    rw [← hrp]
    exact validateSwift_holds K client ns b b m6 h6 hSwift hcred
  have e6 : b = m6 := by
    rcases validateSwift_ok K client ns b b m6 h6 with ⟨_, hm⟩ | ⟨s, hs, _⟩
    · exact hm.symm
    · rw [hSwift] at hs
      exact Option.noConfusion hs
  subst e6
  simp only [hSwift, Option.isSome_none, Bool.false_eq_true, if_false] at hrp
  by_cases hCloudfrontS3 : b.CloudfrontS3 = none
  swap
  · have hsome : b.CloudfrontS3.isSome = true := by
      cases hx : b.CloudfrontS3 with
      | none => exact absurd hx hCloudfrontS3
      | some x => rfl
    simp only [hsome, if_true, Option.some.injEq] at hrp
    rw [← hrp]
    exact validateCloudfrontS3_holds K client ns b b m h7 hCloudfrontS3 hcred
  have e7 : b = m := by
    rcases validateCloudfrontS3_ok K client ns b b m h7 with ⟨_, hm⟩ | ⟨s, hs, _⟩
    · exact hm.symm
    · rw [hCloudfrontS3] at hs
      exact Option.noConfusion hs
  subst e7
  simp only [hCloudfrontS3, Option.isSome_none, Bool.false_eq_true, if_false] at hrp
  exact Option.noConfusion hrp

/-- The loop of `validateConfigFiles`, when it returns groups: every group it visited names a
secret, and the secret resolves with the keys of the group's explicit file list. -/
theorem validateConfigFilesLoop_holds (K : Pkg) (client : Client) (ns : GoString)
    (groups : List ConfigFiles) :
    ∀ (out res : List ConfigFiles),
      validateConfigFilesLoop K client ns groups out = .ok res →
      ∀ g ∈ groups, g.SecretName ≠ [] ∧ SecretHolds client ns g.SecretName (.slice g.GetKeys) := by
  induction groups with
  | nil => intro out res _ g hg; simp at hg
  | cons g0 t ih =>
    intro out res h g hg
    unfold validateConfigFilesLoop at h
    by_cases hname : g0.SecretName = []
    · simp [hname] at h
    rw [if_neg hname] at h
    rcases hv : validateSecret client ns g0.SecretName (.slice g0.GetKeys)
      with ⟨valid, sec, _ | err⟩
    · obtain ⟨rfl, secret, rfl, hget, hkeys⟩ := validateSecret_valid_keys _ _ _ _ _ _ hv
      rw [hv] at h
      simp only [Bool.not_true, Bool.false_eq_true, if_false] at h
      rcases List.mem_cons.1 hg with rfl | hg
      · exact ⟨hname, secret, hget, hkeys⟩
      · exact ih _ _ h g hg
    · rw [hv] at h
      simp at h

theorem validateConfigFiles_holds (K : Pkg) (client : Client) (ns : GoString)
    (groups res : List ConfigFiles) (h : validateConfigFiles K client ns groups = .ok res) :
    ∀ g ∈ groups, g.SecretName ≠ [] ∧ SecretHolds client ns g.SecretName (.slice g.GetKeys) :=
  validateConfigFilesLoop_holds K client ns groups [] res h

/-- A stretch of the shape "a named secret must validate", when it does not return. -/
theorem validateImagePullSecret_holds (client : Client) (f : QuayConfiguration → GoString)
    (failure : String) (q q1 : QuayConfiguration)
    (h : validateImagePullSecret client f failure q = (q1, none)) (hname : f q ≠ []) :
    SecretHolds client q.QuayEcosystem.Namespace (f q) .nil := by
  unfold validateImagePullSecret at h
  have hn := isEmpty_false_of_ne _ hname
  simp only [isZero_list, hn, Bool.not_false, if_true] at h
  rcases hv : validateSecret client q.QuayEcosystem.Namespace (f q) .nil with ⟨valid, sec, _ | err⟩
  · obtain ⟨_, secret, _, hget, hkeys⟩ := validateSecret_valid_keys _ _ _ _ _ _ hv
    exact ⟨secret, hget, hkeys⟩
  · rw [hv] at h
    simp at h

theorem validateSuperuserCredentials_holds (K : Pkg) (client : Client) (q q1 : QuayConfiguration)
    (h : validateSuperuserCredentials K client q = (q1, none))
    (hname : q.QuayEcosystem.Spec.Quay.SuperuserCredentialsSecretName ≠ [])
    (hskip : q.QuayEcosystem.Spec.Quay.SkipSetup = false)
    (hdone : q.QuayEcosystem.Status.SetupComplete = false) :
    SecretHolds client q.QuayEcosystem.Namespace
      q.QuayEcosystem.Spec.Quay.SuperuserCredentialsSecretName
      K.DefaultQuaySuperuserCredentials := by
  unfold validateSuperuserCredentials at h
  have hn := isEmpty_false_of_ne _ hname
  simp only [isZero_list, hn, hskip, hdone, Bool.not_false, Bool.and_self, if_true] at h
  rcases hv : validateSecret client q.QuayEcosystem.Namespace
      q.QuayEcosystem.Spec.Quay.SuperuserCredentialsSecretName K.DefaultQuaySuperuserCredentials
    with ⟨valid, sec, _ | err⟩
  · obtain ⟨_, secret, _, hget, hkeys⟩ := validateSecret_valid_keys _ _ _ _ _ _ hv
    exact ⟨secret, hget, hkeys⟩
  · rw [hv] at h
    simp at h

theorem validateConfigSecret_holds (K : Pkg) (client : Client) (q q1 : QuayConfiguration)
    (h : validateConfigSecret K client q = (q1, none))
    (hname : q.QuayEcosystem.Spec.Quay.ConfigSecretName ≠ []) :
    SecretHolds client q.QuayEcosystem.Namespace q.QuayEcosystem.Spec.Quay.ConfigSecretName
      K.DefaultQuayConfigCredentials := by
  unfold validateConfigSecret at h
  have hn := isEmpty_false_of_ne _ hname
  simp only [isZero_list, hn, Bool.not_false, if_true] at h
  rcases hv : validateSecret client q.QuayEcosystem.Namespace
      q.QuayEcosystem.Spec.Quay.ConfigSecretName K.DefaultQuayConfigCredentials
    with ⟨valid, sec, _ | err⟩
  · obtain ⟨_, secret, _, hget, hkeys⟩ := validateSecret_valid_keys _ _ _ _ _ _ hv
    exact ⟨secret, hget, hkeys⟩
  · rw [hv] at h
    simp at h

theorem validateRedisCredentials_holds (K : Pkg) (client : Client) (q q1 : QuayConfiguration)
    (h : validateRedisCredentials K client q = (q1, none))
    (hname : q.QuayEcosystem.Spec.Redis.CredentialsSecretName ≠ []) :
    SecretHolds client q.QuayEcosystem.Namespace q.QuayEcosystem.Spec.Redis.CredentialsSecretName
      (.slice [K.RedisPasswordKey]) := by
  unfold validateRedisCredentials at h
  have hn := isEmpty_false_of_ne _ hname
  simp only [isZero_list, hn, Bool.not_false, if_true] at h
  rcases hv : validateSecret client q.QuayEcosystem.Namespace
      q.QuayEcosystem.Spec.Redis.CredentialsSecretName (.slice [K.RedisPasswordKey])
    with ⟨valid, sec, _ | err⟩
  · obtain ⟨_, secret, _, hget, hkeys⟩ := validateSecret_valid_keys _ _ _ _ _ _ hv
    exact ⟨secret, hget, hkeys⟩
  · rw [hv] at h
    simp at h

theorem validateSslCertificate_holds (K : Pkg) (client : Client) (q q1 : QuayConfiguration)
    (h : validateSslCertificate K client q = (q1, none))
    (hname : q.QuayEcosystem.Spec.Quay.ExternalAccess.TLS.SecretName ≠ []) :
    SecretHolds client q.QuayEcosystem.Namespace
      q.QuayEcosystem.Spec.Quay.ExternalAccess.TLS.SecretName K.RequiredSslCertificateKeys := by
  unfold validateSslCertificate at h
  have hn := isEmpty_false_of_ne _ hname
  simp only [isZero_list, hn, Bool.not_false, if_true] at h
  rcases hv : validateSecret client q.QuayEcosystem.Namespace
      q.QuayEcosystem.Spec.Quay.ExternalAccess.TLS.SecretName K.RequiredSslCertificateKeys
    with ⟨valid, sec, _ | err⟩
  · obtain ⟨_, secret, _, hget, hkeys⟩ := validateSecret_valid_keys _ _ _ _ _ _ hv
    exact ⟨secret, hget, hkeys⟩
  · rw [hv] at h
    simp at h

theorem validateQuayConfigFiles_holds (K : Pkg) (client : Client) (q q1 : QuayConfiguration)
    (h : validateQuayConfigFiles K client q = (q1, none)) :
    ∀ g ∈ q.QuayEcosystem.Spec.Quay.ConfigFiles, g.SecretName ≠ [] ∧
      SecretHolds client q.QuayEcosystem.Namespace g.SecretName (.slice g.GetKeys) := by
  unfold validateQuayConfigFiles at h
  cases hl : q.QuayEcosystem.Spec.Quay.ConfigFiles with
  | nil => intro g hg; simp at hg
  | cons g0 t =>
    rw [hl] at h
    simp only [isZero_list, List.isEmpty_cons, Bool.not_false, if_true] at h
    rcases hv : validateConfigFiles K client q.QuayEcosystem.Namespace (g0 :: t) with err | res
    · rw [hv] at h; simp at h
    · exact validateConfigFiles_holds K client _ _ res hv

theorem validateClairConfigFiles_holds (K : Pkg) (client : Client) (clair : Clair)
    (q q1 : QuayConfiguration) (h : validateClairConfigFiles K client clair q = (q1, none)) :
    ∀ g ∈ clair.ConfigFiles, g.SecretName ≠ [] ∧
      SecretHolds client q.QuayEcosystem.Namespace g.SecretName (.slice g.GetKeys) := by
  unfold validateClairConfigFiles at h
  cases hl : clair.ConfigFiles with
  | nil => intro g hg; simp at hg
  | cons g0 t =>
    rw [hl] at h
    simp only [isZero_list, List.isEmpty_cons, Bool.not_false, if_true] at h
    rcases hv : validateConfigFiles K client q.QuayEcosystem.Namespace (g0 :: t) with err | res
    · rw [hv] at h; simp at h
    · exact validateConfigFiles_holds K client _ _ res hv

theorem validateClairDatabase_holds (K : Pkg) (client : Client) (clair : Clair)
    (q q1 : QuayConfiguration) (h : validateClairDatabase K client clair q = (q1, none))
    (hcred : clair.Database.CredentialsSecretName ≠ []) :
    SecretHolds client q.QuayEcosystem.Namespace clair.Database.CredentialsSecretName
      K.RequiredDatabaseCredentialKeys := by
  have hzero : clair.Database ≠ Database.zero := by
    intro hz
    rw [hz] at hcred
    exact hcred rfl
  have hs := isEmpty_false_of_ne _ hcred
  unfold validateClairDatabase at h
  simp only [IsZeroOfUnderlyingType, GoZero.isZero, hzero, hs, decide_False,
    Bool.not_false, Bool.and_false, Bool.and_true, Bool.false_eq_true, if_false, if_true,
    Bool.true_and, Bool.and_self] at h
  rcases hv : validateSecret client q.QuayEcosystem.Namespace
      clair.Database.CredentialsSecretName K.RequiredDatabaseCredentialKeys
    with ⟨valid, sec, _ | err⟩
  · obtain ⟨_, secret, _, hget, hkeys⟩ := validateSecret_valid_keys _ _ _ _ _ _ hv
    exact ⟨secret, hget, hkeys⟩
  · rw [hv] at h
    simp at h

/-- In a run of `Validate` that succeeds every stretch passes, on a configuration that carries
the request as given outside the five database fields. -/
theorem Validate_block_ok (K : Pkg) (client : Client) (q : QuayConfiguration)
    (hvalid : (Validate K client q).valid = true) (l1 l2 : List Block) (b : Block)
    (hsplit : allBlocks K client = l1 ++ b :: l2) :
    ∃ q1 q2, runBlocks l1 q = (q1, none) ∧ requestView q1 = requestView q ∧ b q1 = (q2, none) := by
  have hrun := Validate_valid_run K client q hvalid
  rw [hsplit] at hrun
  obtain ⟨q1, q2, h1, hb, _⟩ := runBlocks_ok_split _ _ _ _ _ hrun
  have hq := runBlocks_requestView K client l1 (by
    intro b1 hb1
    rw [hsplit]
    exact List.mem_append_left _ hb1) q
  rw [h1] at hq
  exact ⟨q1, q2, h1, hq, hb⟩

/-- The Clair stretches leave the namespace of the request as it was. -/
theorem clairBlocks_namespace (K : Pkg) (client : Client) (clair : Clair) (l : List Block)
    (hl : ∀ b ∈ l, b ∈ [validateClairImagePullSecret client clair,
      validateClairUpdateInterval K clair, validateClairDatabase K client clair,
      validateClairConfigFiles K client clair]) (q : QuayConfiguration) :
    (runBlocks l q).1.QuayEcosystem.Namespace = q.QuayEcosystem.Namespace := by
  apply runBlocks_preserves (fun q : QuayConfiguration => q.QuayEcosystem.Namespace)
  intro b hb q
  have := hl b hb
  simp only [List.mem_cons, List.mem_singleton, List.not_mem_nil, or_false] at this
  rcases this with rfl | rfl | rfl | rfl
  · unfold validateClairImagePullSecret; rw [validateImagePullSecret_fst]
  · unfold validateClairUpdateInterval; (repeat' split) <;> rfl
  · unfold validateClairDatabase; (repeat' split) <;> rfl
  · unfold validateClairConfigFiles; (repeat' split) <;> rfl

/-- The Clair stretches on a declared and enabled Clair, when they do not return: the image pull
secret, the database credentials secret and the secrets of the config-file groups resolve. -/
theorem validateClair_holds (K : Pkg) (client : Client) (q q1 : QuayConfiguration) (clair : Clair)
    (h : validateClair K client q = (q1, none))
    (hclair : q.QuayEcosystem.Spec.Clair = some clair) (henabled : clair.Enabled = true) :
    (clair.ImagePullSecretName ≠ [] →
      SecretHolds client q.QuayEcosystem.Namespace clair.ImagePullSecretName .nil) ∧
    (clair.Database.CredentialsSecretName ≠ [] →
      SecretHolds client q.QuayEcosystem.Namespace clair.Database.CredentialsSecretName
        K.RequiredDatabaseCredentialKeys) ∧
    (∀ g ∈ clair.ConfigFiles, g.SecretName ≠ [] ∧
      SecretHolds client q.QuayEcosystem.Namespace g.SecretName (.slice g.GetKeys)) := by
  unfold validateClair at h
  rw [hclair] at h
  simp only [henabled, if_true] at h
  refine ⟨?_, ?_, ?_⟩
  · intro hname
    obtain ⟨qa, qb, ha, hb, _⟩ := runBlocks_ok_split [] _ _ q q1 h
    simp only [runBlocks, Prod.mk.injEq, and_true] at ha
    subst ha
    exact validateImagePullSecret_holds client _ _ q qb hb hname
  · intro hcred
    have h2 : runBlocks ([validateClairImagePullSecret client clair,
        validateClairUpdateInterval K clair] ++ validateClairDatabase K client clair ::
        [validateClairConfigFiles K client clair]) q = (q1, none) := h
    obtain ⟨qa, qb, ha, hb, _⟩ := runBlocks_ok_split _ _ _ q q1 h2
    have hns := clairBlocks_namespace K client clair
      [validateClairImagePullSecret client clair, validateClairUpdateInterval K clair]
      (by intro b hb; simp only [List.mem_cons, List.mem_singleton, List.not_mem_nil,
            or_false] at hb ⊢; tauto) q
    rw [ha] at hns
    have := validateClairDatabase_holds K client clair qa qb hb hcred
    rw [hns] at this
    exact this
  · have h2 : runBlocks ([validateClairImagePullSecret client clair,
        validateClairUpdateInterval K clair, validateClairDatabase K client clair] ++
        validateClairConfigFiles K client clair :: []) q = (q1, none) := h
    obtain ⟨qa, qb, ha, hb, _⟩ := runBlocks_ok_split _ _ _ q q1 h2
    have hns := clairBlocks_namespace K client clair
      [validateClairImagePullSecret client clair, validateClairUpdateInterval K clair,
        validateClairDatabase K client clair]
      (by intro b hb; simp only [List.mem_cons, List.mem_singleton, List.not_mem_nil,
            or_false] at hb ⊢; tauto) q
    rw [ha] at hns
    have := validateClairConfigFiles_holds K client clair qa qb hb
    rw [hns] at this
    exact this

/-- C20, as amended. For every request and store, if `Validate` succeeds then every non-empty
secret reference that `Validate` reads names a secret that exists in the store and contains all
keys required in its context: the config secret, the image pull secrets of Quay, Redis and the
database, the Redis credentials, the TLS secret and the secret of each Quay config-file group
(which is never empty) always; the superuser credentials when setup is neither skipped nor
complete; the primary database credentials when setup is not skipped; the image pull secret, the
database credentials and the config-file group secrets of the scanner when the scanner is
declared and enabled; the credentials secret of a backend when the backend sets a non-Local
variant, with the required keys of the first variant it sets in source order. -/
theorem Validate_secret_references_resolve (K : Pkg) (client : Client) (q : QuayConfiguration)
    (hvalid : (Validate K client q).valid = true) :
    (q.QuayEcosystem.Spec.Quay.SuperuserCredentialsSecretName ≠ [] →
      q.QuayEcosystem.Spec.Quay.SkipSetup = false →
      q.QuayEcosystem.Status.SetupComplete = false →
      SecretHolds client q.QuayEcosystem.Namespace
        q.QuayEcosystem.Spec.Quay.SuperuserCredentialsSecretName
        K.DefaultQuaySuperuserCredentials) ∧
    (q.QuayEcosystem.Spec.Quay.ConfigSecretName ≠ [] →
      SecretHolds client q.QuayEcosystem.Namespace q.QuayEcosystem.Spec.Quay.ConfigSecretName
        K.DefaultQuayConfigCredentials) ∧
    (q.QuayEcosystem.Spec.Quay.ImagePullSecretName ≠ [] →
      SecretHolds client q.QuayEcosystem.Namespace
        q.QuayEcosystem.Spec.Quay.ImagePullSecretName .nil) ∧
    (q.QuayEcosystem.Spec.Redis.ImagePullSecretName ≠ [] →
      SecretHolds client q.QuayEcosystem.Namespace
        q.QuayEcosystem.Spec.Redis.ImagePullSecretName .nil) ∧
    (q.QuayEcosystem.Spec.Redis.CredentialsSecretName ≠ [] →
      SecretHolds client q.QuayEcosystem.Namespace
        q.QuayEcosystem.Spec.Redis.CredentialsSecretName (.slice [K.RedisPasswordKey])) ∧
    (q.QuayEcosystem.Spec.Quay.Database.ImagePullSecretName ≠ [] →
      SecretHolds client q.QuayEcosystem.Namespace
        q.QuayEcosystem.Spec.Quay.Database.ImagePullSecretName .nil) ∧
    (q.QuayEcosystem.Spec.Quay.SkipSetup = false →
      q.QuayEcosystem.Spec.Quay.Database.CredentialsSecretName ≠ [] →
      SecretHolds client q.QuayEcosystem.Namespace
        q.QuayEcosystem.Spec.Quay.Database.CredentialsSecretName
        K.RequiredDatabaseCredentialKeys) ∧
    (∀ g ∈ q.QuayEcosystem.Spec.Quay.ConfigFiles, g.SecretName ≠ [] ∧
      SecretHolds client q.QuayEcosystem.Namespace g.SecretName (.slice g.GetKeys)) ∧
    (∀ b ∈ q.QuayEcosystem.Spec.Quay.RegistryBackends, b.CredentialsSecretName ≠ [] →
      ∀ rp, firstVariantKeys K b = some rp →
        SecretHolds client q.QuayEcosystem.Namespace b.CredentialsSecretName rp) ∧
    (q.QuayEcosystem.Spec.Quay.ExternalAccess.TLS.SecretName ≠ [] →
      SecretHolds client q.QuayEcosystem.Namespace
        q.QuayEcosystem.Spec.Quay.ExternalAccess.TLS.SecretName K.RequiredSslCertificateKeys) ∧
    (∀ clair, q.QuayEcosystem.Spec.Clair = some clair → clair.Enabled = true →
      (clair.ImagePullSecretName ≠ [] →
        SecretHolds client q.QuayEcosystem.Namespace clair.ImagePullSecretName .nil) ∧
      (clair.Database.CredentialsSecretName ≠ [] →
        SecretHolds client q.QuayEcosystem.Namespace clair.Database.CredentialsSecretName
          K.RequiredDatabaseCredentialKeys) ∧
      (∀ g ∈ clair.ConfigFiles, g.SecretName ≠ [] ∧
        SecretHolds client q.QuayEcosystem.Namespace g.SecretName (.slice g.GetKeys))) := by
  have hpass := Validate_block_ok K client q hvalid
  have hns : ∀ q1 : QuayConfiguration, requestView q1 = requestView q →
      q1.QuayEcosystem.Namespace = q.QuayEcosystem.Namespace :=
    fun q1 h => congrArg (fun v : QuayEcosystem × Bool => v.1.Namespace) h
  have hredis : ∀ q1 : QuayConfiguration, requestView q1 = requestView q →
      q1.QuayEcosystem.Spec.Redis = q.QuayEcosystem.Spec.Redis :=
    fun q1 h => congrArg (fun v : QuayEcosystem × Bool => v.1.Spec.Redis) h
  have hstatus : ∀ q1 : QuayConfiguration, requestView q1 = requestView q →
      q1.QuayEcosystem.Status = q.QuayEcosystem.Status :=
    fun q1 h => congrArg (fun v : QuayEcosystem × Bool => v.1.Status) h
  refine ⟨?_, ?_, ?_, ?_, ?_, ?_, ?_, ?_, ?_, ?_, ?_⟩
  · intro hname hskip hdone
    obtain ⟨q1, q2, _, hq, hb⟩ := hpass ((allBlocks K client).take 0)
      ((allBlocks K client).drop 1) (validateSuperuserCredentials K client) rfl
    have e1 : q1.QuayEcosystem.Spec.Quay.SuperuserCredentialsSecretName
        = q.QuayEcosystem.Spec.Quay.SuperuserCredentialsSecretName :=
      congrArg (fun v : QuayEcosystem × Bool => v.1.Spec.Quay.SuperuserCredentialsSecretName) hq
    have e2 : q1.QuayEcosystem.Spec.Quay.SkipSetup = q.QuayEcosystem.Spec.Quay.SkipSetup :=
      congrArg (fun v : QuayEcosystem × Bool => v.1.Spec.Quay.SkipSetup) hq
    have := validateSuperuserCredentials_holds K client q1 q2 hb (by rw [e1]; exact hname)
      (by rw [e2]; exact hskip) (by rw [hstatus q1 hq]; exact hdone)
    rw [hns q1 hq, e1] at this
    exact this
  · intro hname
    obtain ⟨q1, q2, _, hq, hb⟩ := hpass ((allBlocks K client).take 2)
      ((allBlocks K client).drop 3) (validateConfigSecret K client) rfl
    have e1 : q1.QuayEcosystem.Spec.Quay.ConfigSecretName
        = q.QuayEcosystem.Spec.Quay.ConfigSecretName :=
      congrArg (fun v : QuayEcosystem × Bool => v.1.Spec.Quay.ConfigSecretName) hq
    have := validateConfigSecret_holds K client q1 q2 hb (by rw [e1]; exact hname)
    rw [hns q1 hq, e1] at this
    exact this
  · intro hname
    obtain ⟨q1, q2, _, hq, hb⟩ := hpass ((allBlocks K client).take 3)
      ((allBlocks K client).drop 4) (validateQuayImagePullSecret client) rfl
    have e1 : q1.QuayEcosystem.Spec.Quay.ImagePullSecretName
        = q.QuayEcosystem.Spec.Quay.ImagePullSecretName :=
      congrArg (fun v : QuayEcosystem × Bool => v.1.Spec.Quay.ImagePullSecretName) hq
    have := validateImagePullSecret_holds client _ _ q1 q2 hb (by
      show q1.QuayEcosystem.Spec.Quay.ImagePullSecretName ≠ []
      rw [e1]; exact hname)
    simp only [hns q1 hq, e1] at this
    exact this
  · intro hname
    obtain ⟨q1, q2, _, hq, hb⟩ := hpass ((allBlocks K client).take 4)
      ((allBlocks K client).drop 5) (validateRedisImagePullSecret client) rfl
    have e1 := hredis q1 hq
    have := validateImagePullSecret_holds client _ _ q1 q2 hb (by
      show q1.QuayEcosystem.Spec.Redis.ImagePullSecretName ≠ []
      rw [e1]; exact hname)
    simp only [hns q1 hq, e1] at this
    exact this
  · intro hname
    obtain ⟨q1, q2, _, hq, hb⟩ := hpass ((allBlocks K client).take 5)
      ((allBlocks K client).drop 6) (validateRedisCredentials K client) rfl
    have e1 := hredis q1 hq
    have := validateRedisCredentials_holds K client q1 q2 hb (by rw [e1]; exact hname)
    rw [hns q1 hq, e1] at this
    exact this
  · intro hname
    obtain ⟨q1, q2, _, hq, hb⟩ := hpass ((allBlocks K client).take 6)
      ((allBlocks K client).drop 7) (validateDatabaseImagePullSecret client) rfl
    have e1 : q1.QuayEcosystem.Spec.Quay.Database.ImagePullSecretName
        = q.QuayEcosystem.Spec.Quay.Database.ImagePullSecretName :=
      congrArg (fun v : QuayEcosystem × Bool => v.1.Spec.Quay.Database.ImagePullSecretName) hq
    have := validateImagePullSecret_holds client _ _ q1 q2 hb (by
      show q1.QuayEcosystem.Spec.Quay.Database.ImagePullSecretName ≠ []
      rw [e1]; exact hname)
    simp only [hns q1 hq, e1] at this
    exact this
  · intro hskip hname
    obtain ⟨q1, q2, _, hq, hb⟩ := hpass ((allBlocks K client).take 7)
      ((allBlocks K client).drop 8) (validateDatabaseCredentials K client) rfl
    have e1 : q1.QuayEcosystem.Spec.Quay.Database.CredentialsSecretName
        = q.QuayEcosystem.Spec.Quay.Database.CredentialsSecretName :=
      congrArg (fun v : QuayEcosystem × Bool => v.1.Spec.Quay.Database.CredentialsSecretName) hq
    have e2 : q1.QuayEcosystem.Spec.Quay.SkipSetup = q.QuayEcosystem.Spec.Quay.SkipSetup :=
      congrArg (fun v : QuayEcosystem × Bool => v.1.Spec.Quay.SkipSetup) hq
    obtain ⟨secret, hget, hkeys, _⟩ := validateDatabaseCredentials_ok K client q1 q2
      (by rw [e2]; exact hskip) (by rw [e1]; exact hname) hb
    rw [hns q1 hq, e1] at hget
    exact ⟨secret, hget, hkeys⟩
  · obtain ⟨q1, q2, _, hq, hb⟩ := hpass ((allBlocks K client).take 10)
      ((allBlocks K client).drop 11) (validateQuayConfigFiles K client) rfl
    have e1 : q1.QuayEcosystem.Spec.Quay.ConfigFiles = q.QuayEcosystem.Spec.Quay.ConfigFiles :=
      congrArg (fun v : QuayEcosystem × Bool => v.1.Spec.Quay.ConfigFiles) hq
    have := validateQuayConfigFiles_holds K client q1 q2 hb
    rw [hns q1 hq, e1] at this
    exact this
  · intro b hb hcred rp hrp
    obtain ⟨q1, ms, _, _, hall⟩ := Validate_valid K client q hvalid
    obtain ⟨m, _, _, hok⟩ := forall₂_of_mem_left hall b hb
    exact validateRegistryBackend_holds K client _ b m hok hcred rp hrp
  · intro hname
    obtain ⟨q1, q2, _, hq, hb⟩ := hpass ((allBlocks K client).take 14)
      ((allBlocks K client).drop 15) (validateSslCertificate K client) rfl
    have e1 : q1.QuayEcosystem.Spec.Quay.ExternalAccess = q.QuayEcosystem.Spec.Quay.ExternalAccess :=
      congrArg (fun v : QuayEcosystem × Bool => v.1.Spec.Quay.ExternalAccess) hq
    have := validateSslCertificate_holds K client q1 q2 hb (by rw [e1]; exact hname)
    rw [hns q1 hq, e1] at this
    exact this
  · intro clair hclair henabled
    obtain ⟨q1, q2, h1, hq, hb⟩ := hpass ((allBlocks K client).take 15)
      ((allBlocks K client).drop 16) (validateClair K client) rfl
    have hc := beforeClair_clair K client q
    have h1b : runBlocks (blocksBeforeBackends K client ++ [validateRegistryBackends K client,
        validateSslCertificate K client]) q = (q1, none) := h1
    rw [h1b] at hc
    have := validateClair_holds K client q1 q2 clair hb (by rw [hc]; exact hclair) henabled
    rw [hns q1 hq] at this
    exact this

theorem Validate_secret_references_resolve_witness :
    SecretHolds sampleDatabaseStore sampleWithDatabase.QuayEcosystem.Namespace
      sampleWithDatabase.QuayEcosystem.Spec.Quay.Database.CredentialsSecretName
      samplePkg.RequiredDatabaseCredentialKeys :=
  (Validate_secret_references_resolve samplePkg sampleDatabaseStore sampleWithDatabase
    (by decide)).2.2.2.2.2.2.1 (by decide) (by decide)

/-- C20 as stated fails on `sampleSkippedSetup`, where setup is skipped and the superuser
credentials reference `absent` names no secret of the store: `Validate` succeeds. -/
theorem Validate_secret_references_counterexample :
    (Validate samplePkg (storeOf []) sampleSkippedSetup).valid = true
      ∧ sampleSkippedSetup.QuayEcosystem.Spec.Quay.SuperuserCredentialsSecretName ≠ []
      ∧ (storeOf []).Get sampleSkippedSetup.QuayEcosystem.Namespace
          sampleSkippedSetup.QuayEcosystem.Spec.Quay.SuperuserCredentialsSecretName
          = .error { msg := str "secrets \"absent\" not found", isNotFound := true } := by
  refine ⟨by decide, by decide, by rfl⟩

/-- One turn of the loop of `validateConfigFiles` on a group that names a secret which the store
holds with every key of the group's explicit file list: the loop goes on with the rest. -/
theorem validateConfigFilesLoop_step (K : Pkg) (client : Client) (ns : GoString)
    (g : ConfigFiles) (rest out : List ConfigFiles)
    (h : g.SecretName ≠ [] ∧ SecretHolds client ns g.SecretName (.slice g.GetKeys)) :
    ∃ m, validateConfigFilesLoop K client ns (g :: rest) out
      = validateConfigFilesLoop K client ns rest (out ++ [m]) := by
  obtain ⟨hname, secret, hget, hkeys⟩ := h
  have hsec := validateSecret_of_get client ns g.SecretName (.slice g.GetKeys) secret hget
    (by simp)
  rw [if_pos hkeys] at hsec
  simp only [validateConfigFilesLoop]
  rw [if_neg hname]
  simp only [hsec, Bool.not_true, Bool.false_eq_true, if_false]
  exact ⟨_, rfl⟩

/-- The loop of `validateConfigFiles` over groups that all resolve reaches the rest of the input. -/
theorem validateConfigFilesLoop_resolved (K : Pkg) (client : Client) (ns : GoString)
    (before rest : List ConfigFiles)
    (h : ∀ g ∈ before, g.SecretName ≠ [] ∧ SecretHolds client ns g.SecretName (.slice g.GetKeys)) :
    ∀ out, ∃ out1, validateConfigFilesLoop K client ns (before ++ rest) out
      = validateConfigFilesLoop K client ns rest out1 := by
  induction before with
  | nil => intro out; exact ⟨out, rfl⟩
  | cons g t ih =>
    intro out
    obtain ⟨m, hm⟩ := validateConfigFilesLoop_step K client ns g (t ++ rest) out
      (h g (List.mem_cons_self _ _))
    obtain ⟨out1, h1⟩ := ih (fun g1 hg1 => h g1 (List.mem_cons_of_mem _ hg1)) (out ++ [m])
    exact ⟨out1, by rw [List.cons_append, hm, h1]⟩

/-- The outcome of `validateConfigFiles` that is not a list of groups is an error. -/
theorem except_error_of_not_ok {ε α : Type} (x : Except ε α) (h : ∀ a, x ≠ .ok a) :
    ∃ e, x = .error e := by
  cases x with
  | error e => exact ⟨e, rfl⟩
  | ok a => exact absurd rfl (h a)

/-- C21. For every list of config-file groups that contains a group with an empty secret
reference, and for every store, `validateConfigFiles` returns an error and no groups.  When the
groups before that group all resolve (each names a secret that the store holds with the keys of
its explicit file list), the error is the validation error
"Failed to validate provided config files. `secretName` must not be empty", and every other
store that answers the lookups of the earlier groups alike returns that same error, so the result
does not depend on a lookup for the group itself. -/
theorem validateConfigFiles_empty_secret_name (K : Pkg) (client : Client) (ns : GoString)
    (groups : List ConfigFiles) (g : ConfigFiles) (hg : g ∈ groups) (hname : g.SecretName = []) :
    (∃ err, validateConfigFiles K client ns groups = .error err) ∧
    ∀ (before post : List ConfigFiles), groups = before ++ g :: post →
      (∀ g1 ∈ before,
        g1.SecretName ≠ [] ∧ SecretHolds client ns g1.SecretName (.slice g1.GetKeys)) →
      validateConfigFiles K client ns groups = .error (Errorf
        (str "Failed to validate provided config files. `secretName` must not be empty")) ∧
      ∀ client2 : Client,
        (∀ g1 ∈ before, client2.Get ns g1.SecretName = client.Get ns g1.SecretName) →
        validateConfigFiles K client2 ns groups = .error (Errorf
          (str "Failed to validate provided config files. `secretName` must not be empty")) := by
  have hat : ∀ (c : Client) (before post : List ConfigFiles),
      (∀ g1 ∈ before,
        g1.SecretName ≠ [] ∧ SecretHolds c ns g1.SecretName (.slice g1.GetKeys)) →
      validateConfigFiles K c ns (before ++ g :: post) = .error (Errorf
        (str "Failed to validate provided config files. `secretName` must not be empty")) := by
    intro c before post hbefore
    obtain ⟨out1, h1⟩ := validateConfigFilesLoop_resolved K c ns before (g :: post) hbefore []
    unfold validateConfigFiles
    rw [h1]
    simp only [validateConfigFilesLoop]
    rw [if_pos hname]
  constructor
  · apply except_error_of_not_ok
    intro res hres
    exact (validateConfigFiles_holds K client ns groups res hres g hg).1 hname
  · intro before post hgroups hbefore
    subst hgroups
    refine ⟨hat client before post hbefore, ?_⟩
    intro client2 hsame
    apply hat client2 before post
    intro g1 hg1
    obtain ⟨hn, secret, hget, hkeys⟩ := hbefore g1 hg1
    exact ⟨hn, secret, by rw [hsame g1 hg1]; exact hget, hkeys⟩

theorem validateConfigFiles_empty_secret_name_witness :
    (∃ err, validateConfigFiles samplePkg sampleFilesStore (str "quay")
        [sampleWholeSecretGroup, sampleUnnamedGroup, sampleExplicitGroup] = .error err) ∧
    validateConfigFiles samplePkg sampleFilesStore (str "quay")
        [sampleWholeSecretGroup, sampleUnnamedGroup, sampleExplicitGroup]
      = .error (Errorf
          (str "Failed to validate provided config files. `secretName` must not be empty")) :=
  ⟨(validateConfigFiles_empty_secret_name samplePkg sampleFilesStore (str "quay")
      [sampleWholeSecretGroup, sampleUnnamedGroup, sampleExplicitGroup] sampleUnnamedGroup
      (by decide) (by decide)).1,
   ((validateConfigFiles_empty_secret_name samplePkg sampleFilesStore (str "quay")
      [sampleWholeSecretGroup, sampleUnnamedGroup, sampleExplicitGroup] sampleUnnamedGroup
      (by decide) (by decide)).2 [sampleWholeSecretGroup] [sampleExplicitGroup] (by rfl)
      (by
        intro g1 hg1
        rw [List.mem_singleton] at hg1
        subst hg1
        exact ⟨by decide, sampleFilesSecret, by rfl, by decide⟩)).1⟩

/-- C22, evaluated on the code. The group `sampleAbsentKeyGroup` over the existing secret
`quay/files` has one explicit entry, naming the key `absent`, which the payload of the secret does
not hold; the required-key set is the list of the explicit entries' key names, `[absent]`.
`validateConfigFiles` fails: it returns no groups and the required-parameters error of
`validateSecret`, so no entry is emitted for the key. -/
theorem validateConfigFiles_absent_key_counterexample :
    sampleFilesStore.Get (str "quay") (str "files") = .ok sampleFilesSecret
      ∧ sampleAbsentKeyGroup.GetKeys = [str "absent"]
      ∧ sampleFilesSecret.found (str "absent") = false
      ∧ validateConfigFiles samplePkg sampleFilesStore (str "quay") [sampleAbsentKeyGroup]
          = .error (Errorf
              (str "Failed to validate provided secret with required parameters. Namespace: "
                ++ str "quay" ++ str ", Name: " ++ str "files"))
      ∧ ∀ out, validateConfigFiles samplePkg sampleFilesStore (str "quay") [sampleAbsentKeyGroup]
          ≠ .ok out := by
  have h : validateConfigFiles samplePkg sampleFilesStore (str "quay") [sampleAbsentKeyGroup]
      = .error (Errorf
          (str "Failed to validate provided secret with required parameters. Namespace: "
            ++ str "quay" ++ str ", Name: " ++ str "files")) := by
    rfl
  refine ⟨by rfl, by decide, by decide, h, ?_⟩
  intro out hout
  rw [h] at hout
  exact Except.noConfusion hout

/-- C22, as the code has it. For every list of config-file groups and every store: a group that
names an existing secret and has an explicit entry whose key is absent from the payload of the
secret makes `validateConfigFiles` return an error and no groups, the keys of the explicit entries
being the required-key set handed to `validateSecret`; when the groups before it all resolve, the
error is the required-parameters error of `validateSecret`, which names the namespace and the
secret. -/
theorem validateConfigFiles_absent_key_fails (K : Pkg) (client : Client) (ns : GoString)
    (groups : List ConfigFiles) (g : ConfigFiles) (secret : Secret) (f : ConfigFile)
    (hg : g ∈ groups) (hname : g.SecretName ≠ [])
    (hget : client.Get ns g.SecretName = .ok secret)
    (hf : f ∈ g.Files) (habsent : secret.found f.Key = false) :
    (∃ err, validateConfigFiles K client ns groups = .error err) ∧
    ∀ (before post : List ConfigFiles), groups = before ++ g :: post →
      (∀ g1 ∈ before,
        g1.SecretName ≠ [] ∧ SecretHolds client ns g1.SecretName (.slice g1.GetKeys)) →
      validateConfigFiles K client ns groups = .error (Errorf
        (str "Failed to validate provided secret with required parameters. Namespace: "
          ++ ns ++ str ", Name: " ++ g.SecretName)) := by
  have hkey : f.Key ∈ g.GetKeys := List.mem_map.2 ⟨f, hf, rfl⟩
  have hnot : ¬ ∀ k ∈ (RequiredParameters.slice g.GetKeys).keys, secret.found k = true := by
    intro hall
    have := hall f.Key hkey
    rw [habsent] at this
    exact Bool.noConfusion this
  constructor
  · apply except_error_of_not_ok
    intro res hres
    obtain ⟨_, secret1, hget1, hkeys1⟩ := validateConfigFiles_holds K client ns groups res hres g hg
    rw [hget] at hget1
    cases hget1
    exact hnot hkeys1
  · intro before post hgroups hbefore
    subst hgroups
    obtain ⟨out1, h1⟩ := validateConfigFilesLoop_resolved K client ns before (g :: post) hbefore []
    have hsec := validateSecret_of_get client ns g.SecretName (.slice g.GetKeys) secret hget
      (by simp)
    rw [if_neg hnot] at hsec
    unfold validateConfigFiles
    rw [h1]
    simp only [validateConfigFilesLoop]
    rw [if_neg hname]
    simp only [hsec]

theorem validateConfigFiles_absent_key_fails_witness :
    (∃ err, validateConfigFiles samplePkg sampleFilesStore (str "quay")
        [sampleWholeSecretGroup, sampleAbsentKeyGroup] = .error err) ∧
    validateConfigFiles samplePkg sampleFilesStore (str "quay")
        [sampleWholeSecretGroup, sampleAbsentKeyGroup]
      = .error (Errorf
          (str "Failed to validate provided secret with required parameters. Namespace: "
            ++ str "quay" ++ str ", Name: " ++ sampleAbsentKeyGroup.SecretName)) :=
  ⟨(validateConfigFiles_absent_key_fails samplePkg sampleFilesStore (str "quay")
      [sampleWholeSecretGroup, sampleAbsentKeyGroup] sampleAbsentKeyGroup sampleFilesSecret
      { Type_ := [], Key := str "absent", Filename := str "absent.txt", SecretContent := [] }
      (by decide) (by decide) (by rfl) (by decide) (by decide)).1,
   (validateConfigFiles_absent_key_fails samplePkg sampleFilesStore (str "quay")
      [sampleWholeSecretGroup, sampleAbsentKeyGroup] sampleAbsentKeyGroup sampleFilesSecret
      { Type_ := [], Key := str "absent", Filename := str "absent.txt", SecretContent := [] }
      (by decide) (by decide) (by rfl) (by decide) (by decide)).2
      [sampleWholeSecretGroup] [] (by rfl)
      (by
        intro g1 hg1
        rw [List.mem_singleton] at hg1
        subst hg1
        exact ⟨by decide, sampleFilesSecret, by rfl, by decide⟩)⟩

theorem runBlocks_clairBlind (l : List Block) (h : ∀ b ∈ l, ClairBlind b) :
    ClairBlind (runBlocks l) := by
  induction l with
  | nil => intro clair q; rfl
  | cons b t ih =>
    intro clair q
    have hb := h b (List.mem_cons_self _ _) clair q
    have ht := ih (fun b1 hb1 => h b1 (List.mem_cons_of_mem _ hb1))
    simp only [runBlocks]
    rw [hb]
    rcases hbq : b q with ⟨q1, _ | e⟩
    · simp only
      exact ht clair q1
    · rfl

theorem validateImagePullSecret_clairBlind (client : Client) (f : QuayConfiguration → GoString)
    (failure : String) (hf : ∀ clair q, f (setClair clair q) = f q) :
    ClairBlind (validateImagePullSecret client f failure) := by
  intro clair q
  unfold validateImagePullSecret
  rw [hf]
  simp only [setClair]
  (repeat' split) <;> rfl

theorem validateRegistryBackendsLoop_clairBlind (K : Pkg) (client : Client)
    (l : List RegistryBackend) : ClairBlind (validateRegistryBackendsLoop K client l) := by
  induction l with
  | nil => intro clair q; rfl
  | cons b t ih =>
    intro clair q
    unfold validateRegistryBackendsLoop
    simp only [setClair]
    split
    · rfl
    · split
      · rfl
      · rename_i m _
        exact ih clair { q with RegistryBackends := q.RegistryBackends ++ [m] }

/-- No stretch of `Validate` before the scanner reads the scanner descriptor. -/
theorem blocksBeforeClair_clairBlind (K : Pkg) (client : Client) :
    ∀ b ∈ blocksBeforeClair K client, ClairBlind b := by
  intro b hb
  simp only [blocksBeforeClair, blocksBeforeBackends, List.cons_append, List.nil_append,
    List.mem_cons, List.mem_singleton, List.not_mem_nil, or_false] at hb
  rcases hb with rfl | rfl | rfl | rfl | rfl | rfl | rfl | hb
  · intro clair q
    unfold validateSuperuserCredentials setClair
    dsimp only
    (repeat' split) <;> rfl
  · intro clair q
    unfold validateSuperuserPassword setClair
    dsimp only
    (repeat' split) <;> rfl
  · intro clair q
    unfold validateConfigSecret setClair
    dsimp only
    (repeat' split) <;> rfl
  · exact validateImagePullSecret_clairBlind client _ _ (fun _ _ => rfl)
  · exact validateImagePullSecret_clairBlind client _ _ (fun _ _ => rfl)
  · intro clair q
    unfold validateRedisCredentials setClair
    dsimp only
    (repeat' split) <;> rfl
  · exact validateImagePullSecret_clairBlind client _ _ (fun _ _ => rfl)
  rcases hb with rfl | rfl | rfl | rfl | rfl | rfl | rfl | rfl
  · intro clair q
    unfold validateDatabaseCredentials setClair
    dsimp only
    (repeat' split) <;> rfl
  · intro clair q
    unfold validateDatabaseVolumeSize setClair
    dsimp only
    (repeat' split) <;> rfl
  · intro clair q
    unfold validateRegistryStorage setClair
    dsimp only
    (repeat' split) <;> rfl
  · intro clair q
    unfold validateQuayConfigFiles setClair
    dsimp only
    (repeat' split) <;> rfl
  · intro clair q
    unfold validateHostname setClair
    dsimp only
    (repeat' split) <;> rfl
  · intro clair q
    unfold validateRoute setClair
    dsimp only
    (repeat' split) <;> rfl
  · intro clair q
    unfold validateRegistryBackends
    exact validateRegistryBackendsLoop_clairBlind K client _ clair q
  · intro clair q
    unfold validateSslCertificate setClair
    dsimp only
    (repeat' split) <;> rfl

theorem validateRegistryBackendsLoop_scannerOutput (K : Pkg) (client : Client)
    (l : List RegistryBackend) :
    ∀ q, scannerOutput (validateRegistryBackendsLoop K client l q).1 = scannerOutput q := by
  induction l with
  | nil => intro q; rfl
  | cons b t ih =>
    intro q
    unfold validateRegistryBackendsLoop
    split
    · rfl
    · split
      · rfl
      · rename_i m _
        exact ih { q with RegistryBackends := q.RegistryBackends ++ [m] }

/-- No stretch of `Validate` before the scanner writes a scanner output field. -/
theorem blocksBeforeClair_scannerOutput (K : Pkg) (client : Client) :
    ∀ b ∈ blocksBeforeClair K client, ∀ q, scannerOutput (b q).1 = scannerOutput q := by
  intro b hb q
  simp only [blocksBeforeClair, blocksBeforeBackends, List.cons_append, List.nil_append,
    List.mem_cons, List.mem_singleton, List.not_mem_nil, or_false] at hb
  rcases hb with rfl | rfl | rfl | rfl | rfl | rfl | rfl | hb
  · unfold validateSuperuserCredentials; (repeat' split) <;> rfl
  · unfold validateSuperuserPassword; (repeat' split) <;> rfl
  · unfold validateConfigSecret; (repeat' split) <;> rfl
  · unfold validateQuayImagePullSecret; rw [validateImagePullSecret_fst]
  · unfold validateRedisImagePullSecret; rw [validateImagePullSecret_fst]
  · unfold validateRedisCredentials; (repeat' split) <;> rfl
  · unfold validateDatabaseImagePullSecret; rw [validateImagePullSecret_fst]
  rcases hb with rfl | rfl | rfl | rfl | rfl | rfl | rfl | rfl
  · unfold validateDatabaseCredentials; (repeat' split) <;> rfl
  · unfold validateDatabaseVolumeSize; (repeat' split) <;> rfl
  · unfold validateRegistryStorage; (repeat' split) <;> rfl
  · unfold validateQuayConfigFiles; (repeat' split) <;> rfl
  · unfold validateHostname; (repeat' split) <;> rfl
  · unfold validateRoute; (repeat' split) <;> rfl
  · unfold validateRegistryBackends
    exact validateRegistryBackendsLoop_scannerOutput K client _ q
  · unfold validateSslCertificate; (repeat' split) <;> rfl

/-- The scanner stretch on a configuration whose scanner is undeclared or not enabled: it
returns at once, without error and without a write. -/
theorem validateClair_off (K : Pkg) (client : Client) (q : QuayConfiguration)
    (h : scannerOff q.QuayEcosystem.Spec.Clair = true) : validateClair K client q = (q, none) := by
  unfold validateClair
  cases hc : q.QuayEcosystem.Spec.Clair with
  | none => rfl
  | some clair =>
    rw [hc] at h
    simp only [scannerOff, Bool.not_eq_true'] at h
    simp [h]

/-- With the scanner undeclared or not enabled, a run of all stretches is the run of the
stretches before the scanner. -/
theorem runBlocks_scannerOff (K : Pkg) (client : Client) (q : QuayConfiguration)
    (h : scannerOff q.QuayEcosystem.Spec.Clair = true) :
    runBlocks (allBlocks K client) q = runBlocks (blocksBeforeClair K client) q := by
  have hall : allBlocks K client = blocksBeforeClair K client ++ validateClair K client :: [] := by
    simp [allBlocks, blocksBeforeClair, blocksFromBackends]
  rw [hall, runBlocks_skip, List.append_nil]
  intro q1 hq1
  apply validateClair_off
  have hc := beforeClair_clair K client q
  rw [← hq1]
  unfold blocksBeforeClair
  rw [hc]
  exact h

/-- C23. For every request whose scanner is undeclared or declared but not enabled, every
scanner descriptor `clair2` that is likewise undeclared or not enabled, and every store:
`Validate` on the request with its scanner descriptor replaced by `clair2` returns the same
success flag and the same error as on the request itself, and leaves the same configuration but
for the replaced descriptor; both runs leave the scanner output fields (scanner database
credentials and their flag, update interval, scanner config files) as they were; and the result
of `Validate` is the result of the stretches before the scanner alone, so nothing inside a
scanner descriptor that is not enabled can make the request fail. -/
theorem Validate_scanner_gated (K : Pkg) (client : Client) (q : QuayConfiguration)
    (clair2 : Option Clair)
    (hoff : scannerOff q.QuayEcosystem.Spec.Clair = true) (hoff2 : scannerOff clair2 = true) :
    Validate K client (setClair clair2 q) =
      { valid := (Validate K client q).valid
        err := (Validate K client q).err
        cfg := setClair clair2 (Validate K client q).cfg } ∧
    scannerOutput (Validate K client q).cfg = scannerOutput q ∧
    scannerOutput (Validate K client (setClair clair2 q)).cfg = scannerOutput q ∧
    Validate K client q = resultOf (runBlocks (blocksBeforeClair K client) q) ∧
    Validate K client (setClair clair2 q)
      = resultOf (runBlocks (blocksBeforeClair K client) (setClair clair2 q)) := by
  have h1 : Validate K client q = resultOf (runBlocks (blocksBeforeClair K client) q) := by
    rw [Validate_eq_resultOf, runBlocks_scannerOff K client q hoff]
  have h2 : Validate K client (setClair clair2 q)
      = resultOf (runBlocks (blocksBeforeClair K client) (setClair clair2 q)) := by
    rw [Validate_eq_resultOf, runBlocks_scannerOff K client (setClair clair2 q) hoff2]
  have hblind := runBlocks_clairBlind _ (blocksBeforeClair_clairBlind K client) clair2 q
  have hout := runBlocks_preserves scannerOutput _ (blocksBeforeClair_scannerOutput K client) q
  have hsame : Validate K client (setClair clair2 q) =
      { valid := (Validate K client q).valid
        err := (Validate K client q).err
        cfg := setClair clair2 (Validate K client q).cfg } := by
    rw [h2, hblind, h1]
    rcases runBlocks (blocksBeforeClair K client) q with ⟨q1, _ | e⟩ <;> rfl
  have hout1 : scannerOutput (Validate K client q).cfg = scannerOutput q := by
    rw [h1, (resultOf_valid _).2.2]
    exact hout
  refine ⟨hsame, hout1, ?_, h1, h2⟩
  rw [hsame]
  exact hout1

theorem Validate_scanner_gated_witness :
    (Validate strictDurationPkg (storeOf [])
        (setClair (some (sampleBrokenScanner false)) sampleConfiguration) =
      { valid := (Validate strictDurationPkg (storeOf []) sampleConfiguration).valid
        err := (Validate strictDurationPkg (storeOf []) sampleConfiguration).err
        cfg := setClair (some (sampleBrokenScanner false))
          (Validate strictDurationPkg (storeOf []) sampleConfiguration).cfg }) ∧
    (Validate strictDurationPkg (storeOf [])
        (setClair (some (sampleBrokenScanner false)) sampleConfiguration)).valid = true ∧
    (Validate strictDurationPkg (storeOf [])
        (setClair (some (sampleBrokenScanner true)) sampleConfiguration)).valid = false :=
  ⟨(Validate_scanner_gated strictDurationPkg (storeOf []) sampleConfiguration
      (some (sampleBrokenScanner false)) (by decide) (by decide)).1,
   by decide, by decide⟩

/-- The seven variant stretches on a backend that sets none of the seven variants: each is
skipped, for every store, and the copy stays equal to the declaration. -/
theorem validateRegistryBackend_noNonLocalVariant (K : Pkg) (client : Client) (ns : GoString)
    (b : RegistryBackend) (h : b.noNonLocalVariant = true) :
    validateRegistryBackend K client ns b = .ok b := by
  simp only [RegistryBackend.noNonLocalVariant, Bool.and_eq_true, Option.isNone_iff_eq_none] at h
  obtain ⟨⟨⟨⟨⟨⟨h1, h2⟩, h3⟩, h4⟩, h5⟩, h6⟩, h7⟩ := h
  simp [validateRegistryBackend, validateS3, validateAzure, validateGoogleCloud, validateRHOCS,
    validateRADOS, validateSwift, validateCloudfrontS3, h1, h2, h3, h4, h5, h6, h7, Except.bind]

/-- One turn of the registry backends loop on a backend that sets none of the seven variants and
is not a Local backend under replication: the loop appends the declaration itself and goes on. -/
theorem validateRegistryBackendsLoop_noNonLocalVariant (K : Pkg) (client : Client)
    (b : RegistryBackend) (rest : List RegistryBackend) (q : QuayConfiguration)
    (h : b.noNonLocalVariant = true)
    (hlocal : q.QuayEcosystem.Spec.Quay.EnableStorageReplication = false ∨ b.Local = none) :
    validateRegistryBackendsLoop K client (b :: rest) q =
      validateRegistryBackendsLoop K client rest
        { q with RegistryBackends := q.RegistryBackends ++ [b] } := by
  have hcond : (q.QuayEcosystem.Spec.Quay.EnableStorageReplication && b.Local.isSome) = false := by
    rcases hlocal with h1 | h1 <;> simp [h1]
  simp only [validateRegistryBackendsLoop]
  rw [hcond, validateRegistryBackend_noNonLocalVariant K client _ b h]
  simp

theorem runBlocks_backendsBlind (l : List Block) (h : ∀ b ∈ l, BackendsBlind b) :
    BackendsBlind (runBlocks l) := by
  induction l with
  | nil => intro d r q; rfl
  | cons b t ih =>
    intro d r q
    have hb := h b (List.mem_cons_self _ _) d r q
    have ht := ih (fun b1 hb1 => h b1 (List.mem_cons_of_mem _ hb1))
    simp only [runBlocks]
    rw [hb]
    rcases hbq : b q with ⟨q1, _ | e⟩
    · simp only
      exact ht d r q1
    · rfl

theorem validateImagePullSecret_backendsBlind (client : Client) (f : QuayConfiguration → GoString)
    (failure : String) (hf : ∀ d r q, f (setBackends d r q) = f q) :
    BackendsBlind (validateImagePullSecret client f failure) := by
  intro d r q
  unfold validateImagePullSecret
  rw [hf]
  simp only [setBackends]
  (repeat' split) <;> rfl

theorem validateClair_backendsBlind (K : Pkg) (client : Client) :
    BackendsBlind (validateClair K client) := by
  intro d r q
  unfold validateClair
  simp only [setBackends]
  split
  · rfl
  · rename_i clair _
    split
    · apply runBlocks_backendsBlind
      intro b hb
      simp only [List.mem_cons, List.mem_singleton, List.not_mem_nil, or_false] at hb
      rcases hb with rfl | rfl | rfl | rfl
      · exact validateImagePullSecret_backendsBlind client _ _ (fun _ _ _ => rfl)
      · intro d r q
        unfold validateClairUpdateInterval setBackends
        dsimp only
        (repeat' split) <;> rfl
      · intro d r q
        unfold validateClairDatabase setBackends
        dsimp only
        (repeat' split) <;> rfl
      · intro d r q
        unfold validateClairConfigFiles setBackends
        dsimp only
        (repeat' split) <;> rfl
    · rfl

/-- No stretch of `Validate` before the registry backends loop reads the declared or the
resolved backends. -/
theorem blocksBeforeBackends_backendsBlind (K : Pkg) (client : Client) :
    ∀ b ∈ blocksBeforeBackends K client, BackendsBlind b := by
  intro b hb
  simp only [blocksBeforeBackends, List.mem_cons, List.mem_singleton, List.not_mem_nil,
    or_false] at hb
  rcases hb with rfl | rfl | rfl | rfl | rfl | rfl | rfl | hb
  · intro d r q
    unfold validateSuperuserCredentials setBackends
    dsimp only
    (repeat' split) <;> rfl
  · intro d r q
    unfold validateSuperuserPassword setBackends
    dsimp only
    (repeat' split) <;> rfl
  · intro d r q
    unfold validateConfigSecret setBackends
    dsimp only
    (repeat' split) <;> rfl
  · exact validateImagePullSecret_backendsBlind client _ _ (fun _ _ _ => rfl)
  · exact validateImagePullSecret_backendsBlind client _ _ (fun _ _ _ => rfl)
  · intro d r q
    unfold validateRedisCredentials setBackends
    dsimp only
    (repeat' split) <;> rfl
  · exact validateImagePullSecret_backendsBlind client _ _ (fun _ _ _ => rfl)
  rcases hb with rfl | rfl | rfl | rfl | rfl | rfl
  · intro d r q
    unfold validateDatabaseCredentials setBackends
    dsimp only
    (repeat' split) <;> rfl
  · intro d r q
    unfold validateDatabaseVolumeSize setBackends
    dsimp only
    (repeat' split) <;> rfl
  · intro d r q
    unfold validateRegistryStorage setBackends
    dsimp only
    (repeat' split) <;> rfl
  · intro d r q
    unfold validateQuayConfigFiles setBackends
    dsimp only
    (repeat' split) <;> rfl
  · intro d r q
    unfold validateHostname setBackends
    dsimp only
    (repeat' split) <;> rfl
  · intro d r q
    unfold validateRoute setBackends
    dsimp only
    (repeat' split) <;> rfl

/-- The stretches after the registry backends loop read neither the declared nor the resolved
backends. -/
theorem blocksAfterBackends_backendsBlind (K : Pkg) (client : Client) :
    ∀ b ∈ [validateSslCertificate K client, validateClair K client], BackendsBlind b := by
  intro b hb
  simp only [List.mem_cons, List.mem_singleton, List.not_mem_nil, or_false] at hb
  rcases hb with rfl | rfl
  · intro d r q
    unfold validateSslCertificate setBackends
    dsimp only
    (repeat' split) <;> rfl
  · exact validateClair_backendsBlind K client

/-- The registry backends loop over a given list reads the configuration for the namespace and
the replication flag only: on the configuration with the declared and resolved lists replaced it
returns the same error, and the same configuration but for these two lists. -/
theorem validateRegistryBackendsLoop_setBackends (K : Pkg) (client : Client)
    (l : List RegistryBackend) :
    ∀ (d r : List RegistryBackend) (q : QuayConfiguration), ∃ r1,
      validateRegistryBackendsLoop K client l (setBackends d r q) =
        (setBackends d r1 (validateRegistryBackendsLoop K client l q).1,
          (validateRegistryBackendsLoop K client l q).2) := by
  induction l with
  | nil => intro d r q; exact ⟨r, rfl⟩
  | cons x t ih =>
    intro d r q
    by_cases hc : (q.QuayEcosystem.Spec.Quay.EnableStorageReplication && x.Local.isSome) = true
    · refine ⟨r, ?_⟩
      simp only [validateRegistryBackendsLoop, setBackends, hc, if_true]
    · rcases hv : validateRegistryBackend K client q.QuayEcosystem.Namespace x with e | m
      · refine ⟨r, ?_⟩
        simp only [validateRegistryBackendsLoop, setBackends, hc, hv]
        rfl
      · obtain ⟨r1, h1⟩ := ih d (r ++ [m]) { q with RegistryBackends := q.RegistryBackends ++ [m] }
        refine ⟨r1, ?_⟩
        simp only [validateRegistryBackendsLoop, setBackends, hc, hv]
        exact h1

/-- The registry backends loop over two lists that differ in one backend, where both versions of
that backend set none of the seven variants and agree on `Local`: the two runs return the same
error, and the same configuration but for the declared and resolved lists. -/
theorem validateRegistryBackendsLoop_swap (K : Pkg) (client : Client) (b b2 : RegistryBackend)
    (post : List RegistryBackend) (hb : b.noNonLocalVariant = true)
    (hb2 : b2.noNonLocalVariant = true) (hsame : b2.Local = b.Local)
    (before : List RegistryBackend) :
    ∀ (d r : List RegistryBackend) (q : QuayConfiguration),
      (q.QuayEcosystem.Spec.Quay.EnableStorageReplication = false ∨ b.Local = none) → ∃ r1,
      validateRegistryBackendsLoop K client (before ++ b2 :: post) (setBackends d r q) =
        (setBackends d r1 (validateRegistryBackendsLoop K client (before ++ b :: post) q).1,
          (validateRegistryBackendsLoop K client (before ++ b :: post) q).2) := by
  induction before with
  | nil =>
    intro d r q hlocal
    have hlocal2 : (setBackends d r q).QuayEcosystem.Spec.Quay.EnableStorageReplication = false
        ∨ b2.Local = none := by
      rw [hsame]
      exact hlocal
    rw [List.nil_append, List.nil_append,
      validateRegistryBackendsLoop_noNonLocalVariant K client b2 post _ hb2 hlocal2,
      validateRegistryBackendsLoop_noNonLocalVariant K client b post q hb hlocal]
    exact validateRegistryBackendsLoop_setBackends K client post d (r ++ [b2])
      { q with RegistryBackends := q.RegistryBackends ++ [b] }
  | cons x t ih =>
    intro d r q hlocal
    by_cases hc : (q.QuayEcosystem.Spec.Quay.EnableStorageReplication && x.Local.isSome) = true
    · refine ⟨r, ?_⟩
      simp only [List.cons_append, validateRegistryBackendsLoop, setBackends, hc, if_true]
    · rcases hv : validateRegistryBackend K client q.QuayEcosystem.Namespace x with e | m
      · refine ⟨r, ?_⟩
        simp only [List.cons_append, validateRegistryBackendsLoop, setBackends, hc, hv]
        rfl
      · obtain ⟨r1, h1⟩ := ih d (r ++ [m])
          { q with RegistryBackends := q.RegistryBackends ++ [m] } hlocal
        refine ⟨r1, ?_⟩
        simp only [List.cons_append, validateRegistryBackendsLoop, setBackends, hc, hv]
        exact h1

/-- A run of all stretches on two requests that differ in one declared backend, where both
versions of that backend set none of the seven variants and agree on `Local`: the two runs return
the same error, and the same configuration but for the declared and resolved lists. -/
theorem runBlocks_swap (K : Pkg) (client : Client) (q : QuayConfiguration)
    (b b2 : RegistryBackend) (before post : List RegistryBackend)
    (hb : b.noNonLocalVariant = true) (hb2 : b2.noNonLocalVariant = true)
    (hsame : b2.Local = b.Local)
    (hlocal : q.QuayEcosystem.Spec.Quay.EnableStorageReplication = false ∨ b.Local = none)
    (hdecl : q.QuayEcosystem.Spec.Quay.RegistryBackends = before ++ b :: post) :
    ∃ r1, runBlocks (allBlocks K client)
        (setBackends (before ++ b2 :: post) q.RegistryBackends q) =
      (setBackends (before ++ b2 :: post) r1 (runBlocks (allBlocks K client) q).1,
        (runBlocks (allBlocks K client) q).2) := by
  have hall : allBlocks K client = blocksBeforeBackends K client ++
      (validateRegistryBackends K client ::
        [validateSslCertificate K client, validateClair K client]) := rfl
  have hpre := runBlocks_backendsBlind _ (blocksBeforeBackends_backendsBlind K client)
    (before ++ b2 :: post) q.RegistryBackends q
  have hview := blocksBeforeBackends_view K client q
  rw [hall, runBlocks_append, runBlocks_append, hpre]
  rcases hs : runBlocks (blocksBeforeBackends K client) q with ⟨s1, _ | e⟩
  · rw [hs] at hview
    simp only [backendView, Prod.mk.injEq] at hview
    obtain ⟨_, _, hd, hrep⟩ := hview
    have hlocal1 : s1.QuayEcosystem.Spec.Quay.EnableStorageReplication = false ∨ b.Local = none := by
      rw [hrep]
      exact hlocal
    obtain ⟨r1, h1⟩ := validateRegistryBackendsLoop_swap K client b b2 post hb hb2 hsame before
      (before ++ b2 :: post) q.RegistryBackends s1 hlocal1
    have hloop2 : validateRegistryBackends K client
        (setBackends (before ++ b2 :: post) q.RegistryBackends s1)
        = validateRegistryBackendsLoop K client (before ++ b2 :: post)
            (setBackends (before ++ b2 :: post) q.RegistryBackends s1) := rfl
    have hloop : validateRegistryBackends K client s1
        = validateRegistryBackendsLoop K client (before ++ b :: post) s1 := by
      unfold validateRegistryBackends
      rw [hd, hdecl]
    simp only [runBlocks]
    rw [hloop2, hloop, h1]
    rcases validateRegistryBackendsLoop K client (before ++ b :: post) s1 with ⟨t1, _ | e⟩
    · have htail := runBlocks_backendsBlind _ (blocksAfterBackends_backendsBlind K client)
        (before ++ b2 :: post) r1 t1
      simp only [runBlocks] at htail
      exact ⟨r1, htail⟩
    · exact ⟨r1, rfl⟩
  · exact ⟨q.RegistryBackends, rfl⟩

/-- C24. For every declared registry backend that sets none of the seven non-Local variants and
is not a Local backend under replication: the variant stretches return the declaration itself,
for every store and namespace, so without a lookup of its credentials secret and with the
reference kept; the loop of `Validate`, at that backend, appends the declaration to the resolved
list and goes on, for every store; when `Validate` succeeds, the entry of the resolved list at
the position of the backend equals the declaration; and `Validate` returns the same success flag
and the same error on the request in which the backend names any other credentials secret, or
none, so the outcome does not depend on the secret that the backend names. -/
theorem Validate_backend_without_variant (K : Pkg) (client : Client) (q : QuayConfiguration)
    (b : RegistryBackend) (hnone : b.noNonLocalVariant = true)
    (hlocal : q.QuayEcosystem.Spec.Quay.EnableStorageReplication = false ∨ b.Local = none) :
    (∀ (client2 : Client) (ns : GoString), validateRegistryBackend K client2 ns b = .ok b) ∧
    (∀ (client2 : Client) (rest : List RegistryBackend) (q1 : QuayConfiguration),
      q1.QuayEcosystem.Spec.Quay.EnableStorageReplication
        = q.QuayEcosystem.Spec.Quay.EnableStorageReplication →
      validateRegistryBackendsLoop K client2 (b :: rest) q1 =
        validateRegistryBackendsLoop K client2 rest
          { q1 with RegistryBackends := q1.RegistryBackends ++ [b] }) ∧
    (∀ i : Nat, q.QuayEcosystem.Spec.Quay.RegistryBackends[i]? = some b →
      (Validate K client q).valid = true →
      (Validate K client q).cfg.RegistryBackends[q.RegistryBackends.length + i]? = some b) ∧
    (∀ (before post : List RegistryBackend) (name2 : GoString),
      q.QuayEcosystem.Spec.Quay.RegistryBackends = before ++ b :: post →
      (Validate K client { q with QuayEcosystem.Spec.Quay.RegistryBackends :=
          before ++ { b with CredentialsSecretName := name2 } :: post }).valid
        = (Validate K client q).valid ∧
      (Validate K client { q with QuayEcosystem.Spec.Quay.RegistryBackends :=
          before ++ { b with CredentialsSecretName := name2 } :: post }).err
        = (Validate K client q).err) := by
  refine ⟨fun client2 ns => validateRegistryBackend_noNonLocalVariant K client2 ns b hnone, ?_, ?_, ?_⟩
  · intro client2 rest q1 hrep
    apply validateRegistryBackendsLoop_noNonLocalVariant K client2 b rest q1 hnone
    rw [hrep]
    exact hlocal
  · intro i hi hvalid
    obtain ⟨q1, ms, _, hcfg, hall⟩ := Validate_valid K client q hvalid
    obtain ⟨m, hm, _, hok⟩ := forall₂_getElem hall i b hi
    rw [validateRegistryBackend_noNonLocalVariant K client _ b hnone] at hok
    cases hok
    rw [hcfg, List.getElem?_append_right (Nat.le_add_right _ _), Nat.add_sub_cancel_left]
    exact hm
  · intro before post name2 hdecl
    obtain ⟨r1, h1⟩ := runBlocks_swap K client q b { b with CredentialsSecretName := name2 }
      before post hnone hnone rfl hlocal hdecl
    have hq2 : ({ q with QuayEcosystem.Spec.Quay.RegistryBackends :=
          before ++ { b with CredentialsSecretName := name2 } :: post } : QuayConfiguration)
        = setBackends (before ++ { b with CredentialsSecretName := name2 } :: post)
            q.RegistryBackends q := rfl
    rw [hq2, Validate_eq_resultOf, Validate_eq_resultOf, h1]
    rcases runBlocks (allBlocks K client) q with ⟨t, _ | e⟩ <;> exact ⟨rfl, rfl⟩

theorem Validate_backend_without_variant_witness :
    sampleLocalNamingSecret.CredentialsSecretName = str "absent" ∧
    (Validate samplePkg (storeOf [])
        (sampleWithBackends false [sampleLocalNamingSecret])).cfg.RegistryBackends[
          (sampleWithBackends false [sampleLocalNamingSecret]).RegistryBackends.length + 0]?
      = some sampleLocalNamingSecret :=
  ⟨by decide,
   (Validate_backend_without_variant samplePkg (storeOf [])
      (sampleWithBackends false [sampleLocalNamingSecret]) sampleLocalNamingSecret
      (by decide) (Or.inl (by decide))).2.2.1 0 (by decide) (by decide)⟩

/-- C12 as stated, in characters, fails on a password that comes from a secret. The store holds
the superuser secret `quay/superuser` whose password `pässwor` has seven characters and eight
bytes; the request names that secret, setup is neither skipped nor complete. The password in
effect is shorter than 8 characters, and `Validate` succeeds with that password in the output. -/
theorem Validate_superuser_password_characters_counterexample :
    characterCount sampleSevenCharacterPassword = 7
      ∧ sampleSevenCharacterPassword.length = 8
      ∧ superuserPasswordInEffect samplePkg
          (storeOf [((str "quay", str "superuser"), sampleSevenCharacterSuperuser)])
          { sampleConfiguration with
            QuayEcosystem.Spec.Quay.SuperuserCredentialsSecretName := str "superuser" }
          = some sampleSevenCharacterPassword
      ∧ (Validate samplePkg
          (storeOf [((str "quay", str "superuser"), sampleSevenCharacterSuperuser)])
          { sampleConfiguration with
            QuayEcosystem.Spec.Quay.SuperuserCredentialsSecretName := str "superuser" }).valid
          = true
      ∧ characterCount (Validate samplePkg
          (storeOf [((str "quay", str "superuser"), sampleSevenCharacterSuperuser)])
          { sampleConfiguration with
            QuayEcosystem.Spec.Quay.SuperuserCredentialsSecretName := str "superuser"
          }).cfg.InitialQuaySuperuserPassword = 7 := by
  refine ⟨by decide, by decide, by rfl, by decide, by decide⟩

/-- C13 as stated, in characters, fails on a literal password. The request names no superuser
credentials secret and carries the literal password `pässwor`, of seven characters and eight
bytes; in the store every lookup fails. `Validate` returns `(true, nil)`, not the
password-length error. -/
theorem Validate_short_literal_password_characters_counterexample :
    ({ sampleConfiguration with InitialQuaySuperuserPassword := sampleSevenCharacterPassword }
        : QuayConfiguration).QuayEcosystem.Spec.Quay.SuperuserCredentialsSecretName = []
      ∧ characterCount sampleSevenCharacterPassword = 7
      ∧ sampleSevenCharacterPassword.length = 8
      ∧ Validate samplePkg (storeOf [])
          { sampleConfiguration with InitialQuaySuperuserPassword := sampleSevenCharacterPassword }
          = { valid := true
              err := none
              cfg := { sampleConfiguration with
                InitialQuaySuperuserPassword := sampleSevenCharacterPassword } }
      ∧ (Validate samplePkg (storeOf [])
          { sampleConfiguration with
            InitialQuaySuperuserPassword := sampleSevenCharacterPassword }).err
          ≠ some (Errorf (str "Quay Superuser Password Must Be At Least 8 Characters in Length")) := by
  refine ⟨by decide, by decide, by decide, by decide, by decide⟩

end Validation
